import Mathlib

/-!
# AGRO-MITRA: the market price resolution engine

A shallow embedding of `src/services/marketPriceService.js` (with the schema of
`src/models/MarketPrice.js` and the `marketPrice` field of `src/models/Crop.js`).

Conventions of the embedding:

* JavaScript values are the type `JsVal`.  Numbers are IEEE 754 binary64
  values: a finite one is the rational that it denotes, the decimal literals of
  the source denote the nearest binary64 value, and every arithmetic operation
  rounds its exact result to the nearest binary64 value (ties to even) or
  overflows to an infinity.  The two zeros are not told apart.
* An evaluation completes normally or throws (`Completion`); a statement
  `try ... catch` is `tryCatch`.  The adapters catch what their block `try`
  throws, and `getMarketPrice` answers from its block `catch` when a step of its
  block `try` throws.
* Promises are run to completion: every `async` function is a function from the
  environment (what the upstream services and the database driver answer) and the
  store to its result and the new store.
* Property reads `table[key]` on object literals follow the prototype chain, as
  in JavaScript: a key that names a member of `Object.prototype` reads a
  function, and a read on that function finds its own members, those of
  `Function.prototype` (of which `caller` and `arguments` throw) and those of
  `Object.prototype`.
* `toLowerCase` is the default case conversion of Unicode (version 14), with its
  two unconditional special cases.
* The update of `saveToCacheDB` is cast by the schema: a price that cannot be
  cast to a number and an arrival date that is no date make the update reject.
-/

namespace AgroMitra

/-! ## JavaScript values -/

/-- JavaScript values reaching the price engine. `num q` is a finite number
(the two zeros are not told apart: no step of the program divides by a computed
zero or prints its sign), `inf negative` an infinity. `obj text` is an object,
an array or a function whose conversion to a string is `text`: a member
inherited from `Object.prototype`, a value of a JSON document. It is truthy and
converts to a number as its text does. An object whose conversion would throw
(one with own members `toString` and `valueOf` that are no functions) is not
represented. -/
inductive JsVal where
  | undefined : JsVal
  | null : JsVal
  | bool (b : Bool) : JsVal
  | num (q : ℚ) : JsVal
  | inf (negative : Bool) : JsVal
  | nan : JsVal
  | str (s : String) : JsVal
  | obj (text : String) : JsVal
  deriving DecidableEq, Repr

namespace JsVal

/-- ToBoolean. -/
def truthy : JsVal → Bool
  | undefined => false
  | null => false
  | bool b => b
  | num q => decide (q ≠ 0)
  | inf _ => true
  | nan => false
  | str s => decide (s ≠ "")
  | obj _ => true

/-- The operator `a || b`. -/
def or (a b : JsVal) : JsVal := if a.truthy then a else b

/-- The operator `a && b`. -/
def and (a b : JsVal) : JsVal := if a.truthy then b else a

/-- The operator `a ?? b`. -/
def nullish (a b : JsVal) : JsVal :=
  match a with
  | undefined => b
  | null => b
  | _ => a

end JsVal

/-- A thrown value. Every value thrown in this program is an `Error` object: a
`TypeError` or `SyntaxError` of the language, or the error with which a library
rejects a promise; only its message is kept. -/
structure Thrown where
  message : String
  deriving DecidableEq, Repr

/-- How an evaluation completes: normally with a value, or by throwing. -/
inductive Completion (α : Type) where
  | normal (value : α) : Completion α
  | throws (error : Thrown) : Completion α
  deriving DecidableEq, Repr

/-- The statement `try { body } catch (error) { handler }`. -/
def tryCatch {α : Type} (body : Completion α) (handler : Thrown → Completion α) :
    Completion α :=
  match body with
  | Completion.normal value => Completion.normal value
  | Completion.throws error => handler error

/-! ## Strings

Strings are sequences of Unicode code points; lone surrogates are not
represented. -/

/-- White space in the sense of `String.prototype.trim` and of the regular
expression class `\s`. -/
def isWs (c : Char) : Bool :=
  let n := c.toNat
  n == 9 || n == 10 || n == 11 || n == 12 || n == 13 || n == 32 || n == 160 ||
  n == 5760 || (8192 ≤ n && n ≤ 8202) || n == 8232 || n == 8233 || n == 8239 ||
  n == 8287 || n == 12288 || n == 65279

/-- Removal of trailing white space. -/
def trimEnd : List Char → List Char
  | [] => []
  | c :: cs =>
    match trimEnd cs with
    | [] => if isWs c then [] else [c]
    | r => c :: r

/-- The method `trim` on the characters of a string. -/
def trimChars (l : List Char) : List Char := trimEnd (l.dropWhile isWs)

/-- The replacement `replace(/\s+/g, ' ')`: `inRun` tells that the previous
character belonged to a white space run already replaced. -/
def collapseWs : Bool → List Char → List Char
  | _, [] => []
  | inRun, c :: cs =>
    if isWs c then
      if inRun then collapseWs true cs else ' ' :: collapseWs true cs
    else c :: collapseWs false cs

/-- The expression `location.trim().replace(/\s+/g, ' ')` of `normalizeLocation`. -/
def cleanLocation (s : String) : String :=
  String.mk (collapseWs false (trimChars s.data))

/-- The method `trim` on a string. -/
def jsTrim (s : String) : String := String.mk (trimChars s.data)

/-- The simple lower case mappings of the Unicode Character Database
(version 14) beyond the ASCII letters: the code points `first`, `first + step`,
and so on up to `last` are mapped to themselves plus `shift`. -/
def lowerCaseRanges : List (Nat × Nat × Nat × Int) :=
  [(192, 214, 1, 32), (216, 222, 1, 32), (256, 302, 2, 1), (306, 310, 2, 1), (313, 327, 2, 1),
   (330, 374, 2, 1), (376, 376, 1, -121), (377, 381, 2, 1), (385, 385, 1, 210), (386, 388, 2, 1),
   (390, 390, 1, 206), (391, 391, 1, 1), (393, 394, 1, 205), (395, 395, 1, 1), (398, 398, 1, 79),
   (399, 399, 1, 202), (400, 400, 1, 203), (401, 401, 1, 1), (403, 403, 1, 205),
   (404, 404, 1, 207), (406, 406, 1, 211), (407, 407, 1, 209), (408, 408, 1, 1),
   (412, 412, 1, 211), (413, 413, 1, 213), (415, 415, 1, 214), (416, 420, 2, 1),
   (422, 422, 1, 218), (423, 423, 1, 1), (425, 425, 1, 218), (428, 428, 1, 1), (430, 430, 1, 218),
   (431, 431, 1, 1), (433, 434, 1, 217), (435, 437, 2, 1), (439, 439, 1, 219), (440, 440, 1, 1),
   (444, 444, 1, 1), (452, 452, 1, 2), (453, 453, 1, 1), (455, 455, 1, 2), (456, 456, 1, 1),
   (458, 458, 1, 2), (459, 475, 2, 1), (478, 494, 2, 1), (497, 497, 1, 2), (498, 500, 2, 1),
   (502, 502, 1, -97), (503, 503, 1, -56), (504, 542, 2, 1), (544, 544, 1, -130),
   (546, 562, 2, 1), (570, 570, 1, 10795), (571, 571, 1, 1), (573, 573, 1, -163),
   (574, 574, 1, 10792), (577, 577, 1, 1), (579, 579, 1, -195), (580, 580, 1, 69),
   (581, 581, 1, 71), (582, 590, 2, 1), (880, 882, 2, 1), (886, 886, 1, 1), (895, 895, 1, 116),
   (902, 902, 1, 38), (904, 906, 1, 37), (908, 908, 1, 64), (910, 911, 1, 63), (913, 929, 1, 32),
   (931, 939, 1, 32), (975, 975, 1, 8), (984, 1006, 2, 1), (1012, 1012, 1, -60),
   (1015, 1015, 1, 1), (1017, 1017, 1, -7), (1018, 1018, 1, 1), (1021, 1023, 1, -130),
   (1024, 1039, 1, 80), (1040, 1071, 1, 32), (1120, 1152, 2, 1), (1162, 1214, 2, 1),
   (1216, 1216, 1, 15), (1217, 1229, 2, 1), (1232, 1326, 2, 1), (1329, 1366, 1, 48),
   (4256, 4293, 1, 7264), (4295, 4295, 1, 7264), (4301, 4301, 1, 7264), (5024, 5103, 1, 38864),
   (5104, 5109, 1, 8), (7312, 7354, 1, -3008), (7357, 7359, 1, -3008), (7680, 7828, 2, 1),
   (7838, 7838, 1, -7615), (7840, 7934, 2, 1), (7944, 7951, 1, -8), (7960, 7965, 1, -8),
   (7976, 7983, 1, -8), (7992, 7999, 1, -8), (8008, 8013, 1, -8), (8025, 8031, 2, -8),
   (8040, 8047, 1, -8), (8072, 8079, 1, -8), (8088, 8095, 1, -8), (8104, 8111, 1, -8),
   (8120, 8121, 1, -8), (8122, 8123, 1, -74), (8124, 8124, 1, -9), (8136, 8139, 1, -86),
   (8140, 8140, 1, -9), (8152, 8153, 1, -8), (8154, 8155, 1, -100), (8168, 8169, 1, -8),
   (8170, 8171, 1, -112), (8172, 8172, 1, -7), (8184, 8185, 1, -128), (8186, 8187, 1, -126),
   (8188, 8188, 1, -9), (8486, 8486, 1, -7517), (8490, 8490, 1, -8383), (8491, 8491, 1, -8262),
   (8498, 8498, 1, 28), (8544, 8559, 1, 16), (8579, 8579, 1, 1), (9398, 9423, 1, 26),
   (11264, 11311, 1, 48), (11360, 11360, 1, 1), (11362, 11362, 1, -10743),
   (11363, 11363, 1, -3814), (11364, 11364, 1, -10727), (11367, 11371, 2, 1),
   (11373, 11373, 1, -10780), (11374, 11374, 1, -10749), (11375, 11375, 1, -10783),
   (11376, 11376, 1, -10782), (11378, 11378, 1, 1), (11381, 11381, 1, 1),
   (11390, 11391, 1, -10815), (11392, 11490, 2, 1), (11499, 11501, 2, 1), (11506, 11506, 1, 1),
   (42560, 42604, 2, 1), (42624, 42650, 2, 1), (42786, 42798, 2, 1), (42802, 42862, 2, 1),
   (42873, 42875, 2, 1), (42877, 42877, 1, -35332), (42878, 42886, 2, 1), (42891, 42891, 1, 1),
   (42893, 42893, 1, -42280), (42896, 42898, 2, 1), (42902, 42920, 2, 1),
   (42922, 42922, 1, -42308), (42923, 42923, 1, -42319), (42924, 42924, 1, -42315),
   (42925, 42925, 1, -42305), (42926, 42926, 1, -42308), (42928, 42928, 1, -42258),
   (42929, 42929, 1, -42282), (42930, 42930, 1, -42261), (42931, 42931, 1, 928),
   (42932, 42946, 2, 1), (42948, 42948, 1, -48), (42949, 42949, 1, -42307),
   (42950, 42950, 1, -35384), (42951, 42953, 2, 1), (42960, 42960, 1, 1), (42966, 42968, 2, 1),
   (42997, 42997, 1, 1), (65313, 65338, 1, 32), (66560, 66599, 1, 40), (66736, 66771, 1, 40),
   (66928, 66938, 1, 39), (66940, 66954, 1, 39), (66956, 66962, 1, 39), (66964, 66965, 1, 39),
   (68736, 68786, 1, 64), (71840, 71871, 1, 32), (93760, 93791, 1, 32), (125184, 125217, 1, 34)]

/-- The ranges of the code points with the property Case_Ignorable. -/
def caseIgnorableRanges : List (Nat × Nat) :=
  [(39, 39), (46, 46), (58, 58), (94, 94), (96, 96), (168, 168), (173, 173), (175, 175),
   (180, 180), (183, 184), (688, 879), (884, 885), (890, 890), (900, 901), (903, 903),
   (1155, 1161), (1369, 1369), (1375, 1375), (1425, 1469), (1471, 1471), (1473, 1474),
   (1476, 1477), (1479, 1479), (1524, 1524), (1536, 1541), (1552, 1562), (1564, 1564),
   (1600, 1600), (1611, 1631), (1648, 1648), (1750, 1757), (1759, 1768), (1770, 1773),
   (1807, 1807), (1809, 1809), (1840, 1866), (1958, 1968), (2027, 2037), (2042, 2042),
   (2045, 2045), (2070, 2093), (2137, 2139), (2184, 2184), (2192, 2193), (2200, 2207),
   (2249, 2306), (2362, 2362), (2364, 2364), (2369, 2376), (2381, 2381), (2385, 2391),
   (2402, 2403), (2417, 2417), (2433, 2433), (2492, 2492), (2497, 2500), (2509, 2509),
   (2530, 2531), (2558, 2558), (2561, 2562), (2620, 2620), (2625, 2626), (2631, 2632),
   (2635, 2637), (2641, 2641), (2672, 2673), (2677, 2677), (2689, 2690), (2748, 2748),
   (2753, 2757), (2759, 2760), (2765, 2765), (2786, 2787), (2810, 2815), (2817, 2817),
   (2876, 2876), (2879, 2879), (2881, 2884), (2893, 2893), (2901, 2902), (2914, 2915),
   (2946, 2946), (3008, 3008), (3021, 3021), (3072, 3072), (3076, 3076), (3132, 3132),
   (3134, 3136), (3142, 3144), (3146, 3149), (3157, 3158), (3170, 3171), (3201, 3201),
   (3260, 3260), (3263, 3263), (3270, 3270), (3276, 3277), (3298, 3299), (3328, 3329),
   (3387, 3388), (3393, 3396), (3405, 3405), (3426, 3427), (3457, 3457), (3530, 3530),
   (3538, 3540), (3542, 3542), (3633, 3633), (3636, 3642), (3654, 3662), (3761, 3761),
   (3764, 3772), (3782, 3782), (3784, 3789), (3864, 3865), (3893, 3893), (3895, 3895),
   (3897, 3897), (3953, 3966), (3968, 3972), (3974, 3975), (3981, 3991), (3993, 4028),
   (4038, 4038), (4141, 4144), (4146, 4151), (4153, 4154), (4157, 4158), (4184, 4185),
   (4190, 4192), (4209, 4212), (4226, 4226), (4229, 4230), (4237, 4237), (4253, 4253),
   (4348, 4348), (4957, 4959), (5906, 5908), (5938, 5939), (5970, 5971), (6002, 6003),
   (6068, 6069), (6071, 6077), (6086, 6086), (6089, 6099), (6103, 6103), (6109, 6109),
   (6155, 6159), (6211, 6211), (6277, 6278), (6313, 6313), (6432, 6434), (6439, 6440),
   (6450, 6450), (6457, 6459), (6679, 6680), (6683, 6683), (6742, 6742), (6744, 6750),
   (6752, 6752), (6754, 6754), (6757, 6764), (6771, 6780), (6783, 6783), (6823, 6823),
   (6832, 6862), (6912, 6915), (6964, 6964), (6966, 6970), (6972, 6972), (6978, 6978),
   (7019, 7027), (7040, 7041), (7074, 7077), (7080, 7081), (7083, 7085), (7142, 7142),
   (7144, 7145), (7149, 7149), (7151, 7153), (7212, 7219), (7222, 7223), (7288, 7293),
   (7376, 7378), (7380, 7392), (7394, 7400), (7405, 7405), (7412, 7412), (7416, 7417),
   (7468, 7530), (7544, 7544), (7579, 7679), (8125, 8125), (8127, 8129), (8141, 8143),
   (8157, 8159), (8173, 8175), (8189, 8190), (8203, 8207), (8216, 8217), (8228, 8228),
   (8231, 8231), (8234, 8238), (8288, 8292), (8294, 8303), (8305, 8305), (8319, 8319),
   (8336, 8348), (8400, 8432), (11388, 11389), (11503, 11505), (11631, 11631), (11647, 11647),
   (11744, 11775), (11823, 11823), (12293, 12293), (12330, 12333), (12337, 12341), (12347, 12347),
   (12441, 12446), (12540, 12542), (40981, 40981), (42232, 42237), (42508, 42508), (42607, 42610),
   (42612, 42621), (42623, 42623), (42652, 42655), (42736, 42737), (42752, 42785), (42864, 42864),
   (42888, 42890), (42994, 42996), (43000, 43001), (43010, 43010), (43014, 43014), (43019, 43019),
   (43045, 43046), (43052, 43052), (43204, 43205), (43232, 43249), (43263, 43263), (43302, 43309),
   (43335, 43345), (43392, 43394), (43443, 43443), (43446, 43449), (43452, 43453), (43471, 43471),
   (43493, 43494), (43561, 43566), (43569, 43570), (43573, 43574), (43587, 43587), (43596, 43596),
   (43632, 43632), (43644, 43644), (43696, 43696), (43698, 43700), (43703, 43704), (43710, 43711),
   (43713, 43713), (43741, 43741), (43756, 43757), (43763, 43764), (43766, 43766), (43867, 43871),
   (43881, 43883), (44005, 44005), (44008, 44008), (44013, 44013), (64286, 64286), (64434, 64450),
   (65024, 65039), (65043, 65043), (65056, 65071), (65106, 65106), (65109, 65109), (65279, 65279),
   (65287, 65287), (65294, 65294), (65306, 65306), (65342, 65342), (65344, 65344), (65392, 65392),
   (65438, 65439), (65507, 65507), (65529, 65531), (66045, 66045), (66272, 66272), (66422, 66426),
   (67456, 67461), (67463, 67504), (67506, 67514), (68097, 68099), (68101, 68102), (68108, 68111),
   (68152, 68154), (68159, 68159), (68325, 68326), (68900, 68903), (69291, 69292), (69446, 69456),
   (69506, 69509), (69633, 69633), (69688, 69702), (69744, 69744), (69747, 69748), (69759, 69761),
   (69811, 69814), (69817, 69818), (69821, 69821), (69826, 69826), (69837, 69837), (69888, 69890),
   (69927, 69931), (69933, 69940), (70003, 70003), (70016, 70017), (70070, 70078), (70089, 70092),
   (70095, 70095), (70191, 70193), (70196, 70196), (70198, 70199), (70206, 70206), (70367, 70367),
   (70371, 70378), (70400, 70401), (70459, 70460), (70464, 70464), (70502, 70508), (70512, 70516),
   (70712, 70719), (70722, 70724), (70726, 70726), (70750, 70750), (70835, 70840), (70842, 70842),
   (70847, 70848), (70850, 70851), (71090, 71093), (71100, 71101), (71103, 71104), (71132, 71133),
   (71219, 71226), (71229, 71229), (71231, 71232), (71339, 71339), (71341, 71341), (71344, 71349),
   (71351, 71351), (71453, 71455), (71458, 71461), (71463, 71467), (71727, 71735), (71737, 71738),
   (71995, 71996), (71998, 71998), (72003, 72003), (72148, 72151), (72154, 72155), (72160, 72160),
   (72193, 72202), (72243, 72248), (72251, 72254), (72263, 72263), (72273, 72278), (72281, 72283),
   (72330, 72342), (72344, 72345), (72752, 72758), (72760, 72765), (72767, 72767), (72850, 72871),
   (72874, 72880), (72882, 72883), (72885, 72886), (73009, 73014), (73018, 73018), (73020, 73021),
   (73023, 73029), (73031, 73031), (73104, 73105), (73109, 73109), (73111, 73111), (73459, 73460),
   (78896, 78904), (92912, 92916), (92976, 92982), (92992, 92995), (94031, 94031), (94095, 94111),
   (94176, 94177), (94179, 94180), (110576, 110579), (110581, 110587), (110589, 110590),
   (113821, 113822), (113824, 113827), (118528, 118573), (118576, 118598), (119143, 119145),
   (119155, 119170), (119173, 119179), (119210, 119213), (119362, 119364), (121344, 121398),
   (121403, 121452), (121461, 121461), (121476, 121476), (121499, 121503), (121505, 121519),
   (122880, 122886), (122888, 122904), (122907, 122913), (122915, 122916), (122918, 122922),
   (123184, 123197), (123566, 123566), (123628, 123631), (125136, 125142), (125252, 125259),
   (127995, 127999), (917505, 917505), (917536, 917631), (917760, 917999)]

/-- The ranges of the code points with the property Cased that are not
Case_Ignorable. -/
def casedRanges : List (Nat × Nat) :=
  [(65, 90), (97, 122), (170, 170), (181, 181), (186, 186), (192, 214), (216, 246), (248, 442),
   (444, 447), (452, 659), (661, 687), (880, 883), (886, 887), (891, 893), (895, 895), (902, 902),
   (904, 906), (908, 908), (910, 929), (931, 1013), (1015, 1153), (1162, 1327), (1329, 1366),
   (1376, 1416), (4256, 4293), (4295, 4295), (4301, 4301), (4304, 4346), (4349, 4351),
   (5024, 5109), (5112, 5117), (7296, 7304), (7312, 7354), (7357, 7359), (7424, 7467),
   (7531, 7543), (7545, 7578), (7680, 7957), (7960, 7965), (7968, 8005), (8008, 8013),
   (8016, 8023), (8025, 8025), (8027, 8027), (8029, 8029), (8031, 8061), (8064, 8116),
   (8118, 8124), (8126, 8126), (8130, 8132), (8134, 8140), (8144, 8147), (8150, 8155),
   (8160, 8172), (8178, 8180), (8182, 8188), (8450, 8450), (8455, 8455), (8458, 8467),
   (8469, 8469), (8473, 8477), (8484, 8484), (8486, 8486), (8488, 8488), (8490, 8493),
   (8495, 8500), (8505, 8505), (8508, 8511), (8517, 8521), (8526, 8526), (8544, 8575),
   (8579, 8580), (9398, 9449), (11264, 11387), (11390, 11492), (11499, 11502), (11506, 11507),
   (11520, 11557), (11559, 11559), (11565, 11565), (42560, 42605), (42624, 42651), (42786, 42863),
   (42865, 42887), (42891, 42894), (42896, 42954), (42960, 42961), (42963, 42963), (42965, 42969),
   (42997, 42998), (43002, 43002), (43824, 43866), (43872, 43880), (43888, 43967), (64256, 64262),
   (64275, 64279), (65313, 65338), (65345, 65370), (66560, 66639), (66736, 66771), (66776, 66811),
   (66928, 66938), (66940, 66954), (66956, 66962), (66964, 66965), (66967, 66977), (66979, 66993),
   (66995, 67001), (67003, 67004), (68736, 68786), (68800, 68850), (71840, 71903), (93760, 93823),
   (119808, 119892), (119894, 119964), (119966, 119967), (119970, 119970), (119973, 119974),
   (119977, 119980), (119982, 119993), (119995, 119995), (119997, 120003), (120005, 120069),
   (120071, 120074), (120077, 120084), (120086, 120092), (120094, 120121), (120123, 120126),
   (120128, 120132), (120134, 120134), (120138, 120144), (120146, 120485), (120488, 120512),
   (120514, 120538), (120540, 120570), (120572, 120596), (120598, 120628), (120630, 120654),
   (120656, 120686), (120688, 120712), (120714, 120744), (120746, 120770), (120772, 120779),
   (122624, 122633), (122635, 122654), (125184, 125251), (127280, 127305), (127312, 127337),
   (127344, 127369)]

/-- The lower case of a code point that has a simple mapping, else the code
point itself. -/
def lowerCodePoint (n : Nat) : Nat :=
  if n < 128 then (if 65 ≤ n && n ≤ 90 then n + 32 else n)
  else
    match lowerCaseRanges.find? (fun r =>
        r.1 ≤ n && n ≤ r.2.1 && (n - r.1) % r.2.2.1 == 0) with
    | some r => ((n : Int) + r.2.2.2).toNat
    | none => n

/-- Membership of a code point in a list of ranges. -/
def inRanges (rs : List (Nat × Nat)) (n : Nat) : Bool :=
  rs.any (fun r => r.1 ≤ n && n ≤ r.2)

/-- The condition Final_Sigma of the Unicode case conversion: the capital
sigma follows a cased letter, and no cased letter follows it, case-ignorable
characters being skipped on both sides. `before` holds the characters before
it, the nearest first. -/
def finalSigma (before after : List Char) : Bool :=
  (match before.dropWhile (fun c => inRanges caseIgnorableRanges c.toNat) with
   | c :: _ => inRanges casedRanges c.toNat
   | [] => false) &&
  (match after.dropWhile (fun c => inRanges caseIgnorableRanges c.toNat) with
   | c :: _ => !inRanges casedRanges c.toNat
   | [] => true)

/-- The Unicode default lower case conversion of the characters that follow
`before` (the nearest first): the simple mappings, the capital I with a dot
above, which becomes an `i` and a combining dot, and the capital sigma, which
becomes the final small sigma in the context Final_Sigma. -/
def lowerChars : List Char → List Char → List Char
  | _, [] => []
  | before, c :: cs =>
    (if c.toNat = 931 then [if finalSigma before cs then Char.ofNat 962 else Char.ofNat 963]
     else if c.toNat = 304 then ['i', Char.ofNat 775]
     else [Char.ofNat (lowerCodePoint c.toNat)]) ++ lowerChars (c :: before) cs

/-- The method `toLowerCase`. -/
def toLowerCase (s : String) : String := String.mk (lowerChars [] s.data)

/-! ## Numbers

Numbers are IEEE 754 binary64 values: a finite one is the rational that it
denotes, and every arithmetic operation rounds its exact result to the nearest
binary64 value, a tie going to the even mantissa. -/

/-- The integer nearest to the fraction `n / d`, a half going to the even one. -/
def roundHalfEven (n d : Nat) : Nat :=
  let f := n / d
  let r := n % d
  if 2 * r < d then f else if d < 2 * r then f + 1 else if f % 2 = 0 then f else f + 1

/-- The number of halvings that bring `n` below 2, at most `fuel` of them. -/
def halvings : Nat → Nat → Nat
  | 0, _ => 0
  | fuel + 1, n => if n < 2 then 0 else halvings fuel (n / 2) + 1

/-- The exponent `e` with `2 ^ e ≤ n < 2 ^ (e + 1)`, for a positive `n`. -/
def natLog2 (n : Nat) : Nat := halvings n n

/-- The exponent `e` with `2 ^ e ≤ n / d < 2 ^ (e + 1)`, for positive `n` and `d`. -/
def floorLog2 (n d : Nat) : ℤ :=
  let e0 : ℤ := (natLog2 n : ℤ) - (natLog2 d : ℤ)
  if (if 0 ≤ e0 then decide (n < d * 2 ^ e0.toNat) else decide (n * 2 ^ (-e0).toNat < d))
  then e0 - 1 else e0

/-- The exponent of the last place of the binary64 values in the binade of the
positive fraction `n / d`: the mantissa has 53 bits, or fewer below
`2 ^ (-1022)`. -/
def lastPlace (n d : Nat) : ℤ := max (floorLog2 n d) (-1022) - 52

/-- The binary64 value nearest to the positive fraction `n / d`, a tie going to
the even mantissa; `none` when the rounded value reaches `2 ^ 1024`. -/
def roundMagnitude (n d : Nat) : Option ℚ :=
  let s := lastPlace n d
  if 0 ≤ s then
    let m := roundHalfEven n (d * 2 ^ s.toNat)
    if m * 2 ^ s.toNat < 2 ^ 1024 then some ((m * 2 ^ s.toNat : ℕ) : ℚ) else none
  else
    let m := roundHalfEven (n * 2 ^ (-s).toNat) d
    some ((m : ℚ) / ((2 ^ (-s).toNat : ℕ) : ℚ))

/-- The binary64 value nearest to a rational, `none` when it overflows. -/
def roundToDouble (q : ℚ) : Option ℚ :=
  if q = 0 then some 0
  else if q < 0 then (roundMagnitude q.num.natAbs q.den).map (fun x => -x)
  else roundMagnitude q.num.natAbs q.den

/-- The number that a decimal literal of the source denotes. -/
def double (q : ℚ) : ℚ := (roundToDouble q).getD 0

namespace JsVal

/-- The number that results from an operation whose exact value is `q`. -/
def ofExact (q : ℚ) : JsVal :=
  match roundToDouble q with
  | some d => num d
  | none => inf (decide (q < 0))

end JsVal

/-- The value of a run of decimal digits. -/
def natOfDigits (l : List Char) : Nat :=
  l.foldl (fun acc c => 10 * acc + (c.toNat - 48)) 0

/-- The value of a digit in base up to sixteen, if it is one. -/
def hexDigit (c : Char) : Option Nat :=
  if c.isDigit then some (c.toNat - 48)
  else if 97 ≤ c.toNat && c.toNat ≤ 102 then some (c.toNat - 87)
  else if 65 ≤ c.toNat && c.toNat ≤ 70 then some (c.toNat - 55)
  else none

/-- A non-empty run of digits of the base `b`, read as a number. -/
def radixLiteral (b : Nat) (l : List Char) : Option ℚ :=
  if l.isEmpty then none
  else
    l.foldl (fun acc c =>
      match acc, hexDigit c with
      | some a, some d => if d < b then some (a * b + d) else none
      | _, _ => none) (some 0)

/-- Splits a list at the first character satisfying `p`, which is dropped. -/
def splitAtChar (p : Char → Bool) (l : List Char) : List Char × Option (List Char) :=
  match l.span (fun c => !p c) with
  | (a, []) => (a, none)
  | (a, _ :: b) => (a, some b)

/-- The exponent part after the letter `e`: an optional sign and digits. -/
def exponentPart (l : List Char) : Option ℤ :=
  match l with
  | '+' :: ds => if !ds.isEmpty && ds.all Char.isDigit then some (natOfDigits ds) else none
  | '-' :: ds => if !ds.isEmpty && ds.all Char.isDigit then some (-(natOfDigits ds : ℤ)) else none
  | ds => if !ds.isEmpty && ds.all Char.isDigit then some (natOfDigits ds) else none

/-- The exact value of a text of the grammar StrUnsignedDecimalLiteral other
than `Infinity`: digits with an optional fraction and an optional exponent. -/
def unsignedDecimal (l : List Char) : Option ℚ :=
  match splitAtChar (fun c => c == 'e' || c == 'E') l with
  | (mant, expo) =>
    match splitAtChar (fun c => c == '.') mant with
    | (ip, fp) =>
      let fr := fp.getD []
      if ip.all Char.isDigit && fr.all Char.isDigit && !(ip.isEmpty && fr.isEmpty) then
        let m : ℚ := (natOfDigits ip : ℚ) + (natOfDigits fr : ℚ) / (10 : ℚ) ^ fr.length
        match expo with
        | none => some m
        | some e =>
          match exponentPart e with
          | some k => some (m * (10 : ℚ) ^ k)
          | none => none
      else none

/-- The number of a text of the grammar StrDecimalLiteral without its sign. -/
def decimalLiteral (negative : Bool) (l : List Char) : JsVal :=
  if l = "Infinity".data then JsVal.inf negative
  else
    match unsignedDecimal l with
    | some q => JsVal.ofExact (if negative then -q else q)
    | none => JsVal.nan

/-- The number of a literal in base `b`. -/
def radixNumber (b : Nat) (l : List Char) : JsVal :=
  match radixLiteral b l with
  | some q => JsVal.ofExact q
  | none => JsVal.nan

/-- The ECMAScript conversion StringToNumber. -/
def stringToNumber (s : String) : JsVal :=
  match trimChars s.data with
  | [] => JsVal.num 0
  | '0' :: 'x' :: ds => radixNumber 16 ds
  | '0' :: 'X' :: ds => radixNumber 16 ds
  | '0' :: 'o' :: ds => radixNumber 8 ds
  | '0' :: 'O' :: ds => radixNumber 8 ds
  | '0' :: 'b' :: ds => radixNumber 2 ds
  | '0' :: 'B' :: ds => radixNumber 2 ds
  | '+' :: ds => decimalLiteral false ds
  | '-' :: ds => decimalLiteral true ds
  | ds => decimalLiteral false ds

/-- The function `Math.round` on a finite number: the nearest integer, a half
going up. -/
def jsRound (q : ℚ) : ℤ := Rat.floor (q + 1 / 2)

namespace JsVal

/-- The conversion `Number(v)`. An object converts as its text does: the
array `[3000]` to 3000, the empty array to 0, a plain object or a function to
`NaN`. -/
def toNumber : JsVal → JsVal
  | undefined => nan
  | null => num 0
  | bool b => num (if b then 1 else 0)
  | num q => num q
  | inf b => inf b
  | nan => nan
  | str s => stringToNumber s
  | obj text => stringToNumber text

/-- The test `Number.isFinite(v)`, which holds of finite numbers only. -/
def isFinite : JsVal → Bool
  | num _ => true
  | _ => false

/-- The call `Math.round(v)`. -/
def round (v : JsVal) : JsVal :=
  match v.toNumber with
  | num q => num (jsRound q)
  | inf b => inf b
  | _ => nan

/-- The product `a * b`. -/
def mul (a b : JsVal) : JsVal :=
  match a.toNumber, b.toNumber with
  | num x, num y => ofExact (x * y)
  | num x, inf b => if x = 0 then nan else inf (decide (x < 0) != b)
  | inf a, num y => if y = 0 then nan else inf (a != decide (y < 0))
  | inf a, inf b => inf (a != b)
  | _, _ => nan

/-- The sum `a + b` of two values that are numbers, null or undefined (the
operator concatenates when an operand is a string or an object, which no sum of
this program meets). -/
def add (a b : JsVal) : JsVal :=
  match a.toNumber, b.toNumber with
  | num x, num y => ofExact (x + y)
  | num _, inf b => inf b
  | inf a, num _ => inf a
  | inf a, inf b => if a = b then inf a else nan
  | _, _ => nan

/-- The quotient `a / b`. The divisors of this program are non-zero constants
or guarded by a test against zero; a zero divisor is taken as positive. -/
def div (a b : JsVal) : JsVal :=
  match a.toNumber, b.toNumber with
  | num x, num y =>
    if y = 0 then (if x = 0 then nan else inf (decide (x < 0))) else ofExact (x / y)
  | num _, inf _ => num 0
  | inf a, num y => inf (a != decide (y < 0))
  | _, _ => nan

/-- The comparison `a <= b` of two numbers (false when one is `NaN`). -/
def le (a b : JsVal) : Bool :=
  match a.toNumber, b.toNumber with
  | num x, num y => decide (x ≤ y)
  | num _, inf b => !b
  | inf a, num _ => a
  | inf a, inf b => a || !b
  | _, _ => false

end JsVal

/-! ## Objects and their prototype chains -/

/-- The names of the members of `Object.prototype`, which every object literal
inherits; a read `table[name]` of one of them yields a function (for `__proto__`
the prototype object), unless the literal has its own entry of that name. -/
def protoMembers : List String :=
  ["constructor", "__defineGetter__", "__defineSetter__", "hasOwnProperty",
   "__lookupGetter__", "__lookupSetter__", "isPrototypeOf", "propertyIsEnumerable",
   "toString", "valueOf", "__proto__", "toLocaleString"]

/-- The text of a built-in function. -/
def functionText (name : String) : String :=
  "function " ++ name ++ "() \x7b [native code] \x7d"

/-- The value read under `key` through the prototype chain of an object literal
that has no own entry `key`: the prototype object for `__proto__`, the function
`Object` for `constructor`, else the method of that name. -/
def inheritedMember (key : String) : JsVal :=
  if protoMembers.contains key then
    (if key = "__proto__" then JsVal.obj "[object Object]"
     else if key = "constructor" then JsVal.obj "function Object() \x7b [native code] \x7d"
     else JsVal.obj ("function " ++ key ++ "() \x7b [native code] \x7d"))
  else JsVal.undefined

/-- A property read `table[key]` on an object literal whose own entries are
`table`, the values being injected into `JsVal` by `f`. -/
def jsGet {α : Type} (f : α → JsVal) (table : List (String × α)) (key : String) : JsVal :=
  match table.lookup key with
  | some a => f a
  | none => inheritedMember key

/-- The static methods of the function `Object` (ECMAScript 2024). -/
def objectStatics : List String :=
  ["assign", "create", "defineProperties", "defineProperty", "entries", "freeze",
   "fromEntries", "getOwnPropertyDescriptor", "getOwnPropertyDescriptors",
   "getOwnPropertyNames", "getOwnPropertySymbols", "getPrototypeOf", "groupBy", "hasOwn",
   "is", "isExtensible", "isFrozen", "isSealed", "keys", "preventExtensions", "seal",
   "setPrototypeOf", "values"]

/-- The property `length` of the function that `Object.prototype[member]` is. -/
def builtinLength (member : String) : Nat :=
  if ["__defineGetter__", "__defineSetter__"].contains member then 2
  else if ["constructor", "hasOwnProperty", "__lookupGetter__", "__lookupSetter__",
      "isPrototypeOf", "propertyIsEnumerable"].contains member then 1
  else 0

/-- The read `f[name]` on the built-in function `f` that `Object.prototype[member]`
is, for a `member` other than `__proto__`: its own properties `length` and `name`
(and, for the function `Object`, `prototype` and the static methods), then the
members of `Function.prototype`, of which `caller` and `arguments` are accessors
that throw a `TypeError`, then the members of `Object.prototype`. -/
def functionMember (member name : String) : Completion JsVal :=
  if name = "length" then Completion.normal (JsVal.num (builtinLength member))
  else if name = "name" then
    Completion.normal (JsVal.str (if member = "constructor" then "Object" else member))
  else if member = "constructor" && name = "prototype" then
    Completion.normal (JsVal.obj "[object Object]")
  else if member = "constructor" && objectStatics.contains name then
    Completion.normal (JsVal.obj (functionText name))
  else if name = "caller" || name = "arguments" then
    Completion.throws { message := "TypeError: restricted property of a strict function" }
  else if name = "constructor" then Completion.normal (JsVal.obj (functionText "Function"))
  else if ["apply", "bind", "call", "toString"].contains name then
    Completion.normal (JsVal.obj (functionText name))
  else if name = "__proto__" then
    Completion.normal (JsVal.obj "function () \x7b [native code] \x7d")
  else Completion.normal (inheritedMember name)

/-- The read `Object.prototype[name]`: the accessor `__proto__` yields null, the
prototype of `Object.prototype`. -/
def objectPrototypeMember (name : String) : JsVal :=
  if name = "__proto__" then JsVal.null else inheritedMember name

/-- The conversion `String(value)`, also applied to the key of `table[value]`.
Finite numbers never occur as keys or as texts in this program: they are given
a text that is no key. -/
def jsString : JsVal → String
  | JsVal.str s => s
  | JsVal.undefined => "undefined"
  | JsVal.null => "null"
  | JsVal.bool true => "true"
  | JsVal.bool false => "false"
  | JsVal.nan => "NaN"
  | JsVal.inf false => "Infinity"
  | JsVal.inf true => "-Infinity"
  | JsVal.num _ => "[number]"
  | JsVal.obj text => text

/-! ## Location normalisation and the regional multiplier -/

/-- The table `stateAliases`. -/
def stateAliases : List (String × String) :=
  [("maharashtra", "Maharashtra"), ("mh", "Maharashtra"),
   ("karnataka", "Karnataka"), ("ka", "Karnataka"),
   ("tamil nadu", "Tamil Nadu"), ("tn", "Tamil Nadu"),
   ("telangana", "Telangana"), ("tg", "Telangana"),
   ("andhra pradesh", "Andhra Pradesh"), ("ap", "Andhra Pradesh"),
   ("west bengal", "West Bengal"), ("wb", "West Bengal"),
   ("uttar pradesh", "Uttar Pradesh"), ("up", "Uttar Pradesh"),
   ("punjab", "Punjab"), ("pb", "Punjab"),
   ("haryana", "Haryana"), ("hr", "Haryana"),
   ("madhya pradesh", "Madhya Pradesh"), ("mp", "Madhya Pradesh"),
   ("rajasthan", "Rajasthan"), ("rj", "Rajasthan"),
   ("bihar", "Bihar"), ("br", "Bihar"),
   ("gujarat", "Gujarat"), ("gj", "Gujarat")]

/-- The function `normalizeLocation`: null for a falsy or non-string argument
and for a blank string, else `stateAliases[key] || cleaned`. -/
def normalizeLocation (location : JsVal) : JsVal :=
  match location with
  | JsVal.str s =>
    if s = "" then JsVal.null
    else
      let cleaned := cleanLocation s
      if cleaned = "" then JsVal.null
      else
        let key := toLowerCase cleaned
        (jsGet JsVal.str stateAliases key).or (JsVal.str cleaned)
  | _ => JsVal.null

/-- The table `defaultStateMultipliers`. -/
def defaultStateMultipliers : List (String × ℚ) :=
  [("Maharashtra", double 1.06), ("Karnataka", double 1.03), ("Tamil Nadu", double 1.04),
   ("Telangana", double 1.02), ("Andhra Pradesh", double 1.01),
   ("West Bengal", double 1.05), ("Uttar Pradesh", double 0.98), ("Punjab", double 0.97),
   ("Haryana", double 0.96), ("Madhya Pradesh", double 1.00), ("Rajasthan", double 0.99),
   ("Bihar", double 1.02), ("Gujarat", double 1.01)]

/-- The table `locationPriceVariation`. -/
def locationPriceVariation : List (String × List (String × ℚ)) :=
  [("onion", [("Maharashtra", double 1.1), ("Haryana", double 0.95),
     ("Karnataka", double 1.05)]),
   ("tomato", [("Tamil Nadu", double 1.15), ("Karnataka", double 1.1),
     ("Telangana", double 0.95)]),
   ("potato", [("Punjab", double 0.9), ("Uttar Pradesh", double 0.95),
     ("Bihar", double 1.05)]),
   ("cotton", [("Maharashtra", double 1.05), ("Gujarat", double 1.0),
     ("Telangana", double 0.98)])]

/-- The read `locationPriceVariation[key]?.[normalizedLocation]`. When `key` has
no own entry and names a member of `Object.prototype`, the outer read yields
that member, a built-in function or (for `__proto__`) the prototype object, and
the inner read is made on it. -/
def cropSpecificMultiplier (key loc : String) : Completion JsVal :=
  match locationPriceVariation.lookup key with
  | some inner => Completion.normal (jsGet JsVal.num inner loc)
  | none =>
    if protoMembers.contains key then
      (if key = "__proto__" then Completion.normal (objectPrototypeMember loc)
       else functionMember key loc)
    else Completion.normal JsVal.undefined

/-- The value `ch.charCodeAt(0)` of an element of `Array.from(string)`: the
code point, or its leading surrogate beyond the basic plane. -/
def charCode (c : Char) : Nat :=
  if c.toNat < 65536 then c.toNat else 55296 + (c.toNat - 65536) / 1024

/-- The sum of the character codes computed by the `reduce` of
`getLocationMultiplier`. -/
def locationHash (s : String) : Nat := (s.data.map charCode).sum

/-- The function `getLocationMultiplier`. It returns a number, or whatever
else a multiplier table yields for a location that names an inherited member,
and it throws when the read of line 426 does. -/
def getLocationMultiplier (cropKey location : JsVal) : Completion JsVal :=
  let normalizedLocation := normalizeLocation location
  if !normalizedLocation.truthy then Completion.normal (JsVal.num 1)
  else
    let locKey := jsString normalizedLocation
    let key := toLowerCase (jsString (cropKey.or (JsVal.str "")))
    match cropSpecificMultiplier key locKey with
    | Completion.throws error => Completion.throws error
    | Completion.normal cropSpecific =>
      if cropSpecific.truthy then Completion.normal cropSpecific
      else if (jsGet JsVal.num defaultStateMultipliers locKey).truthy then
        Completion.normal (jsGet JsVal.num defaultStateMultipliers locKey)
      else
        Completion.normal ((JsVal.num (double 0.95)).add
          ((JsVal.num (locationHash locKey % 11 : Nat)).div (JsVal.num 100)))

/-! ## Records, store and environment -/

/-- A price object as the adapters build it. A field that the object does not
carry is `undefined`. -/
structure PriceData where
  currentPrice : JsVal
  minPrice : JsVal
  maxPrice : JsVal
  modalPrice : JsVal := JsVal.undefined
  unit : JsVal := JsVal.undefined
  currency : JsVal := JsVal.undefined
  arrivalDate : JsVal := JsVal.undefined
  mandiName : JsVal := JsVal.undefined
  stateName : JsVal := JsVal.undefined
  location : JsVal := JsVal.undefined
  source : JsVal := JsVal.undefined
  deriving DecidableEq, Repr

/-- A record of the upstream data set, with the fields that the service reads.
`arrivalTs` is the time value that `new Date(arrival_date)` or the day/month/year
pattern of `parseArrivalDate` gives to the text of `arrival_date` (0 when
neither reads it): date parsing is left to the record. -/
structure RawRecord where
  modal_price : JsVal
  max_price : JsVal
  min_price : JsVal
  arrival_date : JsVal := JsVal.undefined
  arrivalTs : ℤ := 0
  market_name : JsVal := JsVal.undefined
  market : JsVal := JsVal.undefined
  state : JsVal := JsVal.undefined
  state_name : JsVal := JsVal.undefined
  deriving DecidableEq, Repr

/-- A document of the `MarketPrice` collection (the cache). The field `ttl` is
written and never read, and is left out. A stored `arrivalDate` is a `Date`; it
is represented by the value that was cast to it. -/
structure CacheEntry where
  cropName : String
  location : String
  currentPrice : JsVal
  minPrice : JsVal
  maxPrice : JsVal
  modalPrice : JsVal := JsVal.undefined
  unit : JsVal := JsVal.str "per quintal"
  currency : JsVal := JsVal.str "INR"
  arrivalDate : JsVal := JsVal.undefined
  mandiName : JsVal := JsVal.undefined
  source : JsVal := JsVal.str "Mock"
  lastUpdated : Nat
  deriving DecidableEq, Repr

/-- A document of the `Crop` collection, with the fields that the service
reads and writes: the name, the active flag and `marketPrice`. -/
structure CropDoc where
  name : String
  isActive : Bool
  current : JsVal
  unit : JsVal := JsVal.undefined
  currency : JsVal := JsVal.undefined
  deriving DecidableEq, Repr

/-- The database: both collections in their natural order. -/
structure Store where
  marketPrices : List CacheEntry
  crops : List CropDoc
  deriving DecidableEq, Repr

/-- What `requestWithRetry` ends with: it throws once every attempt has failed,
or it yields the array `response?.data?.records || []` (a missing response and
missing or non-array records all lead `pickTopMandiRecord` to null, like the
empty array, and an element that is no object counts as a record without
fields). -/
inductive HttpOutcome where
  | failure : HttpOutcome
  | records (rs : List RawRecord) : HttpOutcome
  deriving Repr

/-- The filter that a request adds to the base parameters. -/
inductive QueryFilter where
  | state : QueryFilter
  | stateName : QueryFilter
  | marketName : QueryFilter
  | commodityOnly : QueryFilter
  deriving DecidableEq, Repr

/-- What the chat completion ends with: the call or `JSON.parse` throws, or the
content parses to null, whose fields cannot be read (`failure`); the content is
empty (`noContent`); or the content parses to a value from which the fields
below are read (`undefined` when missing). -/
inductive AiReply where
  | failure : AiReply
  | noContent : AiReply
  | parsed (currentPrice minPrice maxPrice unit currency : JsVal) : AiReply
  deriving Repr

/-- The environment of one call: the answers of the upstream services, the
failures of the database and the clock. -/
structure Env where
  /-- The answer to the request for a commodity with a filter and its value. -/
  http : String → QueryFilter → String → HttpOutcome
  /-- Whether `OPENAI_API_KEY` is set, so that `openaiClient` is not null. -/
  openaiClient : Bool
  /-- The answer of the model to the prompt for a crop and a location. -/
  openai : String → String → AiReply
  /-- The expression `new RegExp(cropName, 'i')` anchored at both ends: `none`
  when the constructor throws, else the test of a crop name. -/
  cropRegex : String → Option (String → Bool)
  /-- The read `MarketPrice.findOne` of the Alternative adapter rejects. -/
  altReadFails : Bool
  /-- The n-th read `MarketPrice.findOne` of `fetchFromCacheDB` rejects. -/
  cacheReadFails : Nat → Bool
  /-- The update `MarketPrice.findOneAndUpdate` rejects for a reason other than
  the casts of the prices and of `arrivalDate`, which `saveToCacheDB` computes:
  the driver fails, or a text field of the update cannot be cast to a string. -/
  cacheWriteFails : Bool
  /-- The read `Crop.findOne` rejects. -/
  cropReadFails : Bool
  /-- The update `Crop.findOneAndUpdate` rejects. -/
  cropWriteFails : Bool
  /-- Whether the cast of a text to the schema type `Date` gives a valid date:
  that of `new Date(text)`, or of `new Date(Number(text))` for the text of a
  number that is no year. The engine decides it for a text that is not in the
  ISO format: V8 reads `25/12/2024` as the month 25, which is no date, and
  `05/12/2024` as the 12th of May. -/
  dateValid : String → Bool
  /-- The value of `new Date()`. -/
  now : Nat
  /-- The value of `new Date().toISOString()`. -/
  nowIso : String

/-! ## The Live adapter -/

/-- The function `parseNumeric`: a finite number or null. A number converts to
a text that reads back as the same number. -/
def parseNumeric (value : JsVal) : JsVal :=
  match value with
  | JsVal.undefined => JsVal.null
  | JsVal.null => JsVal.null
  | JsVal.num q => JsVal.num q
  | v =>
    match stringToNumber (jsTrim (String.mk ((jsString v).data.filter (fun c => c != ',')))) with
    | JsVal.num q => JsVal.num q
    | _ => JsVal.null

/-- The function `parseArrivalDate`. -/
def parseArrivalDate (r : RawRecord) : ℤ :=
  if !r.arrival_date.truthy then 0 else r.arrivalTs

/-- The function `normalizeAgmarknetRecord` on a record that is not null. -/
def normalizeAgmarknetRecord (record : RawRecord) : Option PriceData :=
  let modal := parseNumeric record.modal_price
  let max := parseNumeric record.max_price
  let min := parseNumeric record.min_price
  let current := (modal.nullish max).nullish min
  if current = JsVal.null then none
  else some {
    currentPrice := current
    minPrice := min
    maxPrice := max
    modalPrice := modal
    unit := JsVal.str "per quintal"
    currency := JsVal.str "INR"
    arrivalDate := record.arrival_date.or JsVal.null
    mandiName := (record.market_name.or record.market).or JsVal.null
    stateName := (record.state.or record.state_name).or JsVal.null }

/-- An element of the array `scored` of `pickTopMandiRecord`. -/
structure Scored where
  normalized : PriceData
  arrivalTs : ℤ
  modal : ℚ
  max : ℚ
  deriving DecidableEq, Repr

/-- The number held by a price field of a normalized record, or `-1` when the
field is null (`normalized.modalPrice ?? -1`). -/
def priceOrMinusOne (v : JsVal) : ℚ :=
  match v with
  | JsVal.num q => q
  | _ => -1

/-- The comparator of the `sort` of `pickTopMandiRecord`: `a` is not after `b`
when the comparator is not positive. The difference of two finite numbers has
the sign of their exact difference. -/
def scoredBefore (a b : Scored) : Prop :=
  if b.arrivalTs ≠ a.arrivalTs then (b.arrivalTs : ℚ) - a.arrivalTs ≤ 0
  else if b.modal ≠ a.modal then b.modal - a.modal ≤ 0
  else b.max - a.max ≤ 0

instance : DecidableRel scoredBefore := fun a b => by
  unfold scoredBefore; exact inferInstance

/-- The function `pickTopMandiRecord`; `Array.prototype.sort` is stable. -/
def pickTopMandiRecord (records : List RawRecord) (stateName : JsVal) : Option PriceData :=
  if records.isEmpty then none
  else
    let normalizedState := normalizeLocation stateName
    let stateMatches := records.filter (fun r =>
      let recState := normalizeLocation ((r.state.or r.state_name).or (JsVal.str ""))
      recState.truthy && decide (recState = normalizedState))
    let filtered :=
      if normalizedState.truthy && decide (stateMatches.length > 0) then stateMatches
      else records
    let scored := filtered.filterMap (fun r =>
      match normalizeAgmarknetRecord r with
      | none => none
      | some normalized => some {
          normalized := normalized
          arrivalTs := parseArrivalDate r
          modal := priceOrMinusOne normalized.modalPrice
          max := priceOrMinusOne normalized.maxPrice : Scored })
    match scored.insertionSort scoredBefore with
    | [] => none
    | top :: _ => some top.normalized

/-- One call of `requestWithRetry` with the base parameters and a filter: the
records of the response, or the error of the last attempt, thrown. -/
def requestWithRetry (env : Env) (commodity : JsVal) (f : QueryFilter) (value : JsVal) :
    Completion (List RawRecord) :=
  match env.http (jsString commodity) f (jsString value) with
  | HttpOutcome.failure => Completion.throws { message := "request failed" }
  | HttpOutcome.records rs => Completion.normal rs

/-- The third stage of `fetchFromAgmarknet`: the commodity-wide request. -/
def agmarknetCommodityWide (env : Env) (commodity stateName : JsVal) :
    Completion (Option PriceData) :=
  match requestWithRetry env commodity QueryFilter.commodityOnly JsVal.undefined with
  | Completion.throws error => Completion.throws error
  | Completion.normal rs =>
    match pickTopMandiRecord rs stateName with
    | some bestFallback => Completion.normal (some { bestFallback with
        source := if stateName.truthy then JsVal.str "Agmarknet (State Best Mandi)"
                  else JsVal.str "Agmarknet (Commodity Fallback)" })
    | none => Completion.normal none

/-- The second stage of `fetchFromAgmarknet`: the request by market name. -/
def agmarknetByMandi (env : Env) (commodity mandiName stateName : JsVal) :
    Completion (Option PriceData) :=
  if mandiName.truthy then
    match requestWithRetry env commodity QueryFilter.marketName mandiName with
    | Completion.throws error => Completion.throws error
    | Completion.normal rs =>
      match pickTopMandiRecord rs JsVal.null with
      | some mandiBest =>
        Completion.normal (some { mandiBest with source := JsVal.str "Agmarknet" })
      | none => agmarknetCommodityWide env commodity stateName
  else agmarknetCommodityWide env commodity stateName

/-- The block `try` of `fetchFromAgmarknet`. -/
def fetchFromAgmarknetTry (env : Env) (commodity mandiName stateName : JsVal) :
    Completion (Option PriceData) :=
  if stateName.truthy then
    match requestWithRetry env commodity QueryFilter.state stateName with
    | Completion.throws error => Completion.throws error
    | Completion.normal stateRecords =>
      match pickTopMandiRecord stateRecords stateName with
      | some best =>
        Completion.normal (some { best with source := JsVal.str "Agmarknet (State Best Mandi)" })
      | none =>
        match requestWithRetry env commodity QueryFilter.stateName stateName with
        | Completion.throws error => Completion.throws error
        | Completion.normal rs =>
          match pickTopMandiRecord rs stateName with
          | some best =>
            Completion.normal
              (some { best with source := JsVal.str "Agmarknet (State Best Mandi)" })
          | none => agmarknetByMandi env commodity mandiName stateName
  else agmarknetByMandi env commodity mandiName stateName

/-- The function `fetchFromAgmarknet`: the statement before its `try` builds an
object literal, and its `catch` logs and returns null. -/
def fetchFromAgmarknet (env : Env) (commodity mandiName stateName : JsVal) :
    Completion (Option PriceData) :=
  tryCatch (fetchFromAgmarknetTry env commodity mandiName stateName)
    (fun _ => Completion.normal none)

/-! ## The AI adapter -/

/-- The block `try` of `fetchFromOpenAIProvider`. -/
def fetchFromOpenAIProviderTry (env : Env) (cropName : String) (commodity location : JsVal) :
    Completion (Option PriceData) :=
  if !env.openaiClient then Completion.normal none
  else
    match env.openai (jsString (commodity.or (JsVal.str cropName)))
        (jsString (location.or (JsVal.str "All-India"))) with
    | AiReply.failure => Completion.throws { message := "completion or parse failed" }
    | AiReply.noContent => Completion.normal none
    | AiReply.parsed cur mn mx unit currency =>
      match cur.toNumber, mn.toNumber, mx.toNumber with
      | JsVal.num currentPrice, JsVal.num minPrice, JsVal.num maxPrice =>
        if !(decide (minPrice ≤ currentPrice) && decide (currentPrice ≤ maxPrice)) then
          Completion.normal none
        else Completion.normal (some {
          currentPrice := JsVal.num (jsRound currentPrice)
          minPrice := JsVal.num (jsRound minPrice)
          maxPrice := JsVal.num (jsRound maxPrice)
          unit := unit.or (JsVal.str "per quintal")
          currency := currency.or (JsVal.str "INR")
          arrivalDate := JsVal.str env.nowIso
          source := JsVal.str "OpenAI (Estimated)" })
      | _, _, _ => Completion.normal none

/-- The function `fetchFromOpenAIProvider`: its `catch` logs and returns null. -/
def fetchFromOpenAIProvider (env : Env) (cropName : String) (commodity location : JsVal) :
    Completion (Option PriceData) :=
  tryCatch (fetchFromOpenAIProviderTry env cropName commodity location)
    (fun _ => Completion.normal none)

/-! ## Static tables of commodities -/

/-- The table `locationToMandiCode`. -/
def locationToMandiCode : List (String × String) :=
  [("Maharashtra", "Bombay"), ("Karnataka", "Bangalore"), ("Tamil Nadu", "Chennai"),
   ("Telangana", "Hyderabad"), ("Andhra Pradesh", "Hyderabad"), ("West Bengal", "Kolkata"),
   ("Uttar Pradesh", "Delhi"), ("Punjab", "Chandigarh"), ("Haryana", "Delhi"),
   ("Madhya Pradesh", "Indore"), ("Rajasthan", "Jaipur"), ("Bihar", "Patna"),
   ("Gujarat", "Ahmedabad")]

/-- The table `cropToCommodity`. -/
def cropToCommodity : List (String × String) :=
  [("rice", "Rice"), ("wheat", "Wheat"), ("maize", "Maize"), ("cotton", "Cotton"),
   ("sugarcane", "Sugarcane"), ("tomato", "Tomato"), ("potato", "Potato"),
   ("onion", "Onion"), ("chili", "Chilli"), ("chilli", "Chilli"),
   ("groundnut", "Groundnut"), ("soybean", "Soybean"), ("mustard", "Mustard"),
   ("jute", "Jute"), ("coffee", "Coffee")]

/-- An entry of `mockMarketPrices` as the code reads it: the fields `min`,
`max`, `unit` and `currency` of whatever `mockMarketPrices[key]` is. -/
structure MockBase where
  min : JsVal
  max : JsVal
  unit : JsVal
  currency : JsVal
  deriving DecidableEq, Repr

/-- The own entries of the table `mockMarketPrices` (each with the unit
`per quintal` and the currency `INR`). -/
def mockMarketPricesTable : List (String × (ℚ × ℚ)) :=
  [("rice", (2200, 3500)), ("wheat", (2400, 3200)), ("maize", (1800, 2800)),
   ("cotton", (5500, 8000)), ("sugarcane", (3800, 5200)), ("tomato", (800, 2500)),
   ("potato", (1200, 2800)), ("onion", (1500, 3500)), ("chili", (6000, 14000)),
   ("groundnut", (4500, 7500)), ("soybean", (4000, 6500)), ("mustard", (4800, 7200)),
   ("jute", (3500, 6000)), ("coffee", (12000, 18000))]

/-- The read `mockMarketPrices[key]`: `none` when it is undefined. An inherited
member is a truthy function (or the prototype object) that has none of the four
fields. -/
def mockMarketPrices (key : String) : Option MockBase :=
  match mockMarketPricesTable.lookup key with
  | some (lo, hi) => some {
      min := JsVal.num lo
      max := JsVal.num hi
      unit := JsVal.str "per quintal"
      currency := JsVal.str "INR" }
  | none =>
    if (inheritedMember key).truthy then some {
      min := JsVal.undefined
      max := JsVal.undefined
      unit := JsVal.undefined
      currency := JsVal.undefined }
    else none

/-- The object literal with the generic range 3000 to 5000. -/
def genericMockBase : MockBase :=
  { min := JsVal.num 3000
    max := JsVal.num 5000
    unit := JsVal.str "per quintal"
    currency := JsVal.str "INR" }

/-! ## The cache store -/

/-- The query `findOne(filter).sort(lastUpdated: -1)`: a matching document
with the greatest `lastUpdated`, the first of them in natural order. -/
def findLatest (p : CacheEntry → Bool) (l : List CacheEntry) : Option CacheEntry :=
  (l.filter p).foldl (fun best e =>
    match best with
    | none => some e
    | some b => if b.lastUpdated < e.lastUpdated then some e else some b) none

/-- The value that an update leaves in a field: the new value, or the old one
when the update does not carry the field. -/
def setField (new old : JsVal) : JsVal :=
  if new = JsVal.undefined then old else new

/-- The update `$set` of `saveToCacheDB` applied to a document. -/
def applyUpdate (now : Nat) (priceData : PriceData) (e : CacheEntry) : CacheEntry :=
  { e with
    currentPrice := setField priceData.currentPrice e.currentPrice
    minPrice := setField priceData.minPrice e.minPrice
    maxPrice := setField priceData.maxPrice e.maxPrice
    modalPrice := setField priceData.modalPrice e.modalPrice
    unit := setField priceData.unit e.unit
    currency := setField priceData.currency e.currency
    arrivalDate := setField priceData.arrivalDate e.arrivalDate
    mandiName := setField priceData.mandiName e.mandiName
    source := setField priceData.source e.source
    lastUpdated := now }

/-- The update with `upsert: true`: the first document that matches the filter
is updated, and a document with the schema defaults is inserted when none does. -/
def upsert (now : Nat) (cropLower loc : String) (priceData : PriceData) :
    List CacheEntry → List CacheEntry
  | [] => [applyUpdate now priceData {
      cropName := cropLower
      location := loc
      currentPrice := JsVal.undefined
      minPrice := JsVal.undefined
      maxPrice := JsVal.undefined
      lastUpdated := now }]
  | e :: es =>
    if e.cropName = cropLower ∧ e.location = loc then applyUpdate now priceData e :: es
    else e :: upsert now cropLower loc priceData es

/-- The update of `syncPriceToCropProfile` on the `Crop` collection: the first
active document whose name the expression matches receives the new
`marketPrice`. -/
def updateCrop (test : String → Bool) (current unit currency : JsVal) :
    List CropDoc → List CropDoc
  | [] => []
  | c :: cs =>
    if test c.name && c.isActive then
      { c with current := current, unit := unit, currency := currency } :: cs
    else c :: updateCrop test current unit currency cs

/-- The function `syncPriceToCropProfile`; every failure is swallowed by its
`catch`. -/
def syncPriceToCropProfile (env : Env) (st : Store) (cropName : String)
    (priceData : PriceData) : Store :=
  match priceData.currentPrice.toNumber with
  | JsVal.num current =>
    if current ≤ 0 then st
    else
      match env.cropRegex cropName with
      | none => st
      | some test =>
        if env.cropWriteFails then st
        else { st with crops := (updateCrop test (JsVal.num (jsRound current))
                 (priceData.unit.or (JsVal.str "per quintal"))
                 (priceData.currency.or (JsVal.str "INR")) st.crops) }
  | _ => st

/-- The value `normalizeLocation(location) || 'All-India'` under which
`saveToCacheDB` and `fetchFromCacheDB` key the cache. -/
def cacheLocation (location : JsVal) : String :=
  jsString ((normalizeLocation location).or (JsVal.str "All-India"))

/-- The cast of the field `arrivalDate` of an update to the schema type `Date`
fails: the text is no valid date (the text of `new Date().toISOString()` is
one, and the empty text is cast to null), the number is beyond the range of
time values, or the value is a boolean or `NaN`. An object is read through its
text. -/
def dateCastFails (env : Env) (v : JsVal) : Bool :=
  match v with
  | JsVal.undefined => false
  | JsVal.null => false
  | JsVal.str s => !(s == "" || s == env.nowIso || env.dateValid s)
  | JsVal.obj text => !env.dateValid text
  | JsVal.num q => decide (8640000000000000 < |q|)
  | _ => true

/-- The cast of a price of an update to the schema type `Number` fails: the
value is `NaN`, a string that is not numeric, an array or an object (null, a
missing field, the empty string, the booleans and the infinities are cast). -/
def numberCastFails (v : JsVal) : Bool :=
  match v with
  | JsVal.nan => true
  | JsVal.str s => decide (stringToNumber s = JsVal.nan)
  | JsVal.obj _ => true
  | _ => false

/-- The function `saveToCacheDB`; every failure is swallowed by its `catch`.
The update `findOneAndUpdate` rejects when the database says so and when the
cast of a price to the schema type `Number` or of `arrivalDate` to the schema
type `Date` fails; `syncPriceToCropProfile` is then not called. The update does
not run the validators of the schema. -/
def saveToCacheDB (env : Env) (st : Store) (cropName : String) (priceData : PriceData)
    (location : JsVal) : Store :=
  let normalizedLocation := cacheLocation location
  if env.cacheWriteFails || numberCastFails priceData.currentPrice
      || numberCastFails priceData.minPrice || numberCastFails priceData.maxPrice
      || numberCastFails priceData.modalPrice
      || dateCastFails env priceData.arrivalDate then st
  else
    let st1 := { st with marketPrices :=
      (upsert env.now (toLowerCase cropName) normalizedLocation priceData st.marketPrices) }
    syncPriceToCropProfile env st1 cropName priceData

/-- The price object that `fetchFromCacheDB` builds from a document. -/
def cachedRecord (record : CacheEntry) : PriceData :=
  { currentPrice := record.currentPrice
    minPrice := record.minPrice
    maxPrice := record.maxPrice
    modalPrice := record.modalPrice
    unit := record.unit
    currency := record.currency
    location := JsVal.str record.location
    source := JsVal.str "Cached (Offline)" }

/-- The block `try` of `fetchFromCacheDB`: a rejected read throws. -/
def fetchFromCacheDBTry (env : Env) (st : Store) (cropName : String) (location : JsVal) :
    Completion (Option PriceData) :=
  let normalizedCrop := toLowerCase cropName
  let normalizedLocation := cacheLocation location
  if env.cacheReadFails 1 then Completion.throws { message := "read rejected" }
  else
    match findLatest (fun e => e.cropName = normalizedCrop ∧ e.location = normalizedLocation)
        st.marketPrices with
    | some record => Completion.normal (some (cachedRecord record))
    | none =>
      if location.truthy then
        if env.cacheReadFails 2 then Completion.throws { message := "read rejected" }
        else
          match findLatest (fun e => e.cropName = normalizedCrop ∧ e.location = "All-India")
              st.marketPrices with
          | some record => Completion.normal (some (cachedRecord record))
          | none =>
            if env.cacheReadFails 3 then Completion.throws { message := "read rejected" }
            else Completion.normal
              ((findLatest (fun e => e.cropName = normalizedCrop) st.marketPrices).map
                cachedRecord)
      else
        if env.cacheReadFails 3 then Completion.throws { message := "read rejected" }
        else Completion.normal
          ((findLatest (fun e => e.cropName = normalizedCrop) st.marketPrices).map
            cachedRecord)

/-- The function `fetchFromCacheDB`: its `catch` logs and returns null. -/
def fetchFromCacheDB (env : Env) (st : Store) (cropName : String) (location : JsVal) :
    Completion (Option PriceData) :=
  tryCatch (fetchFromCacheDBTry env st cropName location) (fun _ => Completion.normal none)

/-- The function `adjustPriceByLocation`. It throws when a call of
`getLocationMultiplier` does. -/
def adjustPriceByLocation (cropKey requestedLocation baseLocation : JsVal)
    (priceData : PriceData) : Completion PriceData :=
  let req := normalizeLocation requestedLocation
  let base := normalizeLocation baseLocation
  if !req.truthy || !base.truthy || decide (req = base) then Completion.normal priceData
  else
    match getLocationMultiplier cropKey req with
    | Completion.throws error => Completion.throws error
    | Completion.normal requestedValue =>
      match getLocationMultiplier cropKey base with
      | Completion.throws error => Completion.throws error
      | Completion.normal baseValue =>
        match requestedValue, baseValue with
        | JsVal.num requestedMultiplier, JsVal.num baseMultiplier =>
          if baseMultiplier = 0 then Completion.normal priceData
          else
            let ratio := (JsVal.num requestedMultiplier).div (JsVal.num baseMultiplier)
            let adjust := fun (value : JsVal) =>
              match value.toNumber with
              | JsVal.num numeric => ((JsVal.num numeric).mul ratio).round
              | _ => value
            Completion.normal { priceData with
              currentPrice := adjust priceData.currentPrice
              minPrice := adjust priceData.minPrice
              maxPrice := adjust priceData.maxPrice
              location := req }
        | _, _ => Completion.normal priceData

/-- The block `try` of `fetchFromCropProfilePrice`: the constructor of the
expression and the read may throw. -/
def fetchFromCropProfilePriceTry (env : Env) (st : Store) (cropName : String) :
    Completion (Option PriceData) :=
  match env.cropRegex cropName with
  | none => Completion.throws { message := "SyntaxError: invalid regular expression" }
  | some test =>
    if env.cropReadFails then Completion.throws { message := "read rejected" }
    else
      let record := st.crops.find? (fun c => test c.name && c.isActive)
      match (match record with
             | some c => c.current.toNumber
             | none => JsVal.nan) with
      | JsVal.num current =>
        if current ≤ 0 then Completion.normal none
        else Completion.normal (some {
          currentPrice := JsVal.num (jsRound current)
          minPrice := JsVal.null
          maxPrice := JsVal.null
          unit := (match record with
                   | some c => c.unit
                   | none => JsVal.undefined).or (JsVal.str "per quintal")
          currency := (match record with
                       | some c => c.currency
                       | none => JsVal.undefined).or (JsVal.str "INR")
          source := JsVal.str "Crop Profile" })
      | _ => Completion.normal none

/-- The function `fetchFromCropProfilePrice`: its `catch` logs and returns
null. -/
def fetchFromCropProfilePrice (env : Env) (st : Store) (cropName : String) :
    Completion (Option PriceData) :=
  tryCatch (fetchFromCropProfilePriceTry env st cropName) (fun _ => Completion.normal none)

/-! ## The Alternative adapter -/

/-- The method call `value.toLowerCase()`: it throws a `TypeError` on a value
that is not a string. -/
def lowerOrThrow (v : JsVal) : Completion String :=
  match v with
  | JsVal.str s => Completion.normal (toLowerCase s)
  | _ => Completion.throws { message := "TypeError: toLowerCase is not a function" }

/-- The record that `fetchFromAlternativeProvider` builds from the static
ranges when the cache gives no anchor. -/
def alternativeFromMock (env : Env) (cropName : String) (commodity location : JsVal) :
    Completion (Option PriceData) :=
  match lowerOrThrow ((commodity.or (JsVal.str cropName)).or (JsVal.str "")) with
  | Completion.throws error => Completion.throws error
  | Completion.normal key =>
    let baseMock :=
      match mockMarketPrices key with
      | some b => b
      | none =>
        match mockMarketPrices (if cropName ≠ "" then toLowerCase cropName else "") with
        | some b => b
        | none => genericMockBase
    match getLocationMultiplier (JsVal.str key) location with
    | Completion.throws error => Completion.throws error
    | Completion.normal locMultiplier2 =>
      let midpoint := ((baseMock.min.add baseMock.max).div (JsVal.num 2)).round
      let current2 := (midpoint.mul locMultiplier2).round
      Completion.normal (some {
        currentPrice := current2
        minPrice := (baseMock.min.mul locMultiplier2).round
        maxPrice := (baseMock.max.mul locMultiplier2).round
        unit := baseMock.unit
        currency := baseMock.currency
        arrivalDate := JsVal.str env.nowIso
        source := JsVal.str "Alternate (Simulated)" })

/-- The block `try` of `fetchFromAlternativeProvider` (the parameter `mandiName`
is not used). -/
def fetchFromAlternativeProviderTry (env : Env) (st : Store) (cropName : String)
    (commodity location : JsVal) : Completion (Option PriceData) :=
  match lowerOrThrow (((JsVal.str cropName).or commodity).or (JsVal.str "")) with
  | Completion.throws error => Completion.throws error
  | Completion.normal cropKey =>
    if env.altReadFails then Completion.throws { message := "read rejected" }
    else
      let anchor : Option (CacheEntry × JsVal) :=
        match findLatest (fun e => e.cropName = cropKey) st.marketPrices with
        | none => none
        | some cached =>
          if ((cached.currentPrice.or cached.minPrice).or cached.maxPrice).truthy then
            let base := (cached.currentPrice.or
              ((((cached.minPrice.or (JsVal.num 0)).add (cached.maxPrice.or (JsVal.num 0))).div
                (JsVal.num 2)).round)).or JsVal.null
            if base.truthy then some (cached, base) else none
          else none
      match anchor with
      | some (cached, base) =>
        match getLocationMultiplier (commodity.or (JsVal.str cropName)) location with
        | Completion.throws error => Completion.throws error
        | Completion.normal locMultiplier =>
          let current := (base.mul locMultiplier).round
          Completion.normal (some {
            currentPrice := current
            minPrice := cached.minPrice.or ((current.mul (JsVal.num (double 0.95))).round)
            maxPrice := cached.maxPrice.or ((current.mul (JsVal.num (double 1.05))).round)
            unit := cached.unit.or (JsVal.str "per quintal")
            currency := cached.currency.or (JsVal.str "INR")
            arrivalDate := cached.arrivalDate.or (JsVal.str env.nowIso)
            source := JsVal.str "Alternate (Simulated)" })
      | none => alternativeFromMock env cropName commodity location

/-- The function `fetchFromAlternativeProvider`: its `catch` logs and returns
null. -/
def fetchFromAlternativeProvider (env : Env) (st : Store) (cropName : String)
    (commodity location : JsVal) : Completion (Option PriceData) :=
  tryCatch (fetchFromAlternativeProviderTry env st cropName commodity location)
    (fun _ => Completion.normal none)

/-! ## The orchestrator -/

/-- The record that `getMarketPrice` returns. The fields `timestamp`,
`arrivalDate`, `mandiName`, `lastUpdated`, `confidence`, `note` and `error`
carry no price and are left out. -/
structure PriceResult where
  cropName : String
  current : JsVal
  min : JsVal
  max : JsVal
  unit : JsVal
  currency : JsVal
  location : JsVal
  source : JsVal
  deriving DecidableEq, Repr

/-- The calls that `getMarketPrice` makes, in order. -/
inductive Effect where
  | agmarknet : Effect
  | openai : Effect
  | alternative : Effect
  | cacheRead : Effect
  | cropProfile : Effect
  | cacheSave (cropName : String) (location : JsVal) : Effect
  deriving DecidableEq, Repr

/-- The result of a call of `getMarketPrice`, the store after it and the calls
that it made. -/
structure Outcome where
  result : PriceResult
  store : Store
  calls : List Effect
  deriving DecidableEq, Repr

/-- How the block `try` of `getMarketPrice` completes, the store after it and
the calls that it made. -/
structure Attempt where
  result : Completion PriceResult
  store : Store
  calls : List Effect
  deriving DecidableEq, Repr

/-- The value `numericCurrent` of the Live tier: the first of the current, max
and min prices that is truthy with a truthy `Number(...)`, else null. -/
def liveNumericCurrent (apiPrice : PriceData) : JsVal :=
  if (apiPrice.currentPrice.and apiPrice.currentPrice.toNumber).truthy then
    apiPrice.currentPrice.toNumber
  else if (apiPrice.maxPrice.and apiPrice.maxPrice.toNumber).truthy then
    apiPrice.maxPrice.toNumber
  else if (apiPrice.minPrice.and apiPrice.minPrice.toNumber).truthy then
    apiPrice.minPrice.toNumber
  else JsVal.null

/-- The object `normalized` of the Live tier, after its regional adjustment. -/
def liveNormalized (env : Env) (cropLower : String) (normalizedLocation mandi : JsVal)
    (apiPrice : PriceData) (numericCurrent : JsVal) : Completion PriceData :=
  let normalized : PriceData := {
    currentPrice := numericCurrent
    minPrice := if apiPrice.minPrice.truthy then apiPrice.minPrice.toNumber else JsVal.null
    maxPrice := if apiPrice.maxPrice.truthy then apiPrice.maxPrice.toNumber else JsVal.null
    modalPrice := if apiPrice.modalPrice.truthy then apiPrice.modalPrice.toNumber else JsVal.null
    unit := apiPrice.unit.or (JsVal.str "per quintal")
    currency := apiPrice.currency.or (JsVal.str "INR")
    arrivalDate := apiPrice.arrivalDate.or (JsVal.str env.nowIso)
    mandiName := (apiPrice.mandiName.or mandi).or JsVal.null
    source := apiPrice.source.or (JsVal.str "Agmarknet") }
  if normalizedLocation.truthy
      && decide (normalized.source = JsVal.str "Agmarknet (Commodity Fallback)") then
    adjustPriceByLocation (JsVal.str cropLower) normalizedLocation (JsVal.str "All-India")
      normalized
  else Completion.normal normalized

/-- The tiers of `getMarketPrice` after the online ones: the cache, the stored
crop price and the estimate from the static ranges. `calls` are the calls made
before. -/
def offlineTiers (env : Env) (st : Store) (cropName cropLower : String)
    (normalizedLocation : JsVal) (calls : List Effect) : Attempt :=
  match fetchFromCacheDB env st cropName normalizedLocation with
  | Completion.throws error =>
    { result := Completion.throws error, store := st, calls := calls ++ [Effect.cacheRead] }
  | Completion.normal (some cachedPrice) =>
    match adjustPriceByLocation (JsVal.str cropLower) normalizedLocation cachedPrice.location
        cachedPrice with
    | Completion.throws error =>
      { result := Completion.throws error, store := st, calls := calls ++ [Effect.cacheRead] }
    | Completion.normal adjustedCached =>
      { result := Completion.normal {
          cropName := cropName
          current := adjustedCached.currentPrice
          min := adjustedCached.minPrice
          max := adjustedCached.maxPrice
          unit := adjustedCached.unit
          currency := adjustedCached.currency
          location := (adjustedCached.location.or normalizedLocation).or
            (JsVal.str "All-India Average")
          source := adjustedCached.source }
        store := st
        calls := calls ++ [Effect.cacheRead] }
  | Completion.normal none =>
    match fetchFromCropProfilePrice env st cropName with
    | Completion.throws error =>
      { result := Completion.throws error, store := st,
        calls := calls ++ [Effect.cacheRead, Effect.cropProfile] }
    | Completion.normal (some cropProfilePrice) =>
      match getLocationMultiplier (JsVal.str cropLower) normalizedLocation with
      | Completion.throws error =>
        { result := Completion.throws error, store := st,
          calls := calls ++ [Effect.cacheRead, Effect.cropProfile] }
      | Completion.normal locationMultiplier =>
        let adjustedCurrent := (cropProfilePrice.currentPrice.mul locationMultiplier).round
        { result := Completion.normal {
            cropName := cropName
            current := adjustedCurrent
            min := cropProfilePrice.minPrice
            max := cropProfilePrice.maxPrice
            unit := cropProfilePrice.unit
            currency := cropProfilePrice.currency
            location := normalizedLocation.or (JsVal.str "All-India Average")
            source := JsVal.str "Stored Crop Price" }
          store := saveToCacheDB env st cropName {
            currentPrice := adjustedCurrent
            minPrice := cropProfilePrice.minPrice
            maxPrice := cropProfilePrice.maxPrice
            unit := cropProfilePrice.unit
            currency := cropProfilePrice.currency
            arrivalDate := JsVal.str env.nowIso
            source := JsVal.str "Local" } normalizedLocation
          calls := calls ++ [Effect.cacheRead, Effect.cropProfile,
            Effect.cacheSave cropName normalizedLocation] }
    | Completion.normal none =>
      let base :=
        match mockMarketPrices cropLower with
        | some b => b
        | none => genericMockBase
      match getLocationMultiplier (JsVal.str cropLower) normalizedLocation with
      | Completion.throws error =>
        { result := Completion.throws error, store := st,
          calls := calls ++ [Effect.cacheRead, Effect.cropProfile] }
      | Completion.normal locationMultiplier =>
        let midpoint := ((base.min.add base.max).div (JsVal.num 2)).round
        let currentPrice := (midpoint.mul locationMultiplier).round
        { result := Completion.normal {
            cropName := cropName
            current := currentPrice
            min := (base.min.mul locationMultiplier).round
            max := (base.max.mul locationMultiplier).round
            unit := base.unit
            currency := base.currency
            location := normalizedLocation.or (JsVal.str "All-India Average")
            source := JsVal.str "Mock Data" }
          store := st
          calls := calls ++ [Effect.cacheRead, Effect.cropProfile] }

/-- The value `commodity` of `getMarketPrice`:
`cropToCommodity[cropLower] || cropName`. -/
def commodityFor (cropName : String) : JsVal :=
  (jsGet JsVal.str cropToCommodity (toLowerCase cropName)).or (JsVal.str cropName)

/-- The argument `location` of `getMarketPrice`: a string or null. -/
def locationValue (location : Option String) : JsVal :=
  match location with
  | some s => JsVal.str s
  | none => JsVal.null

/-- The value `normalizedLocation` of `getMarketPrice`. -/
def requestedLocation (location : Option String) : JsVal :=
  normalizeLocation (locationValue location)

/-- The value `mandi` of `getMarketPrice`. -/
def mandiFor (normalizedLocation : JsVal) : JsVal :=
  if normalizedLocation.truthy then
    (jsGet JsVal.str locationToMandiCode (jsString normalizedLocation)).or JsVal.null
  else JsVal.null

/-- The Live tier of `getMarketPrice`: the object `normalized` that it saves
and returns, or `none` when the adapter declines or gives no numeric price. -/
def liveTier (env : Env) (cropName : String) (location : Option String) :
    Completion (Option PriceData) :=
  match fetchFromAgmarknet env (commodityFor cropName) (mandiFor (requestedLocation location))
      (requestedLocation location) with
  | Completion.throws error => Completion.throws error
  | Completion.normal none => Completion.normal none
  | Completion.normal (some apiPrice) =>
    if liveNumericCurrent apiPrice = JsVal.null then Completion.normal none
    else
      match liveNormalized env (toLowerCase cropName) (requestedLocation location)
          (mandiFor (requestedLocation location)) apiPrice (liveNumericCurrent apiPrice) with
      | Completion.throws error => Completion.throws error
      | Completion.normal normalized => Completion.normal (some normalized)

/-- The block `try` of `getMarketPrice` on a commodity name that is a string
and a location that is a string or null. -/
def getMarketPriceTry (env : Env) (st : Store) (cropName : String) (location : Option String)
    (hasInternet : Bool) : Attempt :=
  let cropLower := toLowerCase cropName
  let commodity := commodityFor cropName
  let normalizedLocation := requestedLocation location
  if hasInternet then
    match liveTier env cropName location with
    | Completion.throws error =>
      { result := Completion.throws error, store := st, calls := [Effect.agmarknet] }
    | Completion.normal (some normalized) =>
      { result := Completion.normal {
          cropName := cropName
          current := normalized.currentPrice
          min := normalized.minPrice
          max := normalized.maxPrice
          unit := normalized.unit
          currency := normalized.currency
          location := normalizedLocation.or (JsVal.str "All-India Average")
          source := JsVal.str "Agmarknet (Live)" }
        store := saveToCacheDB env st cropName normalized normalizedLocation
        calls := [Effect.agmarknet, Effect.cacheSave cropName normalizedLocation] }
    | Completion.normal none =>
      match fetchFromOpenAIProvider env cropName commodity normalizedLocation with
      | Completion.throws error =>
        { result := Completion.throws error, store := st,
          calls := [Effect.agmarknet, Effect.openai] }
      | Completion.normal (some openaiPrice) =>
        { result := Completion.normal {
            cropName := cropName
            current := openaiPrice.currentPrice
            min := openaiPrice.minPrice
            max := openaiPrice.maxPrice
            unit := openaiPrice.unit
            currency := openaiPrice.currency
            location := normalizedLocation.or (JsVal.str "All-India Average")
            source := openaiPrice.source }
          store := saveToCacheDB env st cropName openaiPrice normalizedLocation
          calls := [Effect.agmarknet, Effect.openai,
            Effect.cacheSave cropName normalizedLocation] }
      | Completion.normal none =>
        match fetchFromAlternativeProvider env st cropName commodity normalizedLocation with
        | Completion.throws error =>
          { result := Completion.throws error, store := st,
            calls := [Effect.agmarknet, Effect.openai, Effect.alternative] }
        | Completion.normal (some alt) =>
          { result := Completion.normal {
              cropName := cropName
              current := alt.currentPrice
              min := alt.minPrice
              max := alt.maxPrice
              unit := alt.unit
              currency := alt.currency
              location := normalizedLocation.or (JsVal.str "All-India Average")
              source := alt.source.or (JsVal.str "Alternate") }
            store := saveToCacheDB env st cropName alt normalizedLocation
            calls := [Effect.agmarknet, Effect.openai, Effect.alternative,
              Effect.cacheSave cropName normalizedLocation] }
        | Completion.normal none =>
          offlineTiers env st cropName cropLower normalizedLocation
            [Effect.agmarknet, Effect.openai, Effect.alternative]
  else offlineTiers env st cropName cropLower normalizedLocation []

/-- The block `catch` of `getMarketPrice`: the midpoint of the static range of
the commodity, or of the generic range, without a regional multiplier. -/
def getMarketPriceCatch (cropName : String) (location : Option String) : PriceResult :=
  let cropLower := toLowerCase cropName
  let base :=
    match mockMarketPrices cropLower with
    | some b => b
    | none => genericMockBase
  { cropName := cropName
    current := ((base.min.add base.max).div (JsVal.num 2)).round
    min := base.min
    max := base.max
    unit := base.unit
    currency := base.currency
    location := (requestedLocation location).or (JsVal.str "All-India Average")
    source := JsVal.str "Estimated (source temporarily unavailable)" }

/-- The function `getMarketPrice` on a commodity name that is a string and a
location that is a string or null: the result of its block `try`, or of its
block `catch` when a step of the former throws. -/
def getMarketPrice (env : Env) (st : Store) (cropName : String) (location : Option String)
    (hasInternet : Bool) : Outcome :=
  { result :=
      match (getMarketPriceTry env st cropName location hasInternet).result with
      | Completion.normal result => result
      | Completion.throws _ => getMarketPriceCatch cropName location
    store := (getMarketPriceTry env st cropName location hasInternet).store
    calls := (getMarketPriceTry env st cropName location hasInternet).calls }

/-! ## The refresh job -/

/-- The constant `AGMARKNET_API_KEY`: the setting `process.env.AGMARKNET_API_KEY`
(`none` when it is unset) when it is truthy, else the key written in the
source. -/
def AGMARKNET_API_KEY (setting : Option String) : String :=
  match setting with
  | some s => if s ≠ "" then s else "579b464db66ec23bdd000001b1c23a91"
  | none => "579b464db66ec23bdd000001b1c23a91"

/-- The state of `refreshAllPrices`: the counter `updated`, the store, the
arguments `(commodity, mandi)` of the calls of `fetchFromAgmarknet` and the
arguments `(cropName, location)` of the calls of `saveToCacheDB`, in order. -/
structure RefreshOutcome where
  updated : Nat
  store : Store
  calls : List (String × String)
  saves : List (String × String)
  deriving DecidableEq, Repr

/-- The pairs that the two loops of `refreshAllPrices` visit, in order: the
entries of `cropToCommodity`, and for each the entries of
`locationToMandiCode`. -/
def refreshPairs : List ((String × String) × (String × String)) :=
  cropToCommodity.flatMap (fun crop => locationToMandiCode.map (fun loc => (crop, loc)))

/-- The body of the inner loop of `refreshAllPrices` for the entry
`(cropName, commodity)` and the entry `(location, mandi)`; `envFor` gives the
environment in which the pair is processed. A throw of the adapter would be
caught by the `catch` of the body, which goes on with the next pair. -/
def refreshPair (envFor : String → String → Env) (acc : RefreshOutcome)
    (pair : (String × String) × (String × String)) : RefreshOutcome :=
  let cropName := pair.1.1
  let commodity := pair.1.2
  let location := pair.2.1
  let mandi := pair.2.2
  match fetchFromAgmarknet (envFor cropName location) (JsVal.str commodity) (JsVal.str mandi)
      JsVal.null with
  | Completion.normal (some priceData) =>
    { updated := acc.updated + 1
      store := saveToCacheDB (envFor cropName location) acc.store cropName priceData
        (JsVal.str location)
      calls := acc.calls ++ [(commodity, mandi)]
      saves := acc.saves ++ [(cropName, location)] }
  | _ => { acc with calls := acc.calls ++ [(commodity, mandi)] }

/-- The function `refreshAllPrices`, given the setting of the credential. -/
def refreshAllPrices (setting : Option String) (envFor : String → String → Env)
    (st : Store) : RefreshOutcome :=
  if AGMARKNET_API_KEY setting = "" then { updated := 0, store := st, calls := [], saves := [] }
  else refreshPairs.foldl (refreshPair envFor)
    { updated := 0, store := st, calls := [], saves := [] }

/-! ## Environments and stores of the examples -/

/-- The reading of a text `a/b/c` of digits by the legacy date parser of V8:
the month `a`, the day `b` and the year `c`, a date when the month is at most
12 and the day at most 31. For any other text the answer is no. -/
def slashDateValid (s : String) : Bool :=
  match splitAtChar (fun c => c == '/') s.data with
  | (a, some rest) =>
    match splitAtChar (fun c => c == '/') rest with
    | (b, some c) =>
      !a.isEmpty && !b.isEmpty && !c.isEmpty
        && a.all Char.isDigit && b.all Char.isDigit && c.all Char.isDigit
        && decide (1 ≤ natOfDigits a) && decide (natOfDigits a ≤ 12)
        && decide (1 ≤ natOfDigits b) && decide (natOfDigits b ≤ 31)
    | (_, none) => false
  | (_, none) => false

/-- An environment in which every upstream request fails, no AI client is
configured, the crop name is matched as a text without regard to case, the
database never fails and the dates are read as V8 reads `a/b/c`. -/
def quietEnv : Env :=
  { http := fun _ _ _ => HttpOutcome.failure
    openaiClient := false
    openai := fun _ _ => AiReply.failure
    cropRegex := fun pat => some (fun name => toLowerCase name == toLowerCase pat)
    altReadFails := false
    cacheReadFails := fun _ => false
    cacheWriteFails := false
    cropReadFails := false
    cropWriteFails := false
    dateValid := slashDateValid
    now := 1000
    nowIso := "2025-01-01T00:00:00.000Z" }

/-- The empty database. -/
def emptyStore : Store := { marketPrices := [], crops := [] }

/-- The environment `quietEnv` with an AI client whose model answers every
prompt with `reply`. -/
def aiEnv (reply : AiReply) : Env :=
  { quietEnv with
    openaiClient := true
    openai := fun _ _ => reply }

/-- A cache that holds one entry, for rice in Punjab, with the current price
2000 between the bounds 1900 and 2100. -/
def punjabRiceStore : Store :=
  { marketPrices := [{
      cropName := "rice"
      location := "Punjab"
      currentPrice := JsVal.num 2000
      minPrice := JsVal.num 1900
      maxPrice := JsVal.num 2100
      lastUpdated := 500 }]
    crops := [] }

/-- A cache that holds one entry, for rice in Tamil Nadu, with the current
price 1950 between the bounds 1900 and 2000. -/
def tamilNaduRiceStore : Store :=
  { marketPrices := [{
      cropName := "rice"
      location := "Tamil Nadu"
      currentPrice := JsVal.num 1950
      minPrice := JsVal.num 1900
      maxPrice := JsVal.num 2000
      lastUpdated := 500 }]
    crops := [] }

/-- The environment `quietEnv` with an upstream service that answers every
request with the records `rs`. -/
def liveEnv (rs : List RawRecord) : Env :=
  { quietEnv with http := fun _ _ _ => HttpOutcome.records rs }

/-- The environment `liveEnv rs` with a database that rejects the update of the
cache. -/
def liveEnvFailingWrite (rs : List RawRecord) : Env :=
  { liveEnv rs with cacheWriteFails := true }

/-- An upstream record for rice in Punjab: modal 2500, min 2400, max 2600. -/
def punjabRiceRecord : RawRecord :=
  { modal_price := JsVal.str "2500"
    max_price := JsVal.str "2600"
    min_price := JsVal.str "2400"
    market_name := JsVal.str "Chandigarh"
    state := JsVal.str "Punjab" }

/-- The record `punjabRiceRecord` with the arrival date that the upstream
service gives to the 25th of December 2024. -/
def punjabRiceRecordDated : RawRecord :=
  { punjabRiceRecord with arrival_date := JsVal.str "25/12/2024", arrivalTs := 1735065000000 }

/-- An upstream record for onion in Maharashtra: modal 1800, min 1700, max 1900. -/
def maharashtraOnionRecord : RawRecord :=
  { modal_price := JsVal.num 1800
    max_price := JsVal.num 1900
    min_price := JsVal.num 1700
    market_name := JsVal.str "Bombay"
    state := JsVal.str "Maharashtra" }

/-- A database whose cache is empty and whose crop collection holds the active
profile of rice with the reference price 2700. -/
def riceProfileStore : Store :=
  { marketPrices := []
    crops := [{ name := "Rice", isActive := true, current := JsVal.num 2700 }] }

/-- A database whose cache is empty and whose crop collection holds the active
profile of tomato with the reference price 1650. -/
def tomatoProfileStore : Store :=
  { marketPrices := []
    crops := [{ name := "Tomato", isActive := true, current := JsVal.num 1650 }] }

/-- The environment `quietEnv` with a database that rejects the update of the
cache. -/
def quietEnvFailingWrite : Env :=
  { quietEnv with cacheWriteFails := true }

/-- The environment `aiEnv reply` with a database whose every read and update
is rejected. -/
def aiEnvDatabaseDown (reply : AiReply) : Env :=
  { aiEnv reply with
    altReadFails := true
    cacheReadFails := fun _ => true
    cacheWriteFails := true
    cropReadFails := true
    cropWriteFails := true }

/-- The environment `quietEnv` with a database that rejects every read of the
cache. -/
def quietEnvFailingRead : Env :=
  { quietEnv with cacheReadFails := fun _ => true }

/-- The function `normalizeAgmarknetRecord` on a value that may be missing
(`none` is null or undefined, for which `!record` holds). -/
def normalizeAgmarknetValue (record : Option RawRecord) : Option PriceData :=
  match record with
  | none => none
  | some r => normalizeAgmarknetRecord r

/-- The element of `scored` that the `map` of `pickTopMandiRecord` builds from a
record, or `none` for the null that `filter(Boolean)` drops. -/
def scoreRecord (r : RawRecord) : Option Scored :=
  match normalizeAgmarknetRecord r with
  | none => none
  | some normalized => some {
      normalized := normalized
      arrivalTs := parseArrivalDate r
      modal := priceOrMinusOne normalized.modalPrice
      max := priceOrMinusOne normalized.maxPrice }

/-- The list `filtered` of `pickTopMandiRecord`: the records whose state
normalizes to the requested one when a state is requested and some record
matches, else all the records. -/
def stateFiltered (records : List RawRecord) (stateName : JsVal) : List RawRecord :=
  let normalizedState := normalizeLocation stateName
  let stateMatches := records.filter (fun r =>
    let recState := normalizeLocation ((r.state.or r.state_name).or (JsVal.str ""))
    recState.truthy && decide (recState = normalizedState))
  if normalizedState.truthy && decide (stateMatches.length > 0) then stateMatches
  else records

/-- An upstream record for Punjab that carries no price. -/
def punjabRecordWithoutPrice : RawRecord :=
  { modal_price := JsVal.str "NR"
    max_price := JsVal.null
    min_price := JsVal.undefined
    market_name := JsVal.str "Chandigarh"
    state := JsVal.str "Punjab" }

/-- An upstream record for Haryana: modal 2300, min 2200, max 2400. -/
def haryanaRecord : RawRecord :=
  { modal_price := JsVal.num 2300
    max_price := JsVal.num 2400
    min_price := JsVal.num 2200
    market_name := JsVal.str "Karnal"
    state := JsVal.str "Haryana" }

/-- The record that `fetchFromAgmarknet` builds from `punjabRiceRecord` when a
state is requested. -/
def punjabRiceBest : PriceData :=
  { currentPrice := JsVal.num 2500
    minPrice := JsVal.num 2400
    maxPrice := JsVal.num 2600
    modalPrice := JsVal.num 2500
    unit := JsVal.str "per quintal"
    currency := JsVal.str "INR"
    arrivalDate := JsVal.null
    mandiName := JsVal.str "Chandigarh"
    stateName := JsVal.str "Punjab"
    source := JsVal.str "Agmarknet (State Best Mandi)" }

/-! ## Predicates of the statements -/

/-- A price field of a normalized upstream record is a number or null. -/
def NumOrNull (v : JsVal) : Prop := v = JsVal.null ∨ ∃ q, v = JsVal.num q

/-- What a record built by `normalizeAgmarknetRecord` satisfies: the current
price is a number, equal to the modal price when there is one, and the other
prices are numbers or null. -/
structure Normalized (n : PriceData) : Prop where
  current_num : ∃ q, n.currentPrice = JsVal.num q
  current_modal : ∀ m, n.modalPrice = JsVal.num m → n.currentPrice = JsVal.num m
  min_shape : NumOrNull n.minPrice
  max_shape : NumOrNull n.maxPrice
  modal_shape : NumOrNull n.modalPrice

/-- A value that `Number(...)` does not convert to a finite number: a missing
field, `NaN`, an infinity, or a string, an array or an object whose text is not
a finite numeric literal. Null, the booleans, the numeric strings and the arrays
whose text is numeric are converted (to 0, to 0 or 1, to the value of the text). -/
def NotCoercible (v : JsVal) : Prop :=
  v = JsVal.undefined ∨ v = JsVal.nan ∨ (∃ b, v = JsVal.inf b) ∨
  (∃ s, (v = JsVal.str s ∨ v = JsVal.obj s) ∧ (stringToNumber s).isFinite = false)

/-- An adapter returns a record: it completes normally with a value that is
not null. -/
def returnsRecord (c : Completion (Option PriceData)) : Bool :=
  match c with
  | Completion.normal (some _) => true
  | _ => false

/-- The cache holds at most one entry for each commodity and location. -/
def UniqueKeys (l : List CacheEntry) : Prop :=
  ∀ c loc, (l.filter (fun e => decide (e.cropName = c ∧ e.location = loc))).length ≤ 1

/-- The update of the cache with the price object `n` is not rejected: the
database accepts it, the four prices are cast to numbers and `arrivalDate` is
cast to a date. -/
def UpdateAccepted (env : Env) (n : PriceData) : Prop :=
  env.cacheWriteFails = false ∧ numberCastFails n.currentPrice = false ∧
  numberCastFails n.minPrice = false ∧ numberCastFails n.maxPrice = false ∧
  numberCastFails n.modalPrice = false ∧ dateCastFails env n.arrivalDate = false

/-! ## Lemmas on strings and locations -/

theorem collapseWs_idem (t : List Char) :
    (∀ b, collapseWs false (collapseWs b t) = collapseWs b t) ∧
    collapseWs true (collapseWs true t) = collapseWs true t := by
  induction t with
  | nil => simp [collapseWs]
  | cons c cs ih =>
    obtain ⟨ih1, ih2⟩ := ih
    by_cases hc : isWs c = true
    · refine ⟨fun b => ?_, ?_⟩
      · cases b
        · have hsp : isWs ' ' = true := by decide
          simp [collapseWs, hc, hsp, ih2]
        · simp [collapseWs, hc, ih1]
      · simp [collapseWs, hc, ih2]
    · refine ⟨fun b => ?_, ?_⟩
      · simp [collapseWs, hc, ih1]
      · simp [collapseWs, hc, ih1]

theorem trimEnd_cons_fixed (c : Char) (cs : List Char) :
    trimEnd (c :: cs) = c :: cs ↔
      (cs = [] ∧ isWs c = false) ∨ (cs ≠ [] ∧ trimEnd cs = cs) := by
  cases hcs : trimEnd cs with
  | nil =>
    by_cases hc : isWs c = true
    · simp [trimEnd, hcs, hc]
    · simp [trimEnd, hcs, hc]
  | cons r rs =>
    simp [trimEnd, hcs]
    constructor
    · intro h
      refine Or.inr ⟨?_, h⟩
      intro h0; rw [← h] at h0; exact List.cons_ne_nil _ _ h0
    · rintro (⟨h1, _⟩ | ⟨_, h2⟩)
      · rw [h1] at hcs; simp [trimEnd] at hcs
      · exact h2

theorem trimEnd_idem (l : List Char) : trimEnd (trimEnd l) = trimEnd l := by
  induction l with
  | nil => rfl
  | cons c cs ih =>
    cases h : trimEnd cs with
    | nil => by_cases hc : isWs c = true <;> simp [trimEnd, h, hc]
    | cons r rs =>
      rw [h] at ih
      have h1 : trimEnd (c :: cs) = c :: r :: rs := by simp [trimEnd, h]
      rw [h1]
      exact (trimEnd_cons_fixed c (r :: rs)).mpr (Or.inr ⟨List.cons_ne_nil _ _, ih⟩)

theorem dropWhile_isWs_head (l : List Char) :
    l.dropWhile isWs = [] ∨ ∃ c r, l.dropWhile isWs = c :: r ∧ isWs c = false := by
  induction l with
  | nil => exact Or.inl rfl
  | cons c cs ih =>
    by_cases hc : isWs c = true
    · simpa [List.dropWhile, hc] using ih
    · exact Or.inr ⟨c, cs, by simp [List.dropWhile, hc], by simpa using hc⟩

theorem trimChars_head (l : List Char) :
    trimChars l = [] ∨ ∃ c r, trimChars l = c :: r ∧ isWs c = false := by
  unfold trimChars
  rcases dropWhile_isWs_head l with h | ⟨c, r, h, hc⟩
  · rw [h]; exact Or.inl rfl
  · rw [h]
    cases hr : trimEnd r with
    | nil => exact Or.inr ⟨c, [], by simp [trimEnd, hr, hc], hc⟩
    | cons x xs => exact Or.inr ⟨c, x :: xs, by simp [trimEnd, hr], hc⟩

theorem collapseWs_ne_nil (t : List Char) :
    ∀ b, t ≠ [] → trimEnd t = t → collapseWs b t ≠ [] := by
  induction t with
  | nil => intro b h; exact absurd rfl h
  | cons c cs ih =>
    intro b _ hfix
    rcases (trimEnd_cons_fixed c cs).mp hfix with ⟨h1, h2⟩ | ⟨h1, h2⟩
    · subst h1; simp [collapseWs, h2]
    · by_cases hc : isWs c = true
      · cases b
        · simp [collapseWs, hc]
        · simpa [collapseWs, hc] using ih true h1 h2
      · simp [collapseWs, hc]

theorem trimEnd_collapseWs (t : List Char) :
    ∀ b, trimEnd t = t → trimEnd (collapseWs b t) = collapseWs b t := by
  induction t with
  | nil => intro b _; simp [collapseWs, trimEnd]
  | cons c cs ih =>
    intro b hfix
    rcases (trimEnd_cons_fixed c cs).mp hfix with ⟨h1, h2⟩ | ⟨h1, h2⟩
    · subst h1; simp [collapseWs, h2, trimEnd]
    · by_cases hc : isWs c = true
      · cases b
        · simp only [collapseWs, hc, if_true]
          exact (trimEnd_cons_fixed _ _).mpr
            (Or.inr ⟨collapseWs_ne_nil cs true h1 h2, ih true h2⟩)
        · simpa [collapseWs, hc] using ih true h2
      · have hc2 : isWs c = false := by simpa using hc
        simp only [collapseWs, hc2]
        exact (trimEnd_cons_fixed _ _).mpr
          (Or.inr ⟨collapseWs_ne_nil cs false h1 h2, ih false h2⟩)

/-- The characters of `location.trim().replace(/\s+/g, ' ')`. -/
theorem cleanChars_idem (l : List Char) :
    collapseWs false (trimChars (collapseWs false (trimChars l))) =
      collapseWs false (trimChars l) := by
  have hfix : trimEnd (trimChars l) = trimChars l := by
    unfold trimChars; exact trimEnd_idem _
  have htrim : trimChars (collapseWs false (trimChars l)) = collapseWs false (trimChars l) := by
    rcases trimChars_head l with h | ⟨c, r, h, hc⟩
    · rw [h]; rfl
    · have h2 := trimEnd_collapseWs (trimChars l) false hfix
      rw [h] at h2 ⊢
      have h3 : collapseWs false (c :: r) = c :: collapseWs false r := by
        simp [collapseWs, hc]
      rw [h3] at h2 ⊢
      unfold trimChars
      simp only [List.dropWhile, hc]
      exact h2
  rw [htrim]
  exact (collapseWs_idem _).1 false

theorem cleanLocation_idem (s : String) : cleanLocation (cleanLocation s) = cleanLocation s := by
  unfold cleanLocation
  simp only
  rw [cleanChars_idem]

theorem lookup_eq_some_mem {α : Type} (l : List (String × α)) (k : String) (v : α)
    (h : l.lookup k = some v) : (k, v) ∈ l := by
  induction l with
  | nil => simp [List.lookup] at h
  | cons p ps ih =>
    obtain ⟨a, b⟩ := p
    by_cases hk : k = a
    · subst hk
      simp [List.lookup] at h
      subst h
      exact List.mem_cons_self _ _
    · have hb : (k == a) = false := by simpa using hk
      simp only [List.lookup, hb] at h
      exact List.mem_cons_of_mem _ (ih h)

theorem stateAliases_canonical :
    ∀ p ∈ stateAliases, normalizeLocation (JsVal.str p.2) = JsVal.str p.2 ∧ p.2 ≠ "" := by
  decide

/-- A location that `normalizeLocation` returns as a string is left unchanged
by `normalizeLocation`. -/
theorem normalizeLocation_str_idem (s t : String)
    (h : normalizeLocation (JsVal.str s) = JsVal.str t) :
    normalizeLocation (JsVal.str t) = JsVal.str t ∧ t ≠ "" := by
  unfold normalizeLocation at h
  simp only at h
  split_ifs at h with h1 h2
  unfold jsGet at h
  cases hl : stateAliases.lookup (toLowerCase (cleanLocation s)) with
  | some a =>
    rw [hl] at h
    have hmem := stateAliases_canonical _ (lookup_eq_some_mem _ _ _ hl)
    simp only at hmem
    have ht : (JsVal.str a).truthy = true := by simp [JsVal.truthy, hmem.2]
    simp only [JsVal.or, ht, if_true] at h
    cases h
    exact hmem
  | none =>
    rw [hl] at h
    simp only at h
    cases hi : inheritedMember (toLowerCase (cleanLocation s)) with
    | undefined =>
      rw [hi] at h
      simp only [JsVal.or, JsVal.truthy] at h
      have ht : cleanLocation s = t := by simpa using h
      subst ht
      refine ⟨?_, h2⟩
      unfold normalizeLocation
      simp only [cleanLocation_idem, h2, if_false]
      unfold jsGet
      rw [hl]
      simp only [hi, JsVal.or, JsVal.truthy]
      simp
    | obj x => rw [hi] at h; simp [JsVal.or, JsVal.truthy] at h
    | null => unfold inheritedMember at hi; split_ifs at hi
    | bool b => unfold inheritedMember at hi; split_ifs at hi
    | num q => unfold inheritedMember at hi; split_ifs at hi
    | nan => unfold inheritedMember at hi; split_ifs at hi
    | inf b => unfold inheritedMember at hi; split_ifs at hi
    | str x => unfold inheritedMember at hi; split_ifs at hi

theorem normalizeLocation_shape (v : JsVal) :
    normalizeLocation v = JsVal.null ∨ (∃ t, normalizeLocation v = JsVal.str t) ∨
    (∃ x, normalizeLocation v = JsVal.obj x) := by
  cases v with
  | str s =>
    unfold normalizeLocation jsGet
    simp only
    split_ifs
    · exact Or.inl rfl
    · exact Or.inl rfl
    · cases stateAliases.lookup (toLowerCase (cleanLocation s)) <;>
        simp only [JsVal.or, inheritedMember, JsVal.truthy] <;> split_ifs <;>
        first | contradiction | simp
  | undefined => exact Or.inl rfl
  | null => exact Or.inl rfl
  | bool b => exact Or.inl rfl
  | num q => exact Or.inl rfl
  | nan => exact Or.inl rfl
  | inf b => exact Or.inl rfl
  | obj x => exact Or.inl rfl

/-- The three shapes of a normalized location: null, a string that
`normalizeLocation` leaves unchanged, or an inherited member. -/
theorem normalizeLocation_cases (v : JsVal) :
    normalizeLocation v = JsVal.null ∨
    (∃ t, normalizeLocation v = JsVal.str t ∧ t ≠ "" ∧
      normalizeLocation (JsVal.str t) = JsVal.str t) ∨
    (∃ x, normalizeLocation v = JsVal.obj x) := by
  rcases normalizeLocation_shape v with h | ⟨t, h⟩ | h
  · exact Or.inl h
  · cases v with
    | str s =>
      have := normalizeLocation_str_idem s t h
      exact Or.inr (Or.inl ⟨t, h, this.2, this.1⟩)
    | undefined => simp [normalizeLocation] at h
    | null => simp [normalizeLocation] at h
    | bool b => simp [normalizeLocation] at h
    | num q => simp [normalizeLocation] at h
    | nan => simp [normalizeLocation] at h
    | inf b => simp [normalizeLocation] at h
    | obj x => simp [normalizeLocation] at h
  · exact Or.inr (Or.inr h)

/-! ## Lemmas on completions -/

theorem tryCatch_normal_iff {α : Type} (body : Completion (Option α)) (r : Option α) :
    tryCatch body (fun _ => Completion.normal none) = Completion.normal r ↔
      body = Completion.normal r ∨ ((∃ e, body = Completion.throws e) ∧ r = none) := by
  cases body with
  | normal v => simp [tryCatch]
  | throws e =>
    simp only [tryCatch, Completion.normal.injEq, reduceCtorEq, false_or]
    constructor
    · intro h; exact ⟨⟨e, rfl⟩, h.symm⟩
    · rintro ⟨_, h⟩; exact h.symm

theorem tryCatch_some_iff {α : Type} (body : Completion (Option α)) (p : α) :
    tryCatch body (fun _ => Completion.normal none) = Completion.normal (some p) ↔
      body = Completion.normal (some p) := by
  rw [tryCatch_normal_iff]
  constructor
  · rintro (h | ⟨_, h⟩)
    · exact h
    · cases h
  · intro h; exact Or.inl h

theorem tryCatch_completes {α : Type} (body : Completion (Option α)) :
    ∃ r, tryCatch body (fun _ => Completion.normal none) = Completion.normal r := by
  cases body with
  | normal v => exact ⟨v, rfl⟩
  | throws e => exact ⟨none, rfl⟩

theorem tryCatch_not_throws {α : Type} (body : Completion (Option α)) (e : Thrown) :
    tryCatch body (fun _ => Completion.normal none) ≠ Completion.throws e := by
  obtain ⟨r, hr⟩ := tryCatch_completes body
  rw [hr]
  simp

/-! ## Lemmas on the tiers -/

theorem adjustPriceByLocation_source (cropKey req base : JsVal) (p q : PriceData)
    (h : adjustPriceByLocation cropKey req base p = Completion.normal q) :
    q.source = p.source := by
  unfold adjustPriceByLocation at h
  simp only at h
  split_ifs at h
  · cases h; rfl
  · split at h
    · cases h
    · split at h
      · cases h
      · split at h
        · split_ifs at h <;> cases h <;> rfl
        · cases h; rfl

theorem fetchFromCacheDB_some (env : Env) (st : Store) (cropName : String) (location : JsVal)
    (p : PriceData)
    (h : fetchFromCacheDB env st cropName location = Completion.normal (some p)) :
    ∃ e, p = cachedRecord e := by
  unfold fetchFromCacheDB at h
  rw [tryCatch_some_iff] at h
  unfold fetchFromCacheDBTry at h
  simp only at h
  split_ifs at h
  all_goals (repeat' (split at h))
  all_goals first
    | (cases h; done)
    | (cases h; exact ⟨_, rfl⟩)
    | (have h2 := Completion.normal.inj h
       obtain ⟨e, _, rfl⟩ := Option.map_eq_some'.mp h2
       exact ⟨e, rfl⟩)

theorem fetchFromCacheDB_source (env : Env) (st : Store) (cropName : String) (location : JsVal)
    (p : PriceData)
    (h : fetchFromCacheDB env st cropName location = Completion.normal (some p)) :
    p.source = JsVal.str "Cached (Offline)" := by
  obtain ⟨e, rfl⟩ := fetchFromCacheDB_some env st cropName location p h
  rfl

theorem parseNumeric_shape (v : JsVal) :
    parseNumeric v = JsVal.null ∨ ∃ q, parseNumeric v = JsVal.num q := by
  cases v with
  | undefined => exact Or.inl rfl
  | null => exact Or.inl rfl
  | num q => exact Or.inr ⟨q, rfl⟩
  | bool b => unfold parseNumeric; simp only; split <;> simp
  | nan => unfold parseNumeric; simp only; split <;> simp
  | inf b => unfold parseNumeric; simp only; split <;> simp
  | str x => unfold parseNumeric; simp only; split <;> simp
  | obj x => unfold parseNumeric; simp only; split <;> simp

theorem normalizeAgmarknetRecord_normalized (r : RawRecord) (n : PriceData)
    (h : normalizeAgmarknetRecord r = some n) : Normalized n := by
  unfold normalizeAgmarknetRecord at h
  simp only at h
  split_ifs at h with hc
  cases h
  rcases parseNumeric_shape r.modal_price with h1 | ⟨a, h1⟩ <;>
  rcases parseNumeric_shape r.max_price with h2 | ⟨b, h2⟩ <;>
  rcases parseNumeric_shape r.min_price with h3 | ⟨d, h3⟩ <;>
  simp only [h1, h2, h3, JsVal.nullish] at hc ⊢ <;>
  first
    | exact absurd trivial hc
    | exact absurd rfl hc
    | (constructor <;> simp [NumOrNull])

theorem pickTopMandiRecord_some (rs : List RawRecord) (s : JsVal) (n : PriceData)
    (h : pickTopMandiRecord rs s = some n) : Normalized n := by
  unfold pickTopMandiRecord at h
  simp only at h
  split_ifs at h
  all_goals
    split at h
    · cases h
    · next top rest heq =>
      cases h
      have hmem : top ∈ top :: rest := List.mem_cons_self _ _
      rw [← heq] at hmem
      replace hmem := (List.perm_insertionSort scoredBefore _).subset hmem
      obtain ⟨r, _, hr⟩ := List.mem_filterMap.mp hmem
      split at hr
      · cases hr
      · next nz hn =>
        cases hr
        exact normalizeAgmarknetRecord_normalized r nz hn

theorem agmarknetCommodityWide_some (env : Env) (commodity stateName : JsVal)
    (rec : PriceData)
    (h : agmarknetCommodityWide env commodity stateName = Completion.normal (some rec)) :
    Normalized rec ∧ rec.source.truthy = true ∧
    (stateName.truthy = true → rec.source = JsVal.str "Agmarknet (State Best Mandi)") := by
  unfold agmarknetCommodityWide at h
  split at h
  · cases h
  · split at h
    · next n hn =>
      cases h
      have hN := pickTopMandiRecord_some _ _ _ hn
      refine ⟨⟨hN.1, hN.2, hN.3, hN.4, hN.5⟩, ?_, ?_⟩
      · simp only; split_ifs <;> rfl
      · intro hs; simp [hs]
    · cases h

theorem agmarknetByMandi_some (env : Env) (commodity mandi stateName : JsVal)
    (rec : PriceData)
    (h : agmarknetByMandi env commodity mandi stateName = Completion.normal (some rec)) :
    Normalized rec ∧ rec.source.truthy = true ∧
    (stateName.truthy = true → rec.source ≠ JsVal.str "Agmarknet (Commodity Fallback)") := by
  have wide : agmarknetCommodityWide env commodity stateName = Completion.normal (some rec) →
      Normalized rec ∧ rec.source.truthy = true ∧
      (stateName.truthy = true → rec.source ≠ JsVal.str "Agmarknet (Commodity Fallback)") := by
    intro h
    obtain ⟨h1, h2, h3⟩ := agmarknetCommodityWide_some _ _ _ _ h
    exact ⟨h1, h2, fun hs => by rw [h3 hs]; simp⟩
  unfold agmarknetByMandi at h
  split_ifs at h
  · split at h
    · cases h
    · split at h
      · next n hn =>
        cases h
        have hN := pickTopMandiRecord_some _ _ _ hn
        exact ⟨⟨hN.1, hN.2, hN.3, hN.4, hN.5⟩, rfl, fun _ => by simp⟩
      · exact wide h
  · exact wide h

/-- What `fetchFromAgmarknet` returns: a normalized record with a source, which
is never the commodity-wide one when a state is requested. -/
theorem fetchFromAgmarknet_some (env : Env) (commodity mandi stateName : JsVal)
    (rec : PriceData)
    (h : fetchFromAgmarknet env commodity mandi stateName = Completion.normal (some rec)) :
    Normalized rec ∧ rec.source.truthy = true ∧
    (stateName.truthy = true → rec.source ≠ JsVal.str "Agmarknet (Commodity Fallback)") := by
  unfold fetchFromAgmarknet at h
  rw [tryCatch_some_iff] at h
  unfold fetchFromAgmarknetTry at h
  split_ifs at h
  · split at h
    · cases h
    · split at h
      · next n hn =>
        cases h
        have hN := pickTopMandiRecord_some _ _ _ hn
        exact ⟨⟨hN.1, hN.2, hN.3, hN.4, hN.5⟩, rfl, fun _ => by simp⟩
      · split at h
        · cases h
        · split at h
          · next n hn =>
            cases h
            have hN := pickTopMandiRecord_some _ _ _ hn
            exact ⟨⟨hN.1, hN.2, hN.3, hN.4, hN.5⟩, rfl, fun _ => by simp⟩
          · exact agmarknetByMandi_some _ _ _ _ _ h
  · exact agmarknetByMandi_some _ _ _ _ _ h

theorem liveNumericCurrent_shape (api : PriceData) (hN : Normalized api) :
    liveNumericCurrent api = JsVal.null ∨
    ∃ q, q ≠ 0 ∧ liveNumericCurrent api = JsVal.num q := by
  obtain ⟨⟨q, hq⟩, _, hmin, hmax, _⟩ := hN
  unfold liveNumericCurrent
  rcases hmin with h1 | ⟨a, h1⟩ <;> rcases hmax with h2 | ⟨b, h2⟩ <;>
    simp only [hq, h1, h2, JsVal.and, JsVal.truthy, JsVal.toNumber] <;>
    split_ifs <;> simp_all

theorem liveNumericCurrent_modal (api : PriceData) (m : ℚ) (hm : m ≠ 0)
    (h : api.currentPrice = JsVal.num m) : liveNumericCurrent api = JsVal.num m := by
  unfold liveNumericCurrent
  simp [h, JsVal.and, JsVal.truthy, JsVal.toNumber, hm]

theorem numOrNull_guard (v : JsVal) (h : NumOrNull v) :
    NumOrNull (if v.truthy then v.toNumber else JsVal.null) := by
  rcases h with h | ⟨q, h⟩ <;> subst h <;> simp only [JsVal.truthy, JsVal.toNumber] <;>
    split_ifs <;> simp [NumOrNull]

/-- The object `normalized` of the Live tier is not adjusted when the record
has a source other than the commodity-wide one. -/
theorem liveNormalized_unadjusted (env : Env) (cropLower : String) (nl mandi : JsVal)
    (api : PriceData) (cur : JsVal) (hsrc : api.source.truthy = true)
    (hfall : nl.truthy = true → api.source ≠ JsVal.str "Agmarknet (Commodity Fallback)") :
    liveNormalized env cropLower nl mandi api cur = Completion.normal
      { currentPrice := cur
        minPrice := if api.minPrice.truthy then api.minPrice.toNumber else JsVal.null
        maxPrice := if api.maxPrice.truthy then api.maxPrice.toNumber else JsVal.null
        modalPrice := if api.modalPrice.truthy then api.modalPrice.toNumber else JsVal.null
        unit := api.unit.or (JsVal.str "per quintal")
        currency := api.currency.or (JsVal.str "INR")
        arrivalDate := api.arrivalDate.or (JsVal.str env.nowIso)
        mandiName := (api.mandiName.or mandi).or JsVal.null
        source := api.source.or (JsVal.str "Agmarknet") } := by
  unfold liveNormalized
  simp only
  have hs : api.source.or (JsVal.str "Agmarknet") = api.source := by
    simp [JsVal.or, hsrc]
  by_cases hl : nl.truthy = true
  · have := hfall hl
    simp [hs, this]
  · simp [hl]

/-- What the Live tier hands to the cache and to the caller: the prices of the
record of `fetchFromAgmarknet`, without a regional adjustment. -/
theorem liveTier_some (env : Env) (cropName : String) (location : Option String)
    (n : PriceData) (h : liveTier env cropName location = Completion.normal (some n)) :
    ∃ api, fetchFromAgmarknet env (commodityFor cropName)
        (mandiFor (requestedLocation location)) (requestedLocation location)
          = Completion.normal (some api) ∧
      n.currentPrice = liveNumericCurrent api ∧
      (∃ q, q ≠ 0 ∧ n.currentPrice = JsVal.num q) ∧
      n.minPrice = (if api.minPrice.truthy then api.minPrice.toNumber else JsVal.null) ∧
      n.maxPrice = (if api.maxPrice.truthy then api.maxPrice.toNumber else JsVal.null) ∧
      NumOrNull n.minPrice ∧ NumOrNull n.maxPrice ∧ NumOrNull n.modalPrice ∧
      n.arrivalDate = api.arrivalDate.or (JsVal.str env.nowIso) := by
  unfold liveTier at h
  split at h
  · cases h
  · cases h
  · next api hapi =>
    obtain ⟨hN, hsrc, hfall⟩ := fetchFromAgmarknet_some _ _ _ _ _ hapi
    split_ifs at h with hnull
    · cases h
    rw [liveNormalized_unadjusted env _ _ _ api _ hsrc hfall] at h
    simp only [Completion.normal.injEq, Option.some.injEq] at h
    subst h
    refine ⟨api, hapi, rfl, ?_, rfl, rfl, numOrNull_guard _ hN.min_shape,
      numOrNull_guard _ hN.max_shape, numOrNull_guard _ hN.modal_shape, rfl⟩
    rcases liveNumericCurrent_shape api hN with h0 | h0
    · exact absurd h0 hnull
    · exact h0

/-- The Live tier never throws: the adapter catches its own failures and the
regional adjustment is not reached. -/
theorem liveTier_completes (env : Env) (cropName : String) (location : Option String) :
    ∃ r, liveTier env cropName location = Completion.normal r := by
  unfold liveTier
  split
  · next e he =>
    exact absurd he (by unfold fetchFromAgmarknet; exact tryCatch_not_throws _ e)
  · exact ⟨none, rfl⟩
  · next api hapi =>
    obtain ⟨hN, hsrc, hfall⟩ := fetchFromAgmarknet_some _ _ _ _ _ hapi
    split_ifs
    · exact ⟨none, rfl⟩
    · rw [liveNormalized_unadjusted env _ _ _ api _ hsrc hfall]
      exact ⟨_, rfl⟩

/-! ## Lemmas on the store -/

theorem syncPriceToCropProfile_marketPrices (env : Env) (st : Store) (cropName : String)
    (pd : PriceData) :
    (syncPriceToCropProfile env st cropName pd).marketPrices = st.marketPrices := by
  unfold syncPriceToCropProfile
  repeat' split
  all_goals rfl

theorem saveToCacheDB_marketPrices (env : Env) (st : Store) (cropName : String)
    (pd : PriceData) (location : JsVal) (hw : UpdateAccepted env pd) :
    (saveToCacheDB env st cropName pd location).marketPrices =
      upsert env.now (toLowerCase cropName) (cacheLocation location) pd st.marketPrices := by
  obtain ⟨hw, h1, h2, h3, h4, h5⟩ := hw
  unfold saveToCacheDB
  simp [hw, h1, h2, h3, h4, h5, syncPriceToCropProfile_marketPrices]

theorem filter_upsert (now : Nat) (c loc : String) (pd : PriceData) (l : List CacheEntry)
    (hu : (l.filter (fun e => decide (e.cropName = c ∧ e.location = loc))).length ≤ 1) :
    ∃ old, old.cropName = c ∧ old.location = loc ∧
      (upsert now c loc pd l).filter (fun e => decide (e.cropName = c ∧ e.location = loc))
        = [applyUpdate now pd old] := by
  induction l with
  | nil =>
    exact ⟨{ cropName := c, location := loc, currentPrice := JsVal.undefined,
             minPrice := JsVal.undefined, maxPrice := JsVal.undefined, lastUpdated := now },
      rfl, rfl, by simp [upsert, applyUpdate]⟩
  | cons e es ih =>
    by_cases hk : e.cropName = c ∧ e.location = loc
    · refine ⟨e, hk.1, hk.2, ?_⟩
      have hes : es.filter (fun e => decide (e.cropName = c ∧ e.location = loc)) = [] := by
        have : (e :: es).filter (fun e => decide (e.cropName = c ∧ e.location = loc))
            = e :: es.filter (fun e => decide (e.cropName = c ∧ e.location = loc)) := by
          simp [List.filter, hk]
        rw [this] at hu
        simp only [List.length_cons] at hu
        exact List.length_eq_zero.mp (by omega)
      have hup : upsert now c loc pd (e :: es) = applyUpdate now pd e :: es := by
        simp [upsert, hk]
      rw [hup]
      rw [List.filter_cons, hes]
      simp [applyUpdate, hk]
    · have hdrop : (e :: es).filter (fun e => decide (e.cropName = c ∧ e.location = loc))
          = es.filter (fun e => decide (e.cropName = c ∧ e.location = loc)) := by
        simp [List.filter, hk]
      rw [hdrop] at hu
      obtain ⟨old, h1, h2, h3⟩ := ih hu
      refine ⟨old, h1, h2, ?_⟩
      have hup : upsert now c loc pd (e :: es) = e :: upsert now c loc pd es := by
        simp [upsert, hk]
      rw [hup]
      rw [List.filter_cons, h3]
      simp [hk]

theorem findLatest_upsert (now : Nat) (c loc : String) (pd : PriceData) (l : List CacheEntry)
    (hu : (l.filter (fun e => decide (e.cropName = c ∧ e.location = loc))).length ≤ 1) :
    ∃ old, old.cropName = c ∧ old.location = loc ∧
      findLatest (fun e => decide (e.cropName = c ∧ e.location = loc)) (upsert now c loc pd l)
        = some (applyUpdate now pd old) := by
  obtain ⟨old, h1, h2, h3⟩ := filter_upsert now c loc pd l hu
  exact ⟨old, h1, h2, by unfold findLatest; rw [h3]; rfl⟩

/-- A price read from the cache under the key of the requested location is not
adjusted: the stored region is the requested one. -/
theorem adjustPriceByLocation_same_key (cropKey v : JsVal) (p : PriceData) :
    adjustPriceByLocation cropKey (normalizeLocation v)
      (JsVal.str (cacheLocation (normalizeLocation v))) p = Completion.normal p := by
  rcases normalizeLocation_cases v with h | ⟨t, h, ht, hidem⟩ | ⟨x, h⟩
  · rw [h]
    simp [adjustPriceByLocation, normalizeLocation, JsVal.truthy]
  · rw [h]
    have hkey : cacheLocation (JsVal.str t) = t := by
      simp [cacheLocation, hidem, JsVal.or, JsVal.truthy, ht, jsString]
    rw [hkey]
    unfold adjustPriceByLocation
    simp [hidem]
  · rw [h]
    simp [adjustPriceByLocation, normalizeLocation, JsVal.truthy]

theorem upsert_mem (now : Nat) (c loc : String) (pd : PriceData) (l : List CacheEntry) :
    ∃ old, old.cropName = c ∧ old.location = loc ∧
      applyUpdate now pd old ∈ upsert now c loc pd l := by
  induction l with
  | nil =>
    exact ⟨{ cropName := c, location := loc, currentPrice := JsVal.undefined,
             minPrice := JsVal.undefined, maxPrice := JsVal.undefined, lastUpdated := now },
      rfl, rfl, by simp [upsert]⟩
  | cons e es ih =>
    by_cases hk : e.cropName = c ∧ e.location = loc
    · exact ⟨e, hk.1, hk.2, by simp [upsert, hk]⟩
    · obtain ⟨old, h1, h2, h3⟩ := ih
      exact ⟨old, h1, h2, by simp [upsert, hk, h3]⟩

/-- The key of the cache for a normalized location: the location when it is a
string, else `All-India`. -/
theorem cacheLocation_normalized (v : JsVal) :
    cacheLocation (normalizeLocation v) =
      (match normalizeLocation v with
       | JsVal.str t => t
       | _ => "All-India") := by
  rcases normalizeLocation_cases v with h | ⟨t, h, ht, hidem⟩ | ⟨x, h⟩
  · rw [h]; simp [cacheLocation, normalizeLocation, JsVal.or, JsVal.truthy, jsString]
  · rw [h]; simp [cacheLocation, hidem, JsVal.or, JsVal.truthy, ht, jsString]
  · rw [h]; simp [cacheLocation, normalizeLocation, JsVal.or, JsVal.truthy, jsString]

/-- An offline request that follows an accepted write of `pd` under the same
commodity and location reads `pd` back from the cache, unadjusted. -/
theorem offlineTiers_after_save (env1 env2 : Env) (st : Store) (cropName : String)
    (v : JsVal) (pd : PriceData) (calls : List Effect)
    (hcur : pd.currentPrice ≠ JsVal.undefined)
    (hw : UpdateAccepted env1 pd) (hr : env2.cacheReadFails 1 = false)
    (hu : (st.marketPrices.filter (fun e => decide (e.cropName = toLowerCase cropName ∧
      e.location = cacheLocation (normalizeLocation v)))).length ≤ 1) :
    ∃ r, (offlineTiers env2 (saveToCacheDB env1 st cropName pd (normalizeLocation v)) cropName
        (toLowerCase cropName) (normalizeLocation v) calls).result = Completion.normal r ∧
      r.current = pd.currentPrice ∧ r.source = JsVal.str "Cached (Offline)" := by
  have hmp := saveToCacheDB_marketPrices env1 st cropName pd (normalizeLocation v) hw
  obtain ⟨old, h1, h2, hfind⟩ := findLatest_upsert env1.now (toLowerCase cropName)
    (cacheLocation (normalizeLocation v)) pd st.marketPrices hu
  have hfetch : fetchFromCacheDB env2 (saveToCacheDB env1 st cropName pd (normalizeLocation v))
      cropName (normalizeLocation v)
        = Completion.normal (some (cachedRecord (applyUpdate env1.now pd old))) := by
    unfold fetchFromCacheDB fetchFromCacheDBTry
    simp only [hr, hmp, hfind]
    simp [tryCatch]
  have hloc : (cachedRecord (applyUpdate env1.now pd old)).location
      = JsVal.str (cacheLocation (normalizeLocation v)) := by
    simp [cachedRecord, applyUpdate, h2]
  unfold offlineTiers
  rw [hfetch]
  simp only [hloc, adjustPriceByLocation_same_key]
  refine ⟨_, rfl, ?_, rfl⟩
  simp [cachedRecord, applyUpdate, setField, hcur]

theorem fetchFromAlternativeProvider_source (env : Env) (st : Store) (cropName : String)
    (commodity location : JsVal) (alt : PriceData)
    (h : fetchFromAlternativeProvider env st cropName commodity location
      = Completion.normal (some alt)) :
    alt.source = JsVal.str "Alternate (Simulated)" := by
  unfold fetchFromAlternativeProvider at h
  rw [tryCatch_some_iff] at h
  unfold fetchFromAlternativeProviderTry at h
  split at h
  · cases h
  · split_ifs at h
    simp only at h
    split at h
    · split at h
      · cases h
      · cases h; rfl
    · unfold alternativeFromMock at h
      split at h
      · cases h
      · simp only at h
        split at h
        · cases h
        · cases h; rfl

theorem findLatest_none (p : CacheEntry → Bool) (l : List CacheEntry)
    (h : ∀ e ∈ l, p e = false) : findLatest p l = none := by
  have : l.filter p = [] := List.filter_eq_nil_iff.mpr (fun e he => by simp [h e he])
  unfold findLatest
  rw [this]
  rfl

theorem fetchFromCacheDB_none (env : Env) (st : Store) (cropName : String) (location : JsVal)
    (h : ∀ e ∈ st.marketPrices, e.cropName ≠ toLowerCase cropName) :
    fetchFromCacheDB env st cropName location = Completion.normal none := by
  have h1 : ∀ loc, findLatest (fun e => decide (e.cropName = toLowerCase cropName ∧
      e.location = loc)) st.marketPrices = none :=
    fun loc => findLatest_none _ _ (fun e he => by simp [h e he])
  have h2 : findLatest (fun e => decide (e.cropName = toLowerCase cropName))
      st.marketPrices = none :=
    findLatest_none _ _ (fun e he => by simp [h e he])
  unfold fetchFromCacheDB fetchFromCacheDBTry
  simp only [h1, h2]
  split_ifs <;> rfl

theorem jsRound_mono (x y : ℚ) (h : x ≤ y) : jsRound x ≤ jsRound y := by
  unfold jsRound
  have : Rat.floor (x + 1 / 2) = ⌊x + 1 / 2⌋ := rfl
  rw [this]
  have : Rat.floor (y + 1 / 2) = ⌊y + 1 / 2⌋ := rfl
  rw [this]
  exact Int.floor_mono (by linarith)

theorem defaultStateMultipliers_pos : ∀ p ∈ defaultStateMultipliers, (0 : ℚ) < p.2 := by
  decide!

theorem locationPriceVariation_pos :
    ∀ p ∈ locationPriceVariation, ∀ q ∈ p.2, (0 : ℚ) < q.2 := by
  decide!

theorem inheritedMember_not_num (key : String) (m : ℚ) :
    inheritedMember key ≠ JsVal.num m := by
  unfold inheritedMember
  split_ifs <;> simp

theorem objectPrototypeMember_not_num (key : String) (m : ℚ) :
    objectPrototypeMember key ≠ JsVal.num m := by
  unfold objectPrototypeMember
  split_ifs
  · simp
  · exact inheritedMember_not_num key m

theorem builtinLength_le (member : String) : builtinLength member ≤ 2 := by
  unfold builtinLength
  split_ifs <;> omega

/-- A number read on a built-in function is its `length`, which is at most 2. -/
theorem functionMember_num (member name : String) (m : ℚ)
    (h : functionMember member name = Completion.normal (JsVal.num m)) :
    m = 0 ∨ m = 1 ∨ m = 2 := by
  unfold functionMember at h
  split_ifs at h
  · have h2 := JsVal.num.inj (Completion.normal.inj h)
    have hle := builtinLength_le member
    have : builtinLength member = 0 ∨ builtinLength member = 1 ∨ builtinLength member = 2 := by
      omega
    rcases this with h3 | h3 | h3 <;> rw [h3] at h2 <;> simp at h2 <;> simp [← h2]
  all_goals first
    | cases h
    | exact absurd (Completion.normal.inj h) (inheritedMember_not_num _ _)

/-- The eleven values of the fallback of `getLocationMultiplier` lie between
0.95 and 1.05. -/
theorem fallbackMultiplier_bounds : ∀ k < 11,
    (JsVal.num (double 0.95)).le ((JsVal.num (double 0.95)).add
      ((JsVal.num ((k : Nat) : ℚ)).div (JsVal.num 100))) = true ∧
    ((JsVal.num (double 0.95)).add
      ((JsVal.num ((k : Nat) : ℚ)).div (JsVal.num 100))).le (JsVal.num (double 1.05)) = true := by
  decide!

/-- A multiplier that `getLocationMultiplier` returns as a number is positive. -/
theorem getLocationMultiplier_pos (cropKey location : JsVal) (m : ℚ)
    (h : getLocationMultiplier cropKey location = Completion.normal (JsVal.num m)) : 0 < m := by
  have hget : ∀ (table : List (String × ℚ)) (k : String) (x : ℚ),
      (∀ p ∈ table, (0 : ℚ) < p.2) → jsGet JsVal.num table k = JsVal.num x → 0 < x := by
    intro table k x hpos hx
    unfold jsGet at hx
    split at hx
    · next a ha =>
      cases hx
      exact hpos _ (lookup_eq_some_mem _ _ _ ha)
    · exact absurd hx (inheritedMember_not_num _ _)
  unfold getLocationMultiplier at h
  simp only at h
  by_cases h1 : (!(normalizeLocation location).truthy) = true
  · rw [if_pos h1] at h; cases h; norm_num
  · rw [if_neg h1] at h
    generalize hcs : cropSpecificMultiplier (toLowerCase (jsString (cropKey.or (JsVal.str ""))))
      (jsString (normalizeLocation location)) = c at h
    cases c with
    | throws e => cases h
    | normal cropSpecific =>
      simp only at h
      split_ifs at h with h2 h3
      · have h4 := Completion.normal.inj h
        subst h4
        unfold cropSpecificMultiplier at hcs
        split at hcs
        · next inner hin =>
          exact hget inner _ m
            (fun q hq => locationPriceVariation_pos _ (lookup_eq_some_mem _ _ _ hin) q hq)
            (Completion.normal.inj hcs)
        · split_ifs at hcs
          · exact absurd (Completion.normal.inj hcs) (objectPrototypeMember_not_num _ _)
          · rcases functionMember_num _ _ m hcs with h5 | h5 | h5
            · subst h5; simp [JsVal.truthy] at h2
            · subst h5; norm_num
            · subst h5; norm_num
          · cases hcs
      · exact hget _ _ m defaultStateMultipliers_pos (Completion.normal.inj h)
      · have hb := (fallbackMultiplier_bounds _
          (Nat.mod_lt (locationHash (jsString (normalizeLocation location))) (by norm_num))).1
        rw [Completion.normal.inj h] at hb
        have h95 : (0 : ℚ) < double 0.95 := by decide!
        simp only [JsVal.le, JsVal.toNumber, decide_eq_true_eq] at hb
        linarith

theorem filter_upsert_other (now : Nat) (c loc c2 loc2 : String) (pd : PriceData)
    (l : List CacheEntry) (hne : ¬ (c2 = c ∧ loc2 = loc)) :
    ((upsert now c loc pd l).filter
        (fun e => decide (e.cropName = c2 ∧ e.location = loc2))).length
      = (l.filter (fun e => decide (e.cropName = c2 ∧ e.location = loc2))).length := by
  induction l with
  | nil =>
    have : ¬ (c = c2 ∧ loc = loc2) := fun h => hne ⟨h.1.symm, h.2.symm⟩
    simp [upsert, applyUpdate, this]
  | cons e es ih =>
    by_cases hk : e.cropName = c ∧ e.location = loc
    · have hup : upsert now c loc pd (e :: es) = applyUpdate now pd e :: es := by
        simp [upsert, hk]
      have h2 : ¬ (e.cropName = c2 ∧ e.location = loc2) := by
        rintro ⟨h1, h2⟩
        exact hne ⟨h1.symm.trans hk.1, h2.symm.trans hk.2⟩
      have h3 : ¬ ((applyUpdate now pd e).cropName = c2 ∧
          (applyUpdate now pd e).location = loc2) := h2
      rw [hup, List.filter_cons, List.filter_cons, if_neg (by simpa using h3),
        if_neg (by simpa using h2)]
    · have hup : upsert now c loc pd (e :: es) = e :: upsert now c loc pd es := by
        simp [upsert, hk]
      rw [hup, List.filter_cons, List.filter_cons]
      by_cases h2 : e.cropName = c2 ∧ e.location = loc2
      · rw [if_pos (by simpa using h2), if_pos (by simpa using h2)]
        simp only [List.length_cons, ih]
      · rw [if_neg (by simpa using h2), if_neg (by simpa using h2)]
        exact ih

/-- The update of `saveToCacheDB` keeps at most one entry per key. -/
theorem upsert_uniqueKeys (now : Nat) (c loc : String) (pd : PriceData)
    (l : List CacheEntry) (h : UniqueKeys l) : UniqueKeys (upsert now c loc pd l) := by
  intro c2 loc2
  by_cases hk : c2 = c ∧ loc2 = loc
  · obtain ⟨rfl, rfl⟩ := hk
    obtain ⟨old, _, _, hf⟩ := filter_upsert now c2 loc2 pd l (h c2 loc2)
    rw [hf]; simp
  · rw [filter_upsert_other now c loc c2 loc2 pd l hk]
    exact h c2 loc2

theorem saveToCacheDB_uniqueKeys (env : Env) (st : Store) (cropName : String)
    (pd : PriceData) (location : JsVal) (h : UniqueKeys st.marketPrices) :
    UniqueKeys (saveToCacheDB env st cropName pd location).marketPrices := by
  unfold saveToCacheDB
  simp only
  split_ifs
  · exact h
  · rw [syncPriceToCropProfile_marketPrices]
    exact upsert_uniqueKeys _ _ _ _ _ h

/-- The result of `getMarketPrice` is that of its block `try` when it completes
normally. -/
theorem getMarketPrice_result_normal (env : Env) (st : Store) (cropName : String)
    (location : Option String) (hasInternet : Bool) (r : PriceResult)
    (h : (getMarketPriceTry env st cropName location hasInternet).result
      = Completion.normal r) :
    (getMarketPrice env st cropName location hasInternet).result = r := by
  unfold getMarketPrice
  simp only [h]

/-- The result of `getMarketPrice` is that of its block `catch` when a step of
the block `try` throws. -/
theorem getMarketPrice_result_throws (env : Env) (st : Store) (cropName : String)
    (location : Option String) (hasInternet : Bool) (e : Thrown)
    (h : (getMarketPriceTry env st cropName location hasInternet).result
      = Completion.throws e) :
    (getMarketPrice env st cropName location hasInternet).result
      = getMarketPriceCatch cropName location := by
  unfold getMarketPrice
  simp only [h]

/-- The store after the later tiers and their calls: the store is unchanged, or
it results from one call of `saveToCacheDB` that the list of calls records. -/
theorem offlineTiers_store_calls (env : Env) (st : Store) (cropName cropLower : String)
    (nl : JsVal) (calls : List Effect) :
    (offlineTiers env st cropName cropLower nl calls).store = st ∨
    (Effect.cacheSave cropName nl ∈ (offlineTiers env st cropName cropLower nl calls).calls ∧
      ∃ pd, (offlineTiers env st cropName cropLower nl calls).store
        = saveToCacheDB env st cropName pd nl) := by
  unfold offlineTiers
  repeat' split
  all_goals first
    | exact Or.inl rfl
    | exact Or.inr ⟨by simp, _, rfl⟩

/-- The store after `getMarketPrice` and its calls: the store is unchanged, or
it results from one call of `saveToCacheDB` that the list of calls records. -/
theorem getMarketPrice_store_calls (env : Env) (st : Store) (cropName : String)
    (location : Option String) (hasInternet : Bool) :
    (getMarketPrice env st cropName location hasInternet).store = st ∨
    (Effect.cacheSave cropName (requestedLocation location)
        ∈ (getMarketPrice env st cropName location hasInternet).calls ∧
      ∃ pd, (getMarketPrice env st cropName location hasInternet).store
        = saveToCacheDB env st cropName pd (requestedLocation location)) := by
  unfold getMarketPrice getMarketPriceTry
  simp only
  repeat' split
  all_goals first
    | exact Or.inl rfl
    | exact Or.inr ⟨by simp, _, rfl⟩
    | exact offlineTiers_store_calls _ _ _ _ _ _

/-- The store after `getMarketPrice`: the store before, or the result of one
call of `saveToCacheDB` on it for the requested commodity and location. -/
theorem getMarketPrice_store (env : Env) (st : Store) (cropName : String)
    (location : Option String) (hasInternet : Bool) :
    (getMarketPrice env st cropName location hasInternet).store = st ∨
    ∃ pd, (getMarketPrice env st cropName location hasInternet).store
      = saveToCacheDB env st cropName pd (requestedLocation location) := by
  rcases getMarketPrice_store_calls env st cropName location hasInternet with h | ⟨_, h⟩
  · exact Or.inl h
  · exact Or.inr h

/-- Every call of `getMarketPrice` keeps at most one cache entry per key. -/
theorem getMarketPrice_uniqueKeys (env : Env) (st : Store) (cropName : String)
    (location : Option String) (hasInternet : Bool) (h : UniqueKeys st.marketPrices) :
    UniqueKeys (getMarketPrice env st cropName location hasInternet).store.marketPrices := by
  rcases getMarketPrice_store env st cropName location hasInternet with h1 | ⟨pd, h1⟩
  · rw [h1]; exact h
  · rw [h1]; exact saveToCacheDB_uniqueKeys _ _ _ _ _ h

theorem findLatest_foldl (m : List CacheEntry) :
    ∀ (acc : Option CacheEntry) (e : CacheEntry),
      m.foldl (fun best e =>
        match best with
        | none => some e
        | some b => if b.lastUpdated < e.lastUpdated then some e else some b) acc = some e →
      (e ∈ m ∨ acc = some e) ∧ (∀ x ∈ m, x.lastUpdated ≤ e.lastUpdated) ∧
      (∀ b, acc = some b → b.lastUpdated ≤ e.lastUpdated) := by
  induction m with
  | nil =>
    intro acc e h
    simp only [List.foldl] at h
    refine ⟨Or.inr h, fun x hx => absurd hx (List.not_mem_nil _), ?_⟩
    intro b hb
    rw [hb] at h
    cases h
    exact le_refl _
  | cons x xs ih =>
    intro acc e h
    simp only [List.foldl] at h
    cases acc with
    | none =>
      obtain ⟨h1, h2, h3⟩ := ih _ e h
      refine ⟨?_, ?_, fun b hb => by cases hb⟩
      · rcases h1 with h1 | h1
        · exact Or.inl (List.mem_cons_of_mem _ h1)
        · cases h1; exact Or.inl (List.mem_cons_self _ _)
      · intro y hy
        rcases List.mem_cons.mp hy with hy | hy
        · subst hy; exact h3 _ rfl
        · exact h2 y hy
    | some b =>
      simp only at h
      by_cases hlt : b.lastUpdated < x.lastUpdated
      · rw [if_pos hlt] at h
        obtain ⟨h1, h2, h3⟩ := ih _ e h
        refine ⟨?_, ?_, ?_⟩
        · rcases h1 with h1 | h1
          · exact Or.inl (List.mem_cons_of_mem _ h1)
          · cases h1; exact Or.inl (List.mem_cons_self _ _)
        · intro y hy
          rcases List.mem_cons.mp hy with hy | hy
          · subst hy; exact h3 _ rfl
          · exact h2 y hy
        · intro b2 hb2
          cases hb2
          exact le_trans (le_of_lt hlt) (h3 _ rfl)
      · rw [if_neg hlt] at h
        obtain ⟨h1, h2, h3⟩ := ih _ e h
        refine ⟨?_, ?_, ?_⟩
        · rcases h1 with h1 | h1
          · exact Or.inl (List.mem_cons_of_mem _ h1)
          · exact Or.inr h1
        · intro y hy
          rcases List.mem_cons.mp hy with hy | hy
          · subst hy; exact le_trans (not_lt.mp hlt) (h3 _ rfl)
          · exact h2 y hy
        · intro b2 hb2
          cases hb2
          exact h3 _ rfl

/-- The query `findLatest` returns a matching document of the collection whose
`lastUpdated` no matching document exceeds. -/
theorem findLatest_some (p : CacheEntry → Bool) (l : List CacheEntry) (e : CacheEntry)
    (h : findLatest p l = some e) :
    e ∈ l ∧ p e = true ∧ ∀ x ∈ l, p x = true → x.lastUpdated ≤ e.lastUpdated := by
  unfold findLatest at h
  obtain ⟨h1, h2, _⟩ := findLatest_foldl _ none e h
  have hmem : e ∈ l.filter p := by
    rcases h1 with h1 | h1
    · exact h1
    · cases h1
  exact ⟨(List.mem_filter.mp hmem).1, (List.mem_filter.mp hmem).2,
    fun x hx hp => h2 x (List.mem_filter.mpr ⟨hx, hp⟩)⟩

theorem findLatest_eq_none_iff (p : CacheEntry → Bool) (l : List CacheEntry) :
    findLatest p l = none ↔ ∀ e ∈ l, p e = false := by
  constructor
  · intro h e he
    by_contra hp
    have hp2 : p e = true := by simpa using hp
    have hmem : e ∈ l.filter p := List.mem_filter.mpr ⟨he, hp2⟩
    unfold findLatest at h
    cases hf : l.filter p with
    | nil => rw [hf] at hmem; exact absurd hmem (List.not_mem_nil _)
    | cons y ys =>
      rw [hf] at h
      simp only [List.foldl] at h
      have : ∀ (m : List CacheEntry) (b : CacheEntry),
          m.foldl (fun best e =>
            match best with
            | none => some e
            | some b => if b.lastUpdated < e.lastUpdated then some e else some b) (some b)
            ≠ none := by
        intro m
        induction m with
        | nil => intro b; simp
        | cons z zs ih =>
          intro b
          simp only [List.foldl]
          split_ifs
          · exact ih z
          · exact ih b
      exact this ys y h
  · exact findLatest_none p l

theorem cacheLocation_of_falsy (r : JsVal) (h : r.truthy = false) :
    cacheLocation r = "All-India" := by
  have hn : normalizeLocation r = JsVal.null := by
    cases r with
    | str s =>
      have hs : s = "" := by simpa [JsVal.truthy] using h
      subst hs
      simp [normalizeLocation]
    | undefined => rfl
    | null => rfl
    | bool b => rfl
    | num q => rfl
    | inf b => rfl
    | nan => rfl
    | obj x => rfl
  simp [cacheLocation, hn, JsVal.or, JsVal.truthy, jsString]

/-- The value of `fetchFromCacheDB` when no read is rejected, by the results of
its three queries. -/
theorem fetchFromCacheDB_eq (env : Env) (st : Store) (c : String) (r : JsVal)
    (hread : ∀ n, env.cacheReadFails n = false) :
    fetchFromCacheDB env st c r = Completion.normal
      (match findLatest (fun e => decide (e.cropName = toLowerCase c ∧
          e.location = cacheLocation r)) st.marketPrices with
      | some e => some (cachedRecord e)
      | none =>
        match findLatest (fun e => decide (e.cropName = toLowerCase c ∧
            e.location = "All-India")) st.marketPrices with
        | some e => some (cachedRecord e)
        | none => (findLatest (fun e => decide (e.cropName = toLowerCase c))
            st.marketPrices).map cachedRecord) := by
  unfold fetchFromCacheDB fetchFromCacheDBTry
  simp only [hread, Bool.false_eq_true, if_false]
  cases hex : findLatest (fun e => decide (e.cropName = toLowerCase c ∧
      e.location = cacheLocation r)) st.marketPrices with
  | some e => rfl
  | none =>
    simp only
    by_cases ht : r.truthy = true
    · simp only [ht, if_true]
      cases findLatest (fun e => decide (e.cropName = toLowerCase c ∧
          e.location = "All-India")) st.marketPrices <;> rfl
    · have hf : r.truthy = false := by simpa using ht
      have hall : findLatest (fun e => decide (e.cropName = toLowerCase c ∧
          e.location = "All-India")) st.marketPrices = none := by
        rw [cacheLocation_of_falsy r hf] at hex
        exact hex
      simp only [hf, hall, Bool.false_eq_true, if_false]
      rfl

/-! ## Lemmas on the choice of the best record -/

theorem pickTopMandiRecord_eq (records : List RawRecord) (stateName : JsVal) :
    pickTopMandiRecord records stateName =
      if records.isEmpty then none
      else
        match ((stateFiltered records stateName).filterMap scoreRecord).insertionSort
            scoredBefore with
        | [] => none
        | top :: _ => some top.normalized := rfl

/-- The comparator of the sort as a lexicographic order: `a` is not after `b`
when `b` has the smaller time, or the same time and the smaller modal price, or
the same of both and a max price that is not greater. -/
theorem scoredBefore_iff (a b : Scored) :
    scoredBefore a b ↔
      (b.arrivalTs < a.arrivalTs ∨ (b.arrivalTs = a.arrivalTs ∧
        (b.modal < a.modal ∨ (b.modal = a.modal ∧ b.max ≤ a.max)))) := by
  unfold scoredBefore
  split_ifs with h1 h2
  · rw [sub_nonpos, Int.cast_le]
    constructor
    · intro h; exact Or.inl (lt_of_le_of_ne h h1)
    · rintro (h | ⟨h, _⟩)
      · exact le_of_lt h
      · exact absurd h h1
  · rw [sub_nonpos]
    have h1' : b.arrivalTs = a.arrivalTs := by simpa using h1
    constructor
    · intro h; exact Or.inr ⟨h1', Or.inl (lt_of_le_of_ne h h2)⟩
    · rintro (h | ⟨_, h | ⟨h, _⟩⟩)
      · rw [h1'] at h; exact absurd h (lt_irrefl _)
      · exact le_of_lt h
      · exact absurd h h2
  · rw [sub_nonpos]
    have h1' : b.arrivalTs = a.arrivalTs := by simpa using h1
    have h2' : b.modal = a.modal := by simpa using h2
    constructor
    · intro h; exact Or.inr ⟨h1', Or.inr ⟨h2', h⟩⟩
    · rintro (h | ⟨_, h | ⟨_, h⟩⟩)
      · rw [h1'] at h; exact absurd h (lt_irrefl _)
      · rw [h2'] at h; exact absurd h (lt_irrefl _)
      · exact h

theorem scoredBefore_total (a b : Scored) : scoredBefore a b ∨ scoredBefore b a := by
  rw [scoredBefore_iff, scoredBefore_iff]
  rcases lt_trichotomy a.arrivalTs b.arrivalTs with h | h | h
  · exact Or.inr (Or.inl h)
  · rcases lt_trichotomy a.modal b.modal with h2 | h2 | h2
    · exact Or.inr (Or.inr ⟨h, Or.inl h2⟩)
    · rcases le_total a.max b.max with h3 | h3
      · exact Or.inr (Or.inr ⟨h, Or.inr ⟨h2, h3⟩⟩)
      · exact Or.inl (Or.inr ⟨h.symm, Or.inr ⟨h2.symm, h3⟩⟩)
    · exact Or.inl (Or.inr ⟨h.symm, Or.inl h2⟩)
  · exact Or.inl (Or.inl h)

theorem scoredBefore_trans (a b c : Scored) (h1 : scoredBefore a b) (h2 : scoredBefore b c) :
    scoredBefore a c := by
  rw [scoredBefore_iff] at h1 h2 ⊢
  rcases h1 with h1 | ⟨h1, h1'⟩
  · rcases h2 with h2 | ⟨h2, _⟩
    · exact Or.inl (lt_trans h2 h1)
    · exact Or.inl (h2 ▸ h1)
  · rcases h2 with h2 | ⟨h2, h2'⟩
    · exact Or.inl (h1 ▸ h2)
    · refine Or.inr ⟨h2.trans h1, ?_⟩
      rcases h1' with h1' | ⟨h1', h1''⟩
      · rcases h2' with h2' | ⟨h2', _⟩
        · exact Or.inl (lt_trans h2' h1')
        · exact Or.inl (h2' ▸ h1')
      · rcases h2' with h2' | ⟨h2', h2''⟩
        · exact Or.inl (h1' ▸ h2')
        · exact Or.inr ⟨h2'.trans h1', le_trans h2'' h1''⟩

/-- The first element of the sorted array is not after any element. -/
theorem insertionSort_head_first (l rest : List Scored) (top : Scored)
    (h : l.insertionSort scoredBefore = top :: rest) :
    ∀ x ∈ l, scoredBefore top x := by
  have hsorted : List.Sorted scoredBefore (l.insertionSort scoredBefore) :=
    @List.sorted_insertionSort _ scoredBefore _ ⟨scoredBefore_total⟩ ⟨scoredBefore_trans⟩ l
  rw [h] at hsorted
  intro x hx
  have hx2 : x ∈ top :: rest := by
    rw [← h]
    exact (List.perm_insertionSort scoredBefore l).symm.subset hx
  rcases List.mem_cons.mp hx2 with hx3 | hx3
  · subst hx3
    rcases scoredBefore_total x x with h0 | h0 <;> exact h0
  · exact List.rel_of_sorted_cons hsorted x hx3

theorem scoreRecord_eq_none_iff (r : RawRecord) :
    scoreRecord r = none ↔ normalizeAgmarknetRecord r = none := by
  unfold scoreRecord
  cases normalizeAgmarknetRecord r <;> simp

theorem scoreRecord_some (r : RawRecord) (x : Scored) (h : scoreRecord r = some x) :
    normalizeAgmarknetRecord r = some x.normalized ∧ x.arrivalTs = parseArrivalDate r ∧
    x.modal = priceOrMinusOne x.normalized.modalPrice ∧
    x.max = priceOrMinusOne x.normalized.maxPrice := by
  unfold scoreRecord at h
  cases hn : normalizeAgmarknetRecord r with
  | none => rw [hn] at h; cases h
  | some n =>
    rw [hn] at h
    cases h
    exact ⟨rfl, rfl, rfl, rfl⟩

theorem scoreRecord_of_normalized (r : RawRecord) (n : PriceData)
    (h : normalizeAgmarknetRecord r = some n) :
    scoreRecord r = some {
      normalized := n
      arrivalTs := parseArrivalDate r
      modal := priceOrMinusOne n.modalPrice
      max := priceOrMinusOne n.maxPrice } := by
  unfold scoreRecord
  rw [h]

theorem stateFiltered_nil (stateName : JsVal) : stateFiltered [] stateName = [] := by
  unfold stateFiltered
  simp

theorem pickTopMandiRecord_mem (records : List RawRecord) (stateName : JsVal)
    (n : PriceData) (h : pickTopMandiRecord records stateName = some n) :
    ∃ r ∈ stateFiltered records stateName, normalizeAgmarknetRecord r = some n := by
  rw [pickTopMandiRecord_eq] at h
  split_ifs at h
  split at h
  · cases h
  · next top rest hs =>
    cases h
    have hmem : top ∈ top :: rest := List.mem_cons_self _ _
    rw [← hs] at hmem
    replace hmem := (List.perm_insertionSort scoredBefore _).subset hmem
    obtain ⟨r, hr, hx⟩ := List.mem_filterMap.mp hmem
    exact ⟨r, hr, (scoreRecord_some r top hx).1⟩

theorem normalizeAgmarknetRecord_stateName (r : RawRecord) (n : PriceData)
    (h : normalizeAgmarknetRecord r = some n) :
    n.stateName = (r.state.or r.state_name).or JsVal.null := by
  unfold normalizeAgmarknetRecord at h
  simp only at h
  split_ifs at h
  cases h
  rfl

theorem normalizeLocation_or_null (x : JsVal) :
    normalizeLocation (x.or JsVal.null) = normalizeLocation (x.or (JsVal.str "")) := by
  unfold JsVal.or
  split_ifs
  · rfl
  · simp [normalizeLocation]

/-- The regional multiplier of a commodity whose key names no member of
`Object.prototype` never throws, and neither does that of a location whose key
is neither `caller` nor `arguments`. -/
theorem getLocationMultiplier_completes (cropKey location : JsVal)
    (h : protoMembers.contains (toLowerCase (jsString (cropKey.or (JsVal.str "")))) = false ∨
      (jsString (normalizeLocation location) ≠ "caller" ∧
        jsString (normalizeLocation location) ≠ "arguments")) :
    ∃ v, getLocationMultiplier cropKey location = Completion.normal v := by
  have hspec : ∃ v, cropSpecificMultiplier (toLowerCase (jsString (cropKey.or (JsVal.str ""))))
      (jsString (normalizeLocation location)) = Completion.normal v := by
    unfold cropSpecificMultiplier
    split
    · exact ⟨_, rfl⟩
    · split_ifs with h1 h2
      · exact ⟨_, rfl⟩
      · rcases h with h | ⟨h3, h4⟩
        · rw [h] at h1; cases h1
        · unfold functionMember
          simp only [h3, h4, Bool.or_self, decide_False, Bool.false_eq_true, if_false]
          split_ifs <;> exact ⟨_, rfl⟩
      · exact ⟨_, rfl⟩
  obtain ⟨v, hv⟩ := hspec
  unfold getLocationMultiplier
  simp only [hv]
  split_ifs <;> exact ⟨_, rfl⟩

/-- The fallback of `getLocationMultiplier`: for a location that normalizes to
a string which is an own entry of neither multiplier table and names no member
of `Object.prototype`, and a commodity whose key names none either, the
multiplier is `0.95 + (S mod 11) / 100` with `S` the sum of the character codes
of the key, and it lies between 0.95 and 1.05. -/
theorem getLocationMultiplier_fallback (cropKey location : JsVal) (t : String)
    (hloc : normalizeLocation location = JsVal.str t)
    (hcrop : ∀ p ∈ locationPriceVariation, p.2.lookup t = none)
    (hdefault : defaultStateMultipliers.lookup t = none)
    (hproto : protoMembers.contains t = false)
    (hkey : protoMembers.contains (toLowerCase (jsString (cropKey.or (JsVal.str ""))))
      = false) :
    getLocationMultiplier cropKey location
      = Completion.normal ((JsVal.num (double 0.95)).add
          ((JsVal.num ((locationHash t % 11 : Nat) : ℚ)).div (JsVal.num 100))) ∧
    (JsVal.num (double 0.95)).le ((JsVal.num (double 0.95)).add
      ((JsVal.num ((locationHash t % 11 : Nat) : ℚ)).div (JsVal.num 100))) = true ∧
    ((JsVal.num (double 0.95)).add
      ((JsVal.num ((locationHash t % 11 : Nat) : ℚ)).div (JsVal.num 100))).le
        (JsVal.num (double 1.05)) = true := by
  have hinh : inheritedMember t = JsVal.undefined := by
    unfold inheritedMember
    simp only [hproto, Bool.false_eq_true, if_false]
  have hspec : cropSpecificMultiplier (toLowerCase (jsString (cropKey.or (JsVal.str "")))) t
      = Completion.normal JsVal.undefined := by
    unfold cropSpecificMultiplier
    split
    · next inner hin =>
      have := hcrop _ (lookup_eq_some_mem _ _ _ hin)
      simp only at this
      simp [jsGet, this, hinh]
    · simp only [hkey, Bool.false_eq_true, if_false]
  have hdef : jsGet JsVal.num defaultStateMultipliers t = JsVal.undefined := by
    simp [jsGet, hdefault, hinh]
  have ht : t ≠ "" := (normalizeLocation_cases location).elim
    (fun h => by rw [hloc] at h; cases h)
    (fun h => h.elim
      (fun ⟨t2, h1, h2, _⟩ => by rw [hloc] at h1; cases h1; exact h2)
      (fun ⟨x, h1⟩ => by rw [hloc] at h1; cases h1))
  have hb := fallbackMultiplier_bounds _ (Nat.mod_lt (locationHash t) (by norm_num : 0 < 11))
  refine ⟨?_, hb.1, hb.2⟩
  have hj : jsString (JsVal.str t) = t := rfl
  unfold getLocationMultiplier
  simp only [hloc, hj, hspec]
  simp [JsVal.truthy, ht, hdef]

/-! ## Lemmas on the lower case -/

/-- Every range of the table maps its code points to valid code points beyond
the ASCII range, the Kelvin sign apart, and never to the Kelvin sign or to the
capital I with a dot above. -/
theorem lowerCaseRanges_image : ∀ r ∈ lowerCaseRanges,
    ((r.1 = 8490 ∧ r.2.1 = 8490 ∧ r.2.2.2 = -8383) ∨
      ((128 : Int) ≤ r.1 + r.2.2.2 ∧ (r.2.1 : Int) + r.2.2.2 < 55296) ∨
      ((57344 : Int) ≤ r.1 + r.2.2.2 ∧ (r.2.1 : Int) + r.2.2.2 < 1114112)) ∧
    ((r.2.1 : Int) + r.2.2.2 < 304 ∨ (304 : Int) < r.1 + r.2.2.2) ∧
    ((r.2.1 : Int) + r.2.2.2 < 8490 ∨ (8490 : Int) < r.1 + r.2.2.2) := by
  set_option maxRecDepth 100000 in decide!

theorem toNat_ofNat_valid (m : Nat) (h : m < 55296 ∨ (57344 ≤ m ∧ m < 1114112)) :
    (Char.ofNat m).toNat = m := by
  have hv : m.isValidChar := by
    rcases h with h | ⟨h1, h2⟩
    · exact Or.inl h
    · exact Or.inr ⟨by omega, h2⟩
  unfold Char.ofNat
  rw [dif_pos hv]
  rfl

/-- The lower case of a code point beyond the ASCII range: itself, the letter
`k` for the Kelvin sign, or a valid code point beyond the ASCII range that is
neither the Kelvin sign nor the capital I with a dot above. -/
theorem lowerCodePoint_cases (n : Nat) (hn : 128 ≤ n) :
    lowerCodePoint n = n ∨ (n = 8490 ∧ lowerCodePoint n = 107) ∨
    (128 ≤ lowerCodePoint n ∧ (Char.ofNat (lowerCodePoint n)).toNat = lowerCodePoint n ∧
      lowerCodePoint n ≠ 304 ∧ lowerCodePoint n ≠ 8490) := by
  unfold lowerCodePoint
  rw [if_neg (by omega)]
  cases hf : lowerCaseRanges.find? (fun r =>
      r.1 ≤ n && n ≤ r.2.1 && (n - r.1) % r.2.2.1 == 0) with
  | none => exact Or.inl rfl
  | some r =>
    have hmem := List.mem_of_find?_eq_some hf
    have hp := List.find?_some hf
    simp only [Bool.and_eq_true, decide_eq_true_eq, beq_iff_eq] at hp
    obtain ⟨⟨h1, h2⟩, _⟩ := hp
    obtain ⟨ha, hb, hc⟩ := lowerCaseRanges_image r hmem
    simp only
    rcases ha with ⟨ha1, ha2, ha3⟩ | ⟨ha1, ha2⟩ | ⟨ha1, ha2⟩
    · right; left
      refine ⟨by omega, ?_⟩
      rw [ha3]
      omega
    · right; right
      refine ⟨by omega, toNat_ofNat_valid _ (Or.inl (by omega)), by omega, by omega⟩
    · right; right
      refine ⟨by omega, toNat_ofNat_valid _ (Or.inr ⟨by omega, by omega⟩), by omega, by omega⟩

/-- A character that the lower case conversion leaves as it is when it yields
an ASCII character for it: no capital ASCII letter, Kelvin sign or capital I
with a dot above. -/
theorem lowered_stable (c : Char)
    (h1 : ¬ (65 ≤ c.toNat ∧ c.toNat ≤ 90)) (h2 : c.toNat ≠ 8490)
    (h4 : (Char.ofNat (lowerCodePoint c.toNat)).toNat < 128) :
    Char.ofNat (lowerCodePoint c.toNat) = c := by
  by_cases hn : c.toNat < 128
  · have : lowerCodePoint c.toNat = c.toNat := by
      unfold lowerCodePoint
      rw [if_pos hn]
      have : (decide (65 ≤ c.toNat) && decide (c.toNat ≤ 90)) = false := by
        by_cases h65 : 65 ≤ c.toNat
        · have : ¬ c.toNat ≤ 90 := fun h => h1 ⟨h65, h⟩
          simp [this]
        · simp [h65]
      rw [this]
      rfl
    rw [this]
    exact Char.ofNat_toNat c
  · rcases lowerCodePoint_cases c.toNat (by omega) with h | ⟨h, _⟩ | ⟨h5, h6, _⟩
    · rw [h]; exact Char.ofNat_toNat c
    · exact absurd h h2
    · rw [h6] at h4; omega

/-- The characters that the lower case conversion yields are no capital ASCII
letters, Kelvin signs or capital I with a dot above. -/
theorem lowerChars_lowered (l : List Char) : ∀ (before : List Char),
    ∀ c ∈ lowerChars before l,
      ¬ (65 ≤ c.toNat ∧ c.toNat ≤ 90) ∧ c.toNat ≠ 8490 ∧ c.toNat ≠ 304 := by
  induction l with
  | nil => intro before c hc; simp [lowerChars] at hc
  | cons d ds ih =>
    intro before c hc
    unfold lowerChars at hc
    rcases List.mem_append.mp hc with hc | hc
    · by_cases h931 : d.toNat = 931
      · rw [if_pos h931] at hc
        rw [List.mem_singleton.mp hc]
        split_ifs <;> decide
      by_cases h304 : d.toNat = 304
      · rw [if_neg h931, if_pos h304] at hc
        rcases List.mem_cons.mp hc with hc2 | hc2
        · rw [hc2]; decide
        · rw [List.mem_singleton.mp hc2]; decide
      · rw [if_neg h931, if_neg h304] at hc
        rw [List.mem_singleton.mp hc]
        by_cases hn : d.toNat < 128
        · have hv : (Char.ofNat (lowerCodePoint d.toNat)).toNat = lowerCodePoint d.toNat := by
            apply toNat_ofNat_valid
            left
            unfold lowerCodePoint
            rw [if_pos hn]
            split_ifs <;> omega
          rw [hv]
          unfold lowerCodePoint
          rw [if_pos hn]
          by_cases hu : (decide (65 ≤ d.toNat) && decide (d.toNat ≤ 90)) = true
          · rw [if_pos hu]
            simp only [Bool.and_eq_true, decide_eq_true_eq] at hu
            omega
          · rw [if_neg hu]
            simp only [Bool.and_eq_true, decide_eq_true_eq] at hu
            omega
        · rcases lowerCodePoint_cases d.toNat (by omega) with h | ⟨h, h2⟩ | ⟨h5, h6, h7, h8⟩
          · rw [h, Char.ofNat_toNat]
            refine ⟨by omega, ?_, h304⟩
            intro h8490
            have : lowerCodePoint 8490 = 107 := by decide!
            rw [h8490] at h
            omega
          · rw [h2]; decide
          · rw [h6]
            exact ⟨by omega, h8, h7⟩
    · exact ih _ c hc

/-- The lower case conversion leaves a text of lowered characters as it is when
it yields ASCII characters only. -/
theorem lowerChars_fixed (l : List Char) : ∀ (before : List Char),
    (∀ c ∈ l, ¬ (65 ≤ c.toNat ∧ c.toNat ≤ 90) ∧ c.toNat ≠ 8490 ∧ c.toNat ≠ 304) →
    (∀ c ∈ lowerChars before l, c.toNat < 128) → lowerChars before l = l := by
  induction l with
  | nil => intro before _ _; rfl
  | cons d ds ih =>
    intro before hl hout
    have hd := hl d (List.mem_cons_self _ _)
    unfold lowerChars at hout ⊢
    have hrest := ih (d :: before) (fun c hc => hl c (List.mem_cons_of_mem _ hc))
      (fun c hc => hout c (List.mem_append_right _ hc))
    rw [hrest]
    by_cases h931 : d.toNat = 931
    · exfalso
      have := hout _ (List.mem_append_left _ (by rw [if_pos h931]; exact List.mem_singleton_self _))
      revert this
      split_ifs <;> decide
    by_cases h304 : d.toNat = 304
    · exact absurd h304 hd.2.2
    · have h4 : (Char.ofNat (lowerCodePoint d.toNat)).toNat < 128 := by
        apply hout
        rw [if_neg h931, if_neg h304]
        exact List.mem_append_left _ (List.mem_singleton_self _)
      rw [if_neg h931, if_neg h304, lowered_stable d hd.1 hd.2.1 h4]
      rfl

theorem protoMembers_ascii : ∀ p ∈ protoMembers, ∀ c ∈ p.data, c.toNat < 128 := by
  decide

/-- The key of a commodity in the multiplier tables is its name lower-cased
twice; it names a member of `Object.prototype` only when the name lower-cased
once does. -/
theorem protoMembers_toLowerCase_twice (s : String)
    (h : protoMembers.contains (toLowerCase s) = false) :
    protoMembers.contains (toLowerCase (toLowerCase s)) = false := by
  by_contra hc
  have hc2 : protoMembers.contains (toLowerCase (toLowerCase s)) = true := by
    simpa using hc
  have hmem : toLowerCase (toLowerCase s) ∈ protoMembers := by
    simpa using hc2
  have hascii := protoMembers_ascii _ hmem
  have hfix : lowerChars [] (toLowerCase s).data = (toLowerCase s).data :=
    lowerChars_fixed _ [] (lowerChars_lowered s.data []) hascii
  have heq : toLowerCase (toLowerCase s) = toLowerCase s := by
    show String.mk (lowerChars [] (toLowerCase s).data) = toLowerCase s
    rw [hfix]
  rw [heq] at hc2
  rw [hc2] at h
  cases h

/-! ## Lemmas on the refresh job -/

theorem AGMARKNET_API_KEY_ne_empty (setting : Option String) :
    AGMARKNET_API_KEY setting ≠ "" := by
  unfold AGMARKNET_API_KEY
  cases setting with
  | none => decide
  | some s =>
    by_cases h : s = ""
    · simp only [h, ne_eq, not_true_eq_false, if_false]
      decide
    · simp only [ne_eq, h, not_false_eq_true, if_true]

theorem refreshAllPrices_eq (setting : Option String) (envFor : String → String → Env)
    (st : Store) :
    refreshAllPrices setting envFor st = refreshPairs.foldl (refreshPair envFor)
      { updated := 0, store := st, calls := [], saves := [] } := by
  unfold refreshAllPrices
  rw [if_neg (AGMARKNET_API_KEY_ne_empty setting)]

theorem foldl_refreshPair (envFor : String → String → Env)
    (l : List ((String × String) × (String × String))) (acc : RefreshOutcome) :
    (l.foldl (refreshPair envFor) acc).updated = acc.updated + l.countP (fun pair =>
        returnsRecord (fetchFromAgmarknet (envFor pair.1.1 pair.2.1) (JsVal.str pair.1.2)
          (JsVal.str pair.2.2) JsVal.null)) ∧
    (l.foldl (refreshPair envFor) acc).calls = acc.calls ++ l.map (fun pair =>
        (pair.1.2, pair.2.2)) ∧
    (l.foldl (refreshPair envFor) acc).saves = acc.saves ++ (l.filter (fun pair =>
        returnsRecord (fetchFromAgmarknet (envFor pair.1.1 pair.2.1) (JsVal.str pair.1.2)
          (JsVal.str pair.2.2) JsVal.null))).map (fun pair => (pair.1.1, pair.2.1)) := by
  induction l generalizing acc with
  | nil => simp
  | cons pair rest ih =>
    rw [List.foldl_cons]
    obtain ⟨h1, h2, h3⟩ := ih (refreshPair envFor acc pair)
    rw [h1, h2, h3]
    cases hf : fetchFromAgmarknet (envFor pair.1.1 pair.2.1) (JsVal.str pair.1.2)
        (JsVal.str pair.2.2) JsVal.null with
    | throws e => simp [refreshPair, hf, returnsRecord]
    | normal v =>
      cases v with
      | none => simp [refreshPair, hf, returnsRecord]
      | some priceData =>
        simp [refreshPair, hf, returnsRecord]
        omega

theorem refreshPairs_length : refreshPairs.length = 195 := by
  rfl

/-- What `refreshAllPrices` returns and calls, whatever the setting of the
credential: the adapter is called for each of the 195 pairs, in order, and the
count is the number of pairs for which the adapter returns a record, each of
which is handed to `saveToCacheDB`. -/
theorem refreshAllPrices_updated (setting : Option String) (envFor : String → String → Env)
    (st : Store) :
    (refreshAllPrices setting envFor st).calls
      = refreshPairs.map (fun pair => (pair.1.2, pair.2.2)) ∧
    (refreshAllPrices setting envFor st).calls.length = 195 ∧
    (refreshAllPrices setting envFor st).updated = refreshPairs.countP (fun pair =>
        returnsRecord (fetchFromAgmarknet (envFor pair.1.1 pair.2.1) (JsVal.str pair.1.2)
          (JsVal.str pair.2.2) JsVal.null)) ∧
    (refreshAllPrices setting envFor st).updated
      = (refreshAllPrices setting envFor st).saves.length ∧
    (refreshAllPrices setting envFor st).updated ≤ 195 := by
  rw [refreshAllPrices_eq]
  obtain ⟨h1, h2, h3⟩ := foldl_refreshPair envFor refreshPairs
    { updated := 0, store := st, calls := [], saves := [] }
  rw [h1, h2, h3]
  refine ⟨by simp, by simp [refreshPairs_length], by simp, ?_, ?_⟩
  · simp [List.countP_eq_length_filter]
  · simp only [Nat.zero_add]
    exact refreshPairs_length ▸ List.countP_le_length _

/-! ## Lemmas on the online tiers -/

theorem cropToCommodity_keys : ∀ p ∈ cropToCommodity,
    p.2 ≠ "" ∧ protoMembers.contains (toLowerCase p.2) = false := by
  decide!

/-- The value `commodity` of a commodity whose name, in lower case, names no
member of `Object.prototype`: a string that, in lower case, names none either,
and that is not empty unless the name is. -/
theorem commodityFor_str (cropName : String)
    (hp : protoMembers.contains (toLowerCase cropName) = false) :
    ∃ x, commodityFor cropName = JsVal.str x ∧
      protoMembers.contains (toLowerCase x) = false := by
  unfold commodityFor jsGet
  cases hl : cropToCommodity.lookup (toLowerCase cropName) with
  | some a =>
    simp only
    have ha := cropToCommodity_keys _ (lookup_eq_some_mem _ _ _ hl)
    exact ⟨a, by simp [JsVal.or, JsVal.truthy, ha.1], ha.2⟩
  | none =>
    refine ⟨cropName, ?_, hp⟩
    simp only
    unfold inheritedMember
    simp only [hp, Bool.false_eq_true, if_false]
    rfl

theorem or_str_str (a b : String) :
    (JsVal.str a).or (JsVal.str b) = JsVal.str (if a = "" then b else a) := by
  by_cases ha : a = ""
  · simp [JsVal.or, JsVal.truthy, ha]
  · simp [JsVal.or, JsVal.truthy, ha]

theorem protoMembers_empty : protoMembers.contains (toLowerCase "") = false := by
  decide

/-- The Alternative adapter returns a record for every commodity that is a
string, when its read of the cache is not rejected and neither the commodity
nor the name names, in lower case, a member of `Object.prototype`. -/
theorem fetchFromAlternativeProvider_isSome (env : Env) (st : Store) (cropName x : String)
    (location : JsVal) (hread : env.altReadFails = false)
    (hc : protoMembers.contains (toLowerCase cropName) = false)
    (hx : protoMembers.contains (toLowerCase x) = false) :
    ∃ p, fetchFromAlternativeProvider env st cropName (JsVal.str x) location
      = Completion.normal (some p) := by
  have hk : ∀ a b : String, protoMembers.contains (toLowerCase a) = false →
      protoMembers.contains (toLowerCase b) = false →
      protoMembers.contains (toLowerCase (if a = "" then b else a)) = false := by
    intro a b h1 h2
    split_ifs
    · exact h2
    · exact h1
  have hkey : protoMembers.contains (toLowerCase
      (if (if x = "" then cropName else x) = "" then "" else (if x = "" then cropName else x)))
        = false :=
    hk _ _ (hk _ _ hx hc) protoMembers_empty
  unfold fetchFromAlternativeProvider fetchFromAlternativeProviderTry
  rw [or_str_str, or_str_str]
  simp only [lowerOrThrow, hread, Bool.false_eq_true, if_false]
  split
  · obtain ⟨v, hv⟩ := getLocationMultiplier_completes ((JsVal.str x).or (JsVal.str cropName))
      location (Or.inl (by
        rw [or_str_str, or_str_str]
        exact hk _ _ (hk _ _ hx hc) protoMembers_empty))
    rw [hv]
    exact ⟨_, rfl⟩
  · unfold alternativeFromMock
    rw [or_str_str, or_str_str]
    simp only [lowerOrThrow]
    obtain ⟨v, hv⟩ := getLocationMultiplier_completes (JsVal.str (toLowerCase
        (if (if x = "" then cropName else x) = "" then ""
          else (if x = "" then cropName else x)))) location (Or.inl (by
        rw [or_str_str]
        simp only [jsString]
        apply hk _ _ (protoMembers_toLowerCase_twice _ hkey) protoMembers_empty))
    rw [hv]
    exact ⟨_, rfl⟩

theorem fetchFromOpenAIProvider_source (env : Env) (cropName : String)
    (commodity location : JsVal) (p : PriceData)
    (h : fetchFromOpenAIProvider env cropName commodity location = Completion.normal (some p)) :
    p.source = JsVal.str "OpenAI (Estimated)" := by
  unfold fetchFromOpenAIProvider at h
  rw [tryCatch_some_iff] at h
  unfold fetchFromOpenAIProviderTry at h
  split_ifs at h
  · cases h
  · split at h
    · cases h
    · cases h
    · split at h
      · split_ifs at h
        · cases h
        · cases h; rfl
      · cases h

/-! ## Lemmas on the orchestrator -/

/-- For a commodity name that, in lower case, names no inherited member, and a
store whose read in the Alternative adapter is not rejected, `getMarketPrice`
with the network answers from the Live, the AI or the Alternative tier. -/
theorem getMarketPrice_online_source (env : Env) (st : Store) (cropName : String)
    (location : Option String)
    (hp : protoMembers.contains (toLowerCase cropName) = false)
    (hread : env.altReadFails = false) :
    (getMarketPrice env st cropName location true).result.source = JsVal.str "Agmarknet (Live)" ∨
    (getMarketPrice env st cropName location true).result.source
      = JsVal.str "OpenAI (Estimated)" ∨
    (getMarketPrice env st cropName location true).result.source
      = JsVal.str "Alternate (Simulated)" := by
  obtain ⟨x, hx, hxp⟩ := commodityFor_str cropName hp
  obtain ⟨alt, halt⟩ := fetchFromAlternativeProvider_isSome env st cropName x
    (requestedLocation location) hread hp hxp
  obtain ⟨live, hlive⟩ := liveTier_completes env cropName location
  obtain ⟨ai, hai⟩ : ∃ r, fetchFromOpenAIProvider env cropName (commodityFor cropName)
      (requestedLocation location) = Completion.normal r := by
    unfold fetchFromOpenAIProvider
    exact tryCatch_completes _
  unfold getMarketPrice getMarketPriceTry
  simp only [if_true, hlive, hai]
  cases live with
  | some n => left; rfl
  | none =>
    cases ai with
    | some p =>
      right; left
      exact fetchFromOpenAIProvider_source _ _ _ _ _ hai
    | none =>
      right; right
      simp only [hx, halt]
      rw [fetchFromAlternativeProvider_source _ _ _ _ _ _ halt]
      rfl

/-- The later tiers call neither the Live nor the AI adapter. -/
theorem offlineTiers_calls (env : Env) (st : Store) (cropName cropLower : String)
    (nl : JsVal) (calls : List Effect) (eff : Effect)
    (h : eff ∈ (offlineTiers env st cropName cropLower nl calls).calls) :
    eff ∈ calls ∨ eff = Effect.cacheRead ∨ eff = Effect.cropProfile ∨
      eff = Effect.cacheSave cropName nl := by
  unfold offlineTiers at h
  repeat' split at h
  all_goals simp only [List.mem_append, List.mem_cons, List.mem_singleton,
    List.not_mem_nil, or_false] at h
  all_goals tauto

/-- With `hasInternet = false`, `getMarketPrice` calls neither
`fetchFromAgmarknet` nor `fetchFromOpenAIProvider` nor
`fetchFromAlternativeProvider`, whatever the commodity and the location. -/
theorem getMarketPrice_offline_calls (env : Env) (st : Store) (cropName : String)
    (location : Option String) :
    Effect.agmarknet ∉ (getMarketPrice env st cropName location false).calls ∧
    Effect.openai ∉ (getMarketPrice env st cropName location false).calls ∧
    Effect.alternative ∉ (getMarketPrice env st cropName location false).calls := by
  have hcalls : (getMarketPrice env st cropName location false).calls
      = (offlineTiers env st cropName (toLowerCase cropName) (requestedLocation location)
          []).calls := by
    unfold getMarketPrice getMarketPriceTry
    simp
  rw [hcalls]
  refine ⟨?_, ?_, ?_⟩ <;> intro h <;>
    rcases offlineTiers_calls _ _ _ _ _ _ _ h with h1 | h1 | h1 | h1 <;>
    first
      | exact absurd h1 (List.not_mem_nil _)
      | cases h1

/-- With `hasInternet = false`, for a commodity name that, in lower case, names
no member of `Object.prototype`, no step of `getMarketPrice` throws and the
source is that of the cache, of the stored crop price or of the static ranges. -/
theorem getMarketPrice_offline_source (env : Env) (st : Store) (cropName : String)
    (location : Option String)
    (hp : protoMembers.contains (toLowerCase cropName) = false) :
    (getMarketPrice env st cropName location false).result.source
        = JsVal.str "Cached (Offline)" ∨
    (getMarketPrice env st cropName location false).result.source
        = JsVal.str "Stored Crop Price" ∨
    (getMarketPrice env st cropName location false).result.source = JsVal.str "Mock Data" := by
  have hkey : protoMembers.contains (toLowerCase (jsString
      ((JsVal.str (toLowerCase cropName)).or (JsVal.str "")))) = false := by
    rw [or_str_str]
    simp only [jsString]
    split_ifs
    · exact protoMembers_empty
    · exact protoMembers_toLowerCase_twice _ hp
  have hmul : ∀ loc, ∃ v, getLocationMultiplier (JsVal.str (toLowerCase cropName)) loc
      = Completion.normal v :=
    fun loc => getLocationMultiplier_completes _ loc (Or.inl hkey)
  have hadj : ∀ req base p, ∃ q, adjustPriceByLocation (JsVal.str (toLowerCase cropName))
      req base p = Completion.normal q := by
    intro req base p
    unfold adjustPriceByLocation
    simp only
    split_ifs
    · exact ⟨_, rfl⟩
    · obtain ⟨v1, hv1⟩ := hmul (normalizeLocation req)
      obtain ⟨v2, hv2⟩ := hmul (normalizeLocation base)
      rw [hv1, hv2]
      simp only
      split
      · split_ifs <;> exact ⟨_, rfl⟩
      · exact ⟨_, rfl⟩
  obtain ⟨cache, hcache⟩ : ∃ r, fetchFromCacheDB env st cropName (requestedLocation location)
      = Completion.normal r := by
    unfold fetchFromCacheDB
    exact tryCatch_completes _
  obtain ⟨prof, hprof⟩ : ∃ r, fetchFromCropProfilePrice env st cropName
      = Completion.normal r := by
    unfold fetchFromCropProfilePrice
    exact tryCatch_completes _
  obtain ⟨v, hv⟩ := hmul (requestedLocation location)
  unfold getMarketPrice getMarketPriceTry offlineTiers
  simp only [Bool.false_eq_true, if_false, hcache, hprof, hv]
  cases cache with
  | some cachedPrice =>
    obtain ⟨q, hq⟩ := hadj (requestedLocation location) cachedPrice.location cachedPrice
    simp only [hq]
    left
    rw [adjustPriceByLocation_source _ _ _ _ _ hq]
    exact fetchFromCacheDB_source _ _ _ _ _ hcache
  | none =>
    cases prof with
    | some p => right; left; rfl
    | none => right; right; rfl

/-! ## Lemmas on the rounding to binary64 -/

theorem roundHalfEven_bounds (n d : Nat) :
    n / d ≤ roundHalfEven n d ∧ roundHalfEven n d ≤ n / d + 1 := by
  unfold roundHalfEven
  simp only
  split_ifs <;> omega

/-- The rounding of a fraction to the nearest integer is monotone. -/
theorem roundHalfEven_mono (n1 d1 n2 d2 : Nat) (h1 : 0 < d1) (h2 : 0 < d2)
    (h : n1 * d2 ≤ n2 * d1) : roundHalfEven n1 d1 ≤ roundHalfEven n2 d2 := by
  have hf : n1 / d1 ≤ n2 / d2 := by
    rw [Nat.le_div_iff_mul_le h2]
    have h3 : n1 / d1 * d1 ≤ n1 := Nat.div_mul_le_self n1 d1
    have h4 : n1 / d1 * d2 * d1 ≤ n2 * d1 := by
      calc n1 / d1 * d2 * d1 = n1 / d1 * d1 * d2 := by ring
        _ ≤ n1 * d2 := Nat.mul_le_mul_right _ h3
        _ ≤ n2 * d1 := h
    exact Nat.le_of_mul_le_mul_right h4 h1
  have hb1 := roundHalfEven_bounds n1 d1
  have hb2 := roundHalfEven_bounds n2 d2
  rcases Nat.lt_or_ge (n1 / d1) (n2 / d2) with hlt | hge
  · omega
  · have heq : n1 / d1 = n2 / d2 := le_antisymm hf hge
    have e1 : d1 * (n1 / d1) + n1 % d1 = n1 := Nat.div_add_mod n1 d1
    have e2 : d2 * (n2 / d2) + n2 % d2 = n2 := Nat.div_add_mod n2 d2
    have hr : n1 % d1 * d2 ≤ n2 % d2 * d1 := by
      have : (d1 * (n1 / d1) + n1 % d1) * d2 ≤ (d2 * (n2 / d2) + n2 % d2) * d1 := by
        rw [e1, e2]; exact h
      rw [heq] at this
      nlinarith
    unfold roundHalfEven
    simp only
    rw [heq]
    split_ifs with a1 a2 a3 a4 a5 a6 a7 a8 <;> first
      | omega
      | (exfalso; nlinarith)

theorem halvings_spec : ∀ (fuel n : Nat), 0 < n → n ≤ fuel →
    2 ^ halvings fuel n ≤ n ∧ n < 2 ^ (halvings fuel n + 1)
  | 0, n, h0, h => by omega
  | fuel + 1, n, h0, h => by
    unfold halvings
    split_ifs with h2
    · simp only [pow_zero, zero_add, pow_one]
      omega
    · have ih := halvings_spec fuel (n / 2) (by omega) (by omega)
      constructor
      · rw [pow_succ]; omega
      · rw [pow_succ]; omega

theorem natLog2_spec (n : Nat) (h : 0 < n) :
    2 ^ natLog2 n ≤ n ∧ n < 2 ^ (natLog2 n + 1) :=
  halvings_spec n n h le_rfl

/-- A power of two with an integer exponent, as a quotient of two powers with
natural exponents, of which one is 1. -/
theorem zpow_two_split (e : ℤ) :
    (2 : ℚ) ^ e = (2 : ℚ) ^ e.toNat / (2 : ℚ) ^ (-e).toNat := by
  rcases le_or_lt 0 e with h | h
  · have h1 : (-e).toNat = 0 := Int.toNat_eq_zero.mpr (by omega)
    have h2 : e = (e.toNat : ℤ) := (Int.toNat_of_nonneg h).symm
    rw [h1, pow_zero, div_one]
    conv_lhs => rw [h2]
    exact zpow_natCast 2 e.toNat
  · have h1 : e.toNat = 0 := Int.toNat_eq_zero.mpr (by omega)
    have h2 : e = -((-e).toNat : ℤ) := by
      rw [Int.toNat_of_nonneg (by omega)]; ring
    rw [h1, pow_zero, one_div]
    conv_lhs => rw [h2]
    rw [zpow_neg, zpow_natCast]

/-- The exponent `floorLog2 n d` is the one of the binade of `n / d`. -/
theorem floorLog2_spec (n d : Nat) (hn : 0 < n) (hd : 0 < d) :
    (2 : ℚ) ^ floorLog2 n d * d ≤ n ∧ (n : ℚ) < (2 : ℚ) ^ (floorLog2 n d + 1) * d := by
  obtain ⟨ha1, ha2⟩ := natLog2_spec n hn
  obtain ⟨hb1, hb2⟩ := natLog2_spec d hd
  have ha1q : (2 : ℚ) ^ (natLog2 n : ℤ) ≤ n := by
    rw [zpow_natCast]; exact_mod_cast ha1
  have ha2q : (n : ℚ) < (2 : ℚ) ^ ((natLog2 n : ℤ) + 1) := by
    rw [show ((natLog2 n : ℤ) + 1) = ((natLog2 n + 1 : ℕ) : ℤ) by push_cast; ring, zpow_natCast]
    exact_mod_cast ha2
  have hb1q : (2 : ℚ) ^ (natLog2 d : ℤ) ≤ d := by
    rw [zpow_natCast]; exact_mod_cast hb1
  have hb2q : (d : ℚ) < (2 : ℚ) ^ ((natLog2 d : ℤ) + 1) := by
    rw [show ((natLog2 d : ℤ) + 1) = ((natLog2 d + 1 : ℕ) : ℤ) by push_cast; ring, zpow_natCast]
    exact_mod_cast hb2
  have hdq : (0 : ℚ) < d := by exact_mod_cast hd
  have h2pos : ∀ e : ℤ, (0 : ℚ) < (2 : ℚ) ^ e := fun e => zpow_pos (by norm_num) e
  have hadd : ∀ x y : ℤ, (2 : ℚ) ^ (x + y) = (2 : ℚ) ^ x * (2 : ℚ) ^ y :=
    fun x y => zpow_add₀ (by norm_num) x y
  -- the test of `floorLog2`, read in the rationals
  have htest : ((if 0 ≤ (natLog2 n : ℤ) - (natLog2 d : ℤ)
        then decide (n < d * 2 ^ ((natLog2 n : ℤ) - (natLog2 d : ℤ)).toNat)
        else decide (n * 2 ^ (-((natLog2 n : ℤ) - (natLog2 d : ℤ))).toNat < d)) = true) ↔
      (n : ℚ) < (2 : ℚ) ^ ((natLog2 n : ℤ) - (natLog2 d : ℤ)) * d := by
    rw [zpow_two_split]
    split_ifs with h0
    · have h1 : (-((natLog2 n : ℤ) - (natLog2 d : ℤ))).toNat = 0 :=
        Int.toNat_eq_zero.mpr (by omega)
      rw [h1, pow_zero, div_one, decide_eq_true_eq]
      constructor
      · intro h
        have : ((n : ℕ) : ℚ) < ((d * 2 ^ ((natLog2 n : ℤ) - (natLog2 d : ℤ)).toNat : ℕ) : ℚ) := by
          exact_mod_cast h
        push_cast at this
        linarith
      · intro h
        have : ((n : ℕ) : ℚ) < ((d * 2 ^ ((natLog2 n : ℤ) - (natLog2 d : ℤ)).toNat : ℕ) : ℚ) := by
          push_cast
          linarith
        exact_mod_cast this
    · have h1 : ((natLog2 n : ℤ) - (natLog2 d : ℤ)).toNat = 0 :=
        Int.toNat_eq_zero.mpr (by omega)
      have hk : (0 : ℚ) < (2 : ℚ) ^ (-((natLog2 n : ℤ) - (natLog2 d : ℤ))).toNat := by positivity
      rw [h1, pow_zero, decide_eq_true_eq, one_div, inv_mul_eq_div, lt_div_iff₀ hk]
      constructor
      · intro h
        have : ((n * 2 ^ (-((natLog2 n : ℤ) - (natLog2 d : ℤ))).toNat : ℕ) : ℚ) < ((d : ℕ) : ℚ) := by
          exact_mod_cast h
        push_cast at this
        exact this
      · intro h
        have : ((n * 2 ^ (-((natLog2 n : ℤ) - (natLog2 d : ℤ))).toNat : ℕ) : ℚ) < ((d : ℕ) : ℚ) := by
          push_cast
          exact h
        exact_mod_cast this
  unfold floorLog2
  simp only
  by_cases ht : (if 0 ≤ (natLog2 n : ℤ) - (natLog2 d : ℤ)
        then decide (n < d * 2 ^ ((natLog2 n : ℤ) - (natLog2 d : ℤ)).toNat)
        else decide (n * 2 ^ (-((natLog2 n : ℤ) - (natLog2 d : ℤ))).toNat < d)) = true
  · rw [if_pos ht]
    have hq := htest.mp ht
    refine ⟨?_, ?_⟩
    · -- 2 ^ (a - b - 1) * d < 2 ^ (a - b - 1) * 2 ^ (b + 1) = 2 ^ a ≤ n
      have e : (2 : ℚ) ^ ((natLog2 n : ℤ) - (natLog2 d : ℤ) - 1) * (2 : ℚ) ^ ((natLog2 d : ℤ) + 1)
          = (2 : ℚ) ^ (natLog2 n : ℤ) := by
        rw [← hadd]; congr 1; ring
      have := mul_lt_mul_of_pos_left hb2q (h2pos ((natLog2 n : ℤ) - (natLog2 d : ℤ) - 1))
      linarith
    · rw [show (natLog2 n : ℤ) - (natLog2 d : ℤ) - 1 + 1 = (natLog2 n : ℤ) - (natLog2 d : ℤ) by
        ring]
      exact hq
  · rw [if_neg ht]
    have hq : ¬ (n : ℚ) < (2 : ℚ) ^ ((natLog2 n : ℤ) - (natLog2 d : ℤ)) * d :=
      fun h => ht (htest.mpr h)
    refine ⟨not_lt.mp hq, ?_⟩
    -- n < 2 ^ (a + 1) = 2 ^ (a - b + 1) * 2 ^ b ≤ 2 ^ (a - b + 1) * d
    have e : (2 : ℚ) ^ ((natLog2 n : ℤ) - (natLog2 d : ℤ) + 1) * (2 : ℚ) ^ (natLog2 d : ℤ)
        = (2 : ℚ) ^ ((natLog2 n : ℤ) + 1) := by
      rw [← hadd]; congr 1; ring
    have := mul_le_mul_of_nonneg_left hb1q
      (le_of_lt (h2pos ((natLog2 n : ℤ) - (natLog2 d : ℤ) + 1)))
    linarith

theorem roundHalfEven_one (n : Nat) : roundHalfEven n 1 = n := by
  unfold roundHalfEven
  simp [Nat.mod_one]

/-- The quotient `n / d` against `2 ^ (lastPlace n d + k)`, in natural numbers. -/
theorem lastPlace_scale (n d : Nat) (s : ℤ) (k : ℕ) :
    ((n : ℚ) < (2 : ℚ) ^ (s + k) * d ↔ n * 2 ^ (-s).toNat < 2 ^ k * (d * 2 ^ s.toNat)) ∧
    ((2 : ℚ) ^ (s + k) * d ≤ n ↔ 2 ^ k * (d * 2 ^ s.toNat) ≤ n * 2 ^ (-s).toNat) := by
  have hb : (0 : ℚ) < (2 : ℚ) ^ (-s).toNat := by positivity
  have e : (2 : ℚ) ^ (s + k) * d = (2 : ℚ) ^ k * (d * (2 : ℚ) ^ s.toNat) / (2 : ℚ) ^ (-s).toNat := by
    rw [zpow_add₀ (by norm_num : (2 : ℚ) ≠ 0), zpow_natCast, zpow_two_split s]
    field_simp
    ring
  rw [e, lt_div_iff₀ hb, div_le_iff₀ hb]
  constructor
  · constructor
    · intro h
      have : ((n * 2 ^ (-s).toNat : ℕ) : ℚ) < ((2 ^ k * (d * 2 ^ s.toNat) : ℕ) : ℚ) := by
        push_cast; exact h
      exact_mod_cast this
    · intro h
      have : ((n * 2 ^ (-s).toNat : ℕ) : ℚ) < ((2 ^ k * (d * 2 ^ s.toNat) : ℕ) : ℚ) := by
        exact_mod_cast h
      push_cast at this
      exact this
  · constructor
    · intro h
      have : ((2 ^ k * (d * 2 ^ s.toNat) : ℕ) : ℚ) ≤ ((n * 2 ^ (-s).toNat : ℕ) : ℚ) := by
        push_cast; exact h
      exact_mod_cast this
    · intro h
      have : ((2 ^ k * (d * 2 ^ s.toNat) : ℕ) : ℚ) ≤ ((n * 2 ^ (-s).toNat : ℕ) : ℚ) := by
        exact_mod_cast h
      push_cast at this
      exact this

/-- The mantissa of the rounded value has at most 53 bits, the power
`2 ^ 53` included. -/
theorem mantissa_le (n d : Nat) (hn : 0 < n) (hd : 0 < d) :
    roundHalfEven (n * 2 ^ (-lastPlace n d).toNat) (d * 2 ^ (lastPlace n d).toNat) ≤ 2 ^ 53 := by
  obtain ⟨_, h2⟩ := floorLog2_spec n d hn hd
  have hdq : (0 : ℚ) < d := by exact_mod_cast hd
  have hle : (2 : ℚ) ^ (floorLog2 n d + 1) ≤ (2 : ℚ) ^ (lastPlace n d + (53 : ℕ)) := by
    apply zpow_le_zpow_right₀ (by norm_num)
    unfold lastPlace
    have := le_max_left (floorLog2 n d) (-1022)
    push_cast
    omega
  have h3 : (n : ℚ) < (2 : ℚ) ^ (lastPlace n d + (53 : ℕ)) * d :=
    lt_of_lt_of_le h2 (mul_le_mul_of_nonneg_right hle (le_of_lt hdq))
  have h4 := ((lastPlace_scale n d (lastPlace n d) 53).1).mp h3
  have := roundHalfEven_mono (n * 2 ^ (-lastPlace n d).toNat) (d * 2 ^ (lastPlace n d).toNat)
    (2 ^ 53) 1 (by positivity) (by norm_num) (by omega)
  rw [roundHalfEven_one] at this
  exact this

/-- The mantissa of the rounded value has 53 bits when the fraction is not
below `2 ^ (-1022)`. -/
theorem mantissa_ge (n d : Nat) (hn : 0 < n) (hd : 0 < d) (h : -1022 ≤ floorLog2 n d) :
    2 ^ 52 ≤ roundHalfEven (n * 2 ^ (-lastPlace n d).toNat) (d * 2 ^ (lastPlace n d).toNat) := by
  obtain ⟨h1, _⟩ := floorLog2_spec n d hn hd
  have he : floorLog2 n d = lastPlace n d + (52 : ℕ) := by
    unfold lastPlace
    rw [max_eq_left h]
    push_cast
    ring
  rw [he] at h1
  have h4 := ((lastPlace_scale n d (lastPlace n d) 52).2).mp h1
  have := roundHalfEven_mono (2 ^ 52) 1 (n * 2 ^ (-lastPlace n d).toNat)
    (d * 2 ^ (lastPlace n d).toNat) (by norm_num) (by positivity) (by omega)
  rw [roundHalfEven_one] at this
  exact this

/-- The value of `roundMagnitude`: the mantissa times the power of two of the
last place, unless it reaches `2 ^ 1024`. -/
theorem roundMagnitude_eq (n d : Nat) (hn : 0 < n) (hd : 0 < d) :
    roundMagnitude n d =
      if roundHalfEven (n * 2 ^ (-lastPlace n d).toNat) (d * 2 ^ (lastPlace n d).toNat)
          * 2 ^ (lastPlace n d).toNat < 2 ^ 1024
      then some ((roundHalfEven (n * 2 ^ (-lastPlace n d).toNat)
          (d * 2 ^ (lastPlace n d).toNat) : ℚ) * (2 : ℚ) ^ lastPlace n d)
      else none := by
  have hm := mantissa_le n d hn hd
  unfold roundMagnitude
  simp only
  by_cases h : 0 ≤ lastPlace n d
  · have h1 : (-lastPlace n d).toNat = 0 := Int.toNat_eq_zero.mpr (by omega)
    rw [if_pos h, zpow_two_split, h1]
    simp only [pow_zero, mul_one, div_one]
    split_ifs
    · congr 1
      push_cast
      ring
    · rfl
  · have h1 : (lastPlace n d).toNat = 0 := Int.toNat_eq_zero.mpr (by omega)
    rw [h1] at hm ⊢
    rw [if_neg h, zpow_two_split, h1]
    simp only [pow_zero, mul_one]
    simp only [pow_zero, mul_one] at hm
    have hlt : roundHalfEven (n * 2 ^ (-lastPlace n d).toNat) d < 2 ^ 1024 :=
      lt_of_le_of_lt hm (by norm_num)
    rw [if_pos hlt]
    congr 1
    push_cast
    ring

theorem floorLog2_mono (n1 d1 n2 d2 : Nat) (hn1 : 0 < n1) (hd1 : 0 < d1) (hn2 : 0 < n2)
    (hd2 : 0 < d2) (h : n1 * d2 ≤ n2 * d1) : floorLog2 n1 d1 ≤ floorLog2 n2 d2 := by
  obtain ⟨h1, _⟩ := floorLog2_spec n1 d1 hn1 hd1
  obtain ⟨_, h2⟩ := floorLog2_spec n2 d2 hn2 hd2
  by_contra hlt
  have hle : (2 : ℚ) ^ (floorLog2 n2 d2 + 1) ≤ (2 : ℚ) ^ floorLog2 n1 d1 :=
    zpow_le_zpow_right₀ (by norm_num) (by omega)
  have hq : (n1 : ℚ) * d2 ≤ n2 * d1 := by exact_mod_cast h
  have hd1q : (0 : ℚ) < d1 := by exact_mod_cast hd1
  have hd2q : (0 : ℚ) < d2 := by exact_mod_cast hd2
  have hp : (0 : ℚ) < (2 : ℚ) ^ (floorLog2 n2 d2 + 1) := zpow_pos (by norm_num) _
  have h3 : (n2 : ℚ) * d1 < (2 : ℚ) ^ (floorLog2 n2 d2 + 1) * d2 * d1 :=
    mul_lt_mul_of_pos_right h2 hd1q
  have h4 : (2 : ℚ) ^ floorLog2 n1 d1 * d1 * d2 ≤ n1 * d2 :=
    mul_le_mul_of_nonneg_right h1 (le_of_lt hd2q)
  have h5 : (2 : ℚ) ^ (floorLog2 n2 d2 + 1) * d2 * d1 ≤ (2 : ℚ) ^ floorLog2 n1 d1 * d1 * d2 := by
    have := mul_le_mul_of_nonneg_right hle (le_of_lt (mul_pos hd1q hd2q))
    linarith
  linarith

theorem lastPlace_mono (n1 d1 n2 d2 : Nat) (hn1 : 0 < n1) (hd1 : 0 < d1) (hn2 : 0 < n2)
    (hd2 : 0 < d2) (h : n1 * d2 ≤ n2 * d1) : lastPlace n1 d1 ≤ lastPlace n2 d2 := by
  have := floorLog2_mono n1 d1 n2 d2 hn1 hd1 hn2 hd2 h
  unfold lastPlace
  have := max_le_max this (le_refl (-1022 : ℤ))
  omega

/-- The rounding of a positive fraction to binary64 is monotone, and so is its
overflow. -/
theorem roundMagnitude_mono (n1 d1 n2 d2 : Nat) (hn1 : 0 < n1) (hd1 : 0 < d1) (hn2 : 0 < n2)
    (hd2 : 0 < d2) (h : n1 * d2 ≤ n2 * d1) (y : ℚ) (hy : roundMagnitude n2 d2 = some y) :
    ∃ x, roundMagnitude n1 d1 = some x ∧ 0 ≤ x ∧ x ≤ y := by
  have hs := lastPlace_mono n1 d1 n2 d2 hn1 hd1 hn2 hd2 h
  have hm1 := mantissa_le n1 d1 hn1 hd1
  rw [roundMagnitude_eq n2 d2 hn2 hd2] at hy
  rw [roundMagnitude_eq n1 d1 hn1 hd1]
  split_ifs at hy with hc2
  have hy2 := Option.some.inj hy
  have hp : ∀ e : ℤ, (0 : ℚ) < (2 : ℚ) ^ e := fun e => zpow_pos (by norm_num) e
  -- the values are ordered
  have hval : (roundHalfEven (n1 * 2 ^ (-lastPlace n1 d1).toNat)
        (d1 * 2 ^ (lastPlace n1 d1).toNat) : ℚ) * (2 : ℚ) ^ lastPlace n1 d1
      ≤ (roundHalfEven (n2 * 2 ^ (-lastPlace n2 d2).toNat)
        (d2 * 2 ^ (lastPlace n2 d2).toNat) : ℚ) * (2 : ℚ) ^ lastPlace n2 d2 := by
    rcases eq_or_lt_of_le hs with heq | hlt
    · have hm : roundHalfEven (n1 * 2 ^ (-lastPlace n2 d2).toNat)
          (d1 * 2 ^ (lastPlace n2 d2).toNat)
          ≤ roundHalfEven (n2 * 2 ^ (-lastPlace n2 d2).toNat)
            (d2 * 2 ^ (lastPlace n2 d2).toNat) := by
        apply roundHalfEven_mono _ _ _ _ (by positivity) (by positivity)
        calc n1 * 2 ^ (-lastPlace n2 d2).toNat * (d2 * 2 ^ (lastPlace n2 d2).toNat)
            = n1 * d2 * (2 ^ (-lastPlace n2 d2).toNat * 2 ^ (lastPlace n2 d2).toNat) := by ring
          _ ≤ n2 * d1 * (2 ^ (-lastPlace n2 d2).toNat * 2 ^ (lastPlace n2 d2).toNat) :=
            Nat.mul_le_mul_right _ h
          _ = n2 * 2 ^ (-lastPlace n2 d2).toNat * (d1 * 2 ^ (lastPlace n2 d2).toNat) := by ring
      rw [heq]
      exact mul_le_mul_of_nonneg_right (by exact_mod_cast hm) (le_of_lt (hp _))
    · have hfl : -1022 ≤ floorLog2 n2 d2 := by
        unfold lastPlace at hlt
        have h1 := le_max_right (floorLog2 n1 d1) (-1022)
        rcases le_total (floorLog2 n2 d2) (-1022) with h2 | h2
        · rw [max_eq_right h2] at hlt
          omega
        · exact h2
      have hm2 := mantissa_ge n2 d2 hn2 hd2 hfl
      have hm1q : (roundHalfEven (n1 * 2 ^ (-lastPlace n1 d1).toNat)
          (d1 * 2 ^ (lastPlace n1 d1).toNat) : ℚ) ≤ (2 : ℚ) ^ (53 : ℕ) := by
        exact_mod_cast hm1
      have hm2q : (2 : ℚ) ^ (52 : ℕ) ≤ (roundHalfEven (n2 * 2 ^ (-lastPlace n2 d2).toNat)
          (d2 * 2 ^ (lastPlace n2 d2).toNat) : ℚ) := by
        exact_mod_cast hm2
      have hadd : ∀ (k : ℕ) (e : ℤ), (2 : ℚ) ^ k * (2 : ℚ) ^ e = (2 : ℚ) ^ ((k : ℤ) + e) := by
        intro k e
        rw [zpow_add₀ (by norm_num : (2 : ℚ) ≠ 0), zpow_natCast]
      calc (roundHalfEven (n1 * 2 ^ (-lastPlace n1 d1).toNat)
            (d1 * 2 ^ (lastPlace n1 d1).toNat) : ℚ) * (2 : ℚ) ^ lastPlace n1 d1
          ≤ (2 : ℚ) ^ (53 : ℕ) * (2 : ℚ) ^ lastPlace n1 d1 :=
            mul_le_mul_of_nonneg_right hm1q (le_of_lt (hp _))
        _ = (2 : ℚ) ^ (((53 : ℕ) : ℤ) + lastPlace n1 d1) := hadd _ _
        _ ≤ (2 : ℚ) ^ (((52 : ℕ) : ℤ) + lastPlace n2 d2) :=
            zpow_le_zpow_right₀ (by norm_num) (by push_cast; omega)
        _ = (2 : ℚ) ^ (52 : ℕ) * (2 : ℚ) ^ lastPlace n2 d2 := (hadd _ _).symm
        _ ≤ _ := mul_le_mul_of_nonneg_right hm2q (le_of_lt (hp _))
  -- the smaller value does not overflow
  have hc1 : roundHalfEven (n1 * 2 ^ (-lastPlace n1 d1).toNat)
      (d1 * 2 ^ (lastPlace n1 d1).toNat) * 2 ^ (lastPlace n1 d1).toNat < 2 ^ 1024 := by
    by_cases h0 : 0 ≤ lastPlace n1 d1
    · have e1 : (-lastPlace n1 d1).toNat = 0 := Int.toNat_eq_zero.mpr (by omega)
      have e2 : (-lastPlace n2 d2).toNat = 0 := Int.toNat_eq_zero.mpr (by omega)
      have hz1 : (2 : ℚ) ^ lastPlace n1 d1 = (2 : ℚ) ^ (lastPlace n1 d1).toNat := by
        rw [zpow_two_split, e1, pow_zero, div_one]
      have hz2 : (2 : ℚ) ^ lastPlace n2 d2 = (2 : ℚ) ^ (lastPlace n2 d2).toNat := by
        rw [zpow_two_split, e2, pow_zero, div_one]
      have hv := hval
      rw [hz1, hz2] at hv
      have hv2 : roundHalfEven (n1 * 2 ^ (-lastPlace n1 d1).toNat)
            (d1 * 2 ^ (lastPlace n1 d1).toNat) * 2 ^ (lastPlace n1 d1).toNat
          ≤ roundHalfEven (n2 * 2 ^ (-lastPlace n2 d2).toNat)
            (d2 * 2 ^ (lastPlace n2 d2).toNat) * 2 ^ (lastPlace n2 d2).toNat := by
        exact_mod_cast hv
      exact lt_of_le_of_lt hv2 hc2
    · have e1 : (lastPlace n1 d1).toNat = 0 := Int.toNat_eq_zero.mpr (by omega)
      rw [e1] at hm1 ⊢
      rw [pow_zero, mul_one]
      exact lt_of_le_of_lt hm1 (by norm_num)
  rw [if_pos hc1]
  refine ⟨_, rfl, ?_, ?_⟩
  · exact mul_nonneg (Nat.cast_nonneg _) (le_of_lt (hp _))
  · rw [← hy2]
    exact hval

theorem roundMagnitude_nonneg (n d : Nat) (hn : 0 < n) (hd : 0 < d) (x : ℚ)
    (h : roundMagnitude n d = some x) : 0 ≤ x := by
  obtain ⟨x2, h2, h3, _⟩ := roundMagnitude_mono n d n d hn hd hn hd le_rfl x h
  rw [h] at h2
  cases h2
  exact h3

/-- The numerators and denominators of two ordered positive rationals. -/
theorem rat_cross (x y : ℚ) (hx : 0 < x) (h : x ≤ y) :
    0 < x.num.natAbs ∧ 0 < y.num.natAbs ∧ x.num.natAbs * y.den ≤ y.num.natAbs * x.den := by
  have hy : 0 < y := lt_of_lt_of_le hx h
  have hxn : 0 < x.num := Rat.num_pos.mpr hx
  have hyn : 0 < y.num := Rat.num_pos.mpr hy
  refine ⟨Int.natAbs_pos.mpr (ne_of_gt hxn), Int.natAbs_pos.mpr (ne_of_gt hyn), ?_⟩
  have hle := (Rat.le_def).mp h
  have e1 : (x.num.natAbs : ℤ) = x.num := Int.natAbs_of_nonneg (le_of_lt hxn)
  have e2 : (y.num.natAbs : ℤ) = y.num := Int.natAbs_of_nonneg (le_of_lt hyn)
  have : ((x.num.natAbs * y.den : ℕ) : ℤ) ≤ ((y.num.natAbs * x.den : ℕ) : ℤ) := by
    push_cast
    rw [abs_of_pos hxn, abs_of_pos hyn]
    exact hle
  exact_mod_cast this

/-- The rounding to binary64 is monotone: the results of two operations whose
exact values are ordered are ordered. -/
theorem ofExact_le (x y : ℚ) (h : x ≤ y) : (JsVal.ofExact x).le (JsVal.ofExact y) = true := by
  have hpos : ∀ a b : ℚ, 0 < a → a ≤ b →
      (JsVal.ofExact a).le (JsVal.ofExact b) = true := by
    intro a b ha hab
    have hb : 0 < b := lt_of_lt_of_le ha hab
    obtain ⟨h1, h2, h3⟩ := rat_cross a b ha hab
    unfold JsVal.ofExact roundToDouble
    rw [if_neg (ne_of_gt ha), if_neg (not_lt.mpr (le_of_lt ha)), if_neg (ne_of_gt hb),
      if_neg (not_lt.mpr (le_of_lt hb))]
    cases hrb : roundMagnitude b.num.natAbs b.den with
    | none =>
      cases roundMagnitude a.num.natAbs a.den <;>
        simp [JsVal.le, JsVal.toNumber, not_lt.mpr (le_of_lt ha), not_lt.mpr (le_of_lt hb)]
    | some v =>
      obtain ⟨u, hu, _, huv⟩ := roundMagnitude_mono _ _ _ _ h1 a.den_pos h2 b.den_pos h3 v hrb
      rw [hu]
      simp [JsVal.le, JsVal.toNumber, huv]
  have hneg : ∀ a : ℚ, a < 0 →
      (∃ u, 0 ≤ u ∧ JsVal.ofExact a = JsVal.num (-u)) ∨ JsVal.ofExact a = JsVal.inf true := by
    intro a ha
    unfold JsVal.ofExact roundToDouble
    rw [if_neg (ne_of_lt ha), if_pos ha]
    have h1 : 0 < a.num.natAbs := Int.natAbs_pos.mpr (Rat.num_ne_zero.mpr (ne_of_lt ha))
    cases hr : roundMagnitude a.num.natAbs a.den with
    | none => right; simp [ha]
    | some u =>
      left
      exact ⟨u, roundMagnitude_nonneg _ _ h1 a.den_pos u hr, rfl⟩
  have hnonneg : ∀ b : ℚ, 0 ≤ b →
      (∃ v, 0 ≤ v ∧ JsVal.ofExact b = JsVal.num v) ∨ JsVal.ofExact b = JsVal.inf false := by
    intro b hb
    rcases eq_or_lt_of_le hb with h0 | h0
    · left
      refine ⟨0, le_rfl, ?_⟩
      rw [← h0]
      simp [JsVal.ofExact, roundToDouble]
    · unfold JsVal.ofExact roundToDouble
      rw [if_neg (ne_of_gt h0), if_neg (not_lt.mpr hb)]
      have h1 : 0 < b.num.natAbs := Int.natAbs_pos.mpr (Rat.num_ne_zero.mpr (ne_of_gt h0))
      cases hr : roundMagnitude b.num.natAbs b.den with
      | none => right; simp [not_lt.mpr hb]
      | some v =>
        left
        exact ⟨v, roundMagnitude_nonneg _ _ h1 b.den_pos v hr, rfl⟩
  rcases lt_trichotomy x 0 with hx | hx | hx
  · rcases lt_or_le y 0 with hy | hy
    · -- both negative: compare the magnitudes
      have hm := hpos (-y) (-x) (by linarith) (by linarith)
      have hofneg : ∀ a : ℚ, a < 0 → JsVal.ofExact a =
          (match JsVal.ofExact (-a) with
           | JsVal.num u => JsVal.num (-u)
           | _ => JsVal.inf true) := by
        intro a ha
        unfold JsVal.ofExact roundToDouble
        have hna : 0 < -a := by linarith
        rw [if_neg (ne_of_lt ha), if_pos ha, if_neg (ne_of_gt hna),
          if_neg (not_lt.mpr (le_of_lt hna))]
        have en : (-a).num.natAbs = a.num.natAbs := by
          rw [Rat.neg_num, Int.natAbs_neg]
        have ed : (-a).den = a.den := Rat.neg_den a
        rw [en, ed]
        cases roundMagnitude a.num.natAbs a.den <;> simp [ha]
      rw [hofneg x hx, hofneg y hy]
      rcases hnonneg (-x) (by linarith) with ⟨u, _, hu⟩ | hu <;>
        rcases hnonneg (-y) (by linarith) with ⟨v, _, hv⟩ | hv <;>
        rw [hu, hv] at hm ⊢ <;>
        simp [JsVal.le, JsVal.toNumber] at hm ⊢
      exact hm
    · rcases hneg x hx with ⟨u, hu0, hu⟩ | hu <;>
        rcases hnonneg y hy with ⟨v, hv0, hv⟩ | hv <;>
        rw [hu, hv] <;> simp [JsVal.le, JsVal.toNumber]
      linarith
  · subst hx
    rcases hnonneg y h with ⟨v, hv0, hv⟩ | hv
    · rw [hv]
      simp [JsVal.ofExact, roundToDouble, JsVal.le, JsVal.toNumber, hv0]
    · rw [hv]
      simp [JsVal.ofExact, roundToDouble, JsVal.le, JsVal.toNumber]
  · exact hpos x y hx h

theorem ofExact_cases (x : ℚ) :
    (∃ u, JsVal.ofExact x = JsVal.num u) ∨ (∃ b, JsVal.ofExact x = JsVal.inf b) := by
  unfold JsVal.ofExact
  cases roundToDouble x
  · exact Or.inr ⟨_, rfl⟩
  · exact Or.inl ⟨_, rfl⟩

/-- The call `Math.round` keeps the order of two results of an operation. -/
theorem round_ofExact_le (x y : ℚ) (h : x ≤ y) :
    ((JsVal.ofExact x).round).le ((JsVal.ofExact y).round) = true := by
  have hle := ofExact_le x y h
  rcases ofExact_cases x with ⟨u, hu⟩ | ⟨b, hu⟩ <;>
    rcases ofExact_cases y with ⟨v, hv⟩ | ⟨b2, hv⟩ <;>
    rw [hu, hv] at hle ⊢ <;>
    simp only [JsVal.round, JsVal.le, JsVal.toNumber] at hle ⊢
  · simp only [decide_eq_true_eq] at hle ⊢
    exact_mod_cast jsRound_mono u v hle
  · exact hle
  · exact hle
  · exact hle

/-- The rounded product by a number that is not negative keeps the order. -/
theorem mul_round_le (a b r : ℚ) (hab : a ≤ b) (hr : 0 ≤ r) :
    (((JsVal.num a).mul (JsVal.num r)).round).le (((JsVal.num b).mul (JsVal.num r)).round)
      = true := by
  have e : ∀ v : ℚ, (JsVal.num v).mul (JsVal.num r) = JsVal.ofExact (v * r) := fun v => rfl
  rw [e, e]
  exact round_ofExact_le _ _ (mul_le_mul_of_nonneg_right hab hr)

theorem multiplierTables_bounds :
    (∀ p ∈ defaultStateMultipliers, (9 / 10 : ℚ) ≤ p.2 ∧ p.2 ≤ 2) ∧
    (∀ p ∈ locationPriceVariation, ∀ q ∈ p.2, (9 / 10 : ℚ) ≤ q.2 ∧ q.2 ≤ 2) ∧
    (9 / 10 : ℚ) ≤ double 0.95 ∧ double 1.05 ≤ 2 := by
  decide!

/-- A multiplier that `getLocationMultiplier` returns as a number lies between
0.9 and 2. -/
theorem getLocationMultiplier_bounds (cropKey location : JsVal) (m : ℚ)
    (h : getLocationMultiplier cropKey location = Completion.normal (JsVal.num m)) :
    9 / 10 ≤ m ∧ m ≤ 2 := by
  obtain ⟨hdef, hvar, h95, h105⟩ := multiplierTables_bounds
  have hget : ∀ (table : List (String × ℚ)) (k : String) (x : ℚ),
      (∀ p ∈ table, (9 / 10 : ℚ) ≤ p.2 ∧ p.2 ≤ 2) → jsGet JsVal.num table k = JsVal.num x →
      9 / 10 ≤ x ∧ x ≤ 2 := by
    intro table k x hpos hx
    unfold jsGet at hx
    split at hx
    · next a ha =>
      cases hx
      exact hpos _ (lookup_eq_some_mem _ _ _ ha)
    · exact absurd hx (inheritedMember_not_num _ _)
  unfold getLocationMultiplier at h
  simp only at h
  by_cases h1 : (!(normalizeLocation location).truthy) = true
  · rw [if_pos h1] at h; cases h; norm_num
  · rw [if_neg h1] at h
    generalize hcs : cropSpecificMultiplier (toLowerCase (jsString (cropKey.or (JsVal.str ""))))
      (jsString (normalizeLocation location)) = c at h
    cases c with
    | throws e => cases h
    | normal cropSpecific =>
      simp only at h
      split_ifs at h with h2 h3
      · have h4 := Completion.normal.inj h
        subst h4
        unfold cropSpecificMultiplier at hcs
        split at hcs
        · next inner hin =>
          exact hget inner _ m
            (fun q hq => hvar _ (lookup_eq_some_mem _ _ _ hin) q hq)
            (Completion.normal.inj hcs)
        · split_ifs at hcs
          · exact absurd (Completion.normal.inj hcs) (objectPrototypeMember_not_num _ _)
          · rcases functionMember_num _ _ m hcs with h5 | h5 | h5
            · subst h5; simp [JsVal.truthy] at h2
            · subst h5; norm_num
            · subst h5; norm_num
          · cases hcs
      · exact hget _ _ m hdef (Completion.normal.inj h)
      · have hb := fallbackMultiplier_bounds _
          (Nat.mod_lt (locationHash (jsString (normalizeLocation location))) (by norm_num))
        rw [Completion.normal.inj h] at hb
        simp only [JsVal.le, JsVal.toNumber, decide_eq_true_eq] at hb
        constructor <;> linarith [hb.1, hb.2]

/-- The quotient of two multipliers is a positive number. -/
theorem multiplier_ratio (m1 m2 : ℚ) (h1 : 9 / 10 ≤ m1 ∧ m1 ≤ 2) (h2 : 9 / 10 ≤ m2 ∧ m2 ≤ 2) :
    ∃ r, 0 < r ∧ (JsVal.num m1).div (JsVal.num m2) = JsVal.num r := by
  have hm2 : m2 ≠ 0 := by linarith [h2.1]
  have e : (JsVal.num m1).div (JsVal.num m2) = JsVal.ofExact (m1 / m2) := by
    simp [JsVal.div, JsVal.toNumber, hm2]
  have hlo : (9 / 20 : ℚ) ≤ m1 / m2 := by
    rw [le_div_iff₀ (by linarith [h2.1])]
    linarith [h1.1, h2.2]
  have hhi : m1 / m2 ≤ (3 : ℚ) := by
    rw [div_le_iff₀ (by linarith [h2.1])]
    linarith [h1.2, h2.1]
  have hl := ofExact_le _ _ hlo
  have hh := ofExact_le _ _ hhi
  have c1 : JsVal.ofExact (9 / 20) = JsVal.num (double (9 / 20)) ∧ (0 : ℚ) < double (9 / 20) := by
    decide!
  have c2 : JsVal.ofExact 3 = JsVal.num 3 := by decide!
  rw [c1.1] at hl
  rw [c2] at hh
  rw [e]
  rcases ofExact_cases (m1 / m2) with ⟨u, hu⟩ | ⟨b, hu⟩
  · rw [hu] at hl ⊢
    simp only [JsVal.le, JsVal.toNumber, decide_eq_true_eq] at hl
    exact ⟨u, lt_of_lt_of_le c1.2 hl, rfl⟩
  · rw [hu] at hl hh
    simp only [JsVal.le, JsVal.toNumber] at hl hh
    cases b <;> simp at hl hh

/-- The function `adjustPriceByLocation` keeps the order of three numeric
prices, for every commodity and every pair of locations for which it completes:
in the record that it returns, `minPrice <= currentPrice` and
`currentPrice <= maxPrice` hold. -/
theorem adjustPriceByLocation_order (cropKey req base : JsVal) (p q : PriceData) (a b c : ℚ)
    (hmin : p.minPrice = JsVal.num a) (hcur : p.currentPrice = JsVal.num b)
    (hmax : p.maxPrice = JsVal.num c) (hab : a ≤ b) (hbc : b ≤ c)
    (h : adjustPriceByLocation cropKey req base p = Completion.normal q) :
    q.minPrice.le q.currentPrice = true ∧ q.currentPrice.le q.maxPrice = true := by
  have hsame : p.minPrice.le p.currentPrice = true ∧ p.currentPrice.le p.maxPrice = true := by
    rw [hmin, hcur, hmax]
    simp [JsVal.le, JsVal.toNumber, hab, hbc]
  unfold adjustPriceByLocation at h
  simp only at h
  split_ifs at h with hguard
  · cases h; exact hsame
  · split at h
    · cases h
    · next v1 hv1 =>
      split at h
      · cases h
      · next v2 hv2 =>
        split at h
        · next m1 m2 =>
          split_ifs at h with h0
          · cases h; exact hsame
          · obtain ⟨r, hr, hratio⟩ := multiplier_ratio m1 m2
              (getLocationMultiplier_bounds _ _ m1 hv1) (getLocationMultiplier_bounds _ _ m2 hv2)
            cases h
            simp only [hmin, hcur, hmax, JsVal.toNumber, hratio]
            exact ⟨mul_round_le a b r hab (le_of_lt hr), mul_round_le b c r hbc (le_of_lt hr)⟩
        · cases h; exact hsame

/-- The estimate from the generic range: for a commodity without a static
range, no cache entry and no stored crop price, when the regional multiplier is
a number `m`, the offline `getMarketPrice` returns `Mock Data` with the rounded
binary64 products of 3000, 4000 and 5000 by `m`, which are ordered, and leaves
the store as it is without a call of `saveToCacheDB`. -/
theorem getMarketPrice_generic_estimate (env : Env) (st : Store) (cropName : String)
    (location : Option String) (m : ℚ)
    (hmock : mockMarketPrices (toLowerCase cropName) = none)
    (hcache : fetchFromCacheDB env st cropName (requestedLocation location)
      = Completion.normal none)
    (hprof : fetchFromCropProfilePrice env st cropName = Completion.normal none)
    (hm : getLocationMultiplier (JsVal.str (toLowerCase cropName))
      (requestedLocation location) = Completion.normal (JsVal.num m)) :
    (getMarketPrice env st cropName location false).result.source = JsVal.str "Mock Data" ∧
    (getMarketPrice env st cropName location false).result.min
      = ((JsVal.num 3000).mul (JsVal.num m)).round ∧
    (getMarketPrice env st cropName location false).result.current
      = ((JsVal.num 4000).mul (JsVal.num m)).round ∧
    (getMarketPrice env st cropName location false).result.max
      = ((JsVal.num 5000).mul (JsVal.num m)).round ∧
    (((JsVal.num 3000).mul (JsVal.num m)).round).le (((JsVal.num 4000).mul (JsVal.num m)).round)
      = true ∧
    (((JsVal.num 4000).mul (JsVal.num m)).round).le (((JsVal.num 5000).mul (JsVal.num m)).round)
      = true ∧
    (getMarketPrice env st cropName location false).store = st ∧
    (getMarketPrice env st cropName location false).calls
      = [Effect.cacheRead, Effect.cropProfile] := by
  have hmid : (((JsVal.num 3000).add (JsVal.num 5000)).div (JsVal.num 2)).round
      = JsVal.num 4000 := by decide!
  have hpos : 0 < m := getLocationMultiplier_pos _ _ m hm
  have htry : getMarketPriceTry env st cropName location false
      = { result := Completion.normal {
            cropName := cropName
            current := ((JsVal.num 4000).mul (JsVal.num m)).round
            min := ((JsVal.num 3000).mul (JsVal.num m)).round
            max := ((JsVal.num 5000).mul (JsVal.num m)).round
            unit := JsVal.str "per quintal"
            currency := JsVal.str "INR"
            location := (requestedLocation location).or (JsVal.str "All-India Average")
            source := JsVal.str "Mock Data" }
          store := st
          calls := [Effect.cacheRead, Effect.cropProfile] } := by
    unfold getMarketPriceTry offlineTiers
    simp only [Bool.false_eq_true, if_false, hcache, hprof, hmock, hm, genericMockBase, hmid]
    rfl
  have hres := getMarketPrice_result_normal env st cropName location false _
    (congrArg Attempt.result htry)
  have hstore : (getMarketPrice env st cropName location false).store = st :=
    congrArg Attempt.store htry
  have hcalls : (getMarketPrice env st cropName location false).calls
      = [Effect.cacheRead, Effect.cropProfile] := congrArg Attempt.calls htry
  rw [hres]
  exact ⟨rfl, rfl, rfl, rfl, mul_round_le 3000 4000 m (by norm_num) (le_of_lt hpos),
    mul_round_le 4000 5000 m (by norm_num) (le_of_lt hpos), hstore, hcalls⟩

/-! ## The claims -/

/-- C1 (the code breaks it). With the network available, the Live adapter
declining and the AI adapter answering the prices 0, 0 and 0, `getMarketPrice`
returns the record of the AI tier whose `current` is 0, which is not strictly
greater than 0: `fetchFromOpenAIProvider` tests that the prices are finite and
ordered, not that they are positive. -/
theorem getMarketPrice_current_zero_from_ai :
    (getMarketPrice (aiEnv (AiReply.parsed (JsVal.num 0) (JsVal.num 0) (JsVal.num 0)
        JsVal.undefined JsVal.undefined)) emptyStore "rice" none true).result.current
      = JsVal.num 0 ∧
    (getMarketPrice (aiEnv (AiReply.parsed (JsVal.num 0) (JsVal.num 0) (JsVal.num 0)
        JsVal.undefined JsVal.undefined)) emptyStore "rice" none true).result.source
      = JsVal.str "OpenAI (Estimated)" := by
  decide!

/-- C2 (the code breaks it). With rice cached for Punjab at 2000 between 1900
and 2100, an online request for rice in Maharashtra that the Live and AI
adapters decline is answered by the Alternative adapter with the current price
2120 and the bounds 1900 and 2100 of the cached entry: `current` exceeds `max`. -/
theorem getMarketPrice_alternative_current_above_max :
    (getMarketPrice quietEnv punjabRiceStore "rice" (some "Maharashtra") true).result
      = { cropName := "rice"
          current := JsVal.num 2120
          min := JsVal.num 1900
          max := JsVal.num 2100
          unit := JsVal.str "per quintal"
          currency := JsVal.str "INR"
          location := JsVal.str "Maharashtra"
          source := JsVal.str "Alternate (Simulated)" } := by
  decide!

/-- C3 (as stated, it fails). The Live adapter answers rice in Punjab with the
modal price 2500 between 2400 and 2600 and the update of the cache is rejected:
`getMarketPrice` returns the Live record, `saveToCacheDB` swallows the failure
and no cache entry exists afterwards. The same happens with a database that
rejects nothing when the record carries the arrival date `25/12/2024` of the
upstream service, which the Live tier copies into the update and which is no
date for the cast to the schema type `Date`. -/
theorem getMarketPrice_live_without_cache_entry :
    (getMarketPrice (liveEnvFailingWrite [punjabRiceRecord]) emptyStore "rice"
      (some "Punjab") true).result.source = JsVal.str "Agmarknet (Live)" ∧
    (getMarketPrice (liveEnvFailingWrite [punjabRiceRecord]) emptyStore "rice"
      (some "Punjab") true).result.current = JsVal.num 2500 ∧
    (getMarketPrice (liveEnvFailingWrite [punjabRiceRecord]) emptyStore "rice"
      (some "Punjab") true).store.marketPrices = [] ∧
    (liveEnv [punjabRiceRecordDated]).cacheWriteFails = false ∧
    (getMarketPrice (liveEnv [punjabRiceRecordDated]) emptyStore "rice" (some "Punjab")
      true).result.source = JsVal.str "Agmarknet (Live)" ∧
    (getMarketPrice (liveEnv [punjabRiceRecordDated]) emptyStore "rice" (some "Punjab")
      true).result.current = JsVal.num 2500 ∧
    (getMarketPrice (liveEnv [punjabRiceRecordDated]) emptyStore "rice" (some "Punjab")
      true).calls = [Effect.agmarknet, Effect.cacheSave "rice" (JsVal.str "Punjab")] ∧
    (getMarketPrice (liveEnv [punjabRiceRecordDated]) emptyStore "rice" (some "Punjab")
      true).store.marketPrices = [] := by
  decide!

/-- C3 (amended). With the network available, whenever `fetchFromAgmarknet`
returns a record with positive modal, min and max prices, `getMarketPrice`
returns the source `Agmarknet (Live)` with `current` the modal price and the
same `min` and `max`, whatever the other tiers and the store hold; and when the
update of the cache is not rejected, neither by the database nor by the cast of
the arrival date of the record to a date, the cache then holds an entry for the
lowercase commodity and the requested region (`All-India` without one) whose
`currentPrice` is the modal price. -/
theorem getMarketPrice_live_preempts (env : Env) (st : Store) (cropName : String)
    (location : Option String) (api : PriceData) (m lo hi : ℚ)
    (hapi : fetchFromAgmarknet env (commodityFor cropName)
      (mandiFor (requestedLocation location)) (requestedLocation location)
        = Completion.normal (some api))
    (hmodal : api.modalPrice = JsVal.num m) (hmin : api.minPrice = JsVal.num lo)
    (hmax : api.maxPrice = JsVal.num hi) (hm : 0 < m) (hlo : 0 < lo) (hhi : 0 < hi) :
    (getMarketPrice env st cropName location true).result.source
      = JsVal.str "Agmarknet (Live)" ∧
    (getMarketPrice env st cropName location true).result.current = JsVal.num m ∧
    (getMarketPrice env st cropName location true).result.min = JsVal.num lo ∧
    (getMarketPrice env st cropName location true).result.max = JsVal.num hi ∧
    (env.cacheWriteFails = false →
      dateCastFails env (api.arrivalDate.or (JsVal.str env.nowIso)) = false →
      ∃ e ∈ (getMarketPrice env st cropName location true).store.marketPrices,
        e.cropName = toLowerCase cropName ∧
        e.location = cacheLocation (requestedLocation location) ∧
        e.currentPrice = JsVal.num m) := by
  obtain ⟨hN, _, _⟩ := fetchFromAgmarknet_some _ _ _ _ _ hapi
  have hcur : api.currentPrice = JsVal.num m := hN.current_modal m hmodal
  have hnum : liveNumericCurrent api = JsVal.num m :=
    liveNumericCurrent_modal api m (ne_of_gt hm) hcur
  obtain ⟨live, hL⟩ := liveTier_completes env cropName location
  cases live with
  | none =>
    exfalso
    unfold liveTier at hL
    rw [hapi] at hL
    simp only [hnum, reduceCtorEq, if_false] at hL
    split at hL <;> cases hL
  | some n =>
    obtain ⟨api2, hapi2, h1, _, h3, h4, h5, h6, h7, h8⟩ :=
      liveTier_some env cropName location n hL
    rw [hapi] at hapi2
    cases hapi2
    have hn1 : n.currentPrice = JsVal.num m := by rw [h1, hnum]
    have hn2 : n.minPrice = JsVal.num lo := by
      rw [h3, hmin]; simp [JsVal.truthy, JsVal.toNumber, ne_of_gt hlo]
    have hn3 : n.maxPrice = JsVal.num hi := by
      rw [h4, hmax]; simp [JsVal.truthy, JsVal.toNumber, ne_of_gt hhi]
    unfold getMarketPrice getMarketPriceTry
    simp only [hL, if_true]
    refine ⟨trivial, hn1, hn2, hn3, ?_⟩
    intro hw hd
    have hmp := saveToCacheDB_marketPrices env st cropName n (requestedLocation location)
      ⟨hw, by rw [hn1]; rfl, by rw [hn2]; rfl, by rw [hn3]; rfl,
        by rcases h7 with h | ⟨q, h⟩ <;> rw [h] <;> rfl, by rw [h8]; exact hd⟩
    obtain ⟨old, ho1, ho2, hmem⟩ := upsert_mem env.now (toLowerCase cropName)
      (cacheLocation (requestedLocation location)) n st.marketPrices
    rw [hmp]
    refine ⟨_, hmem, ?_, ?_, ?_⟩
    · simpa [applyUpdate] using ho1
    · simpa [applyUpdate] using ho2
    · simp [applyUpdate, setField, hn1]

/-- C3 (amended), at rice in Punjab with the upstream record of modal price
2500 between 2400 and 2600 and an empty store. -/
theorem getMarketPrice_live_preempts_witness :
    (getMarketPrice (liveEnv [punjabRiceRecord]) emptyStore "rice" (some "Punjab")
      true).result.source = JsVal.str "Agmarknet (Live)" ∧
    (getMarketPrice (liveEnv [punjabRiceRecord]) emptyStore "rice" (some "Punjab")
      true).result.current = JsVal.num 2500 ∧
    (getMarketPrice (liveEnv [punjabRiceRecord]) emptyStore "rice" (some "Punjab")
      true).result.min = JsVal.num 2400 ∧
    (getMarketPrice (liveEnv [punjabRiceRecord]) emptyStore "rice" (some "Punjab")
      true).result.max = JsVal.num 2600 ∧
    ∃ e ∈ (getMarketPrice (liveEnv [punjabRiceRecord]) emptyStore "rice" (some "Punjab")
        true).store.marketPrices,
      e.cropName = toLowerCase "rice" ∧
      e.location = cacheLocation (requestedLocation (some "Punjab")) ∧
      e.currentPrice = JsVal.num 2500 :=
  have h := getMarketPrice_live_preempts (liveEnv [punjabRiceRecord]) emptyStore "rice"
    (some "Punjab") punjabRiceBest 2500 2400 2600 (by decide!) rfl rfl rfl (by norm_num)
    (by norm_num) (by norm_num)
  ⟨h.1, h.2.1, h.2.2.1, h.2.2.2.1, h.2.2.2.2 rfl (by decide)⟩

/-- C4 (the code breaks it). For the commodity name `constructor` and the
location `caller`, with `hasInternet = false`, an empty cache and no crop
profile, the read `locationPriceVariation[key]` of `getLocationMultiplier`
yields the inherited function `Object`, whose member `caller` throws a
`TypeError`: the block `try` of `getMarketPrice` throws after the reads of the
cache and of the crop profile, and the block `catch` returns the source
`Estimated (source temporarily unavailable)` with a `current` that is `NaN`. -/
theorem getMarketPrice_offline_outer_catch :
    cropSpecificMultiplier "constructor" "caller" = Completion.throws
      { message := "TypeError: restricted property of a strict function" } ∧
    (getMarketPriceTry quietEnv emptyStore "constructor" (some "caller") false).result
      = Completion.throws
        { message := "TypeError: restricted property of a strict function" } ∧
    (getMarketPrice quietEnv emptyStore "constructor" (some "caller") false).calls
      = [Effect.cacheRead, Effect.cropProfile] ∧
    (getMarketPrice quietEnv emptyStore "constructor" (some "caller") false).result.source
      = JsVal.str "Estimated (source temporarily unavailable)" ∧
    (getMarketPrice quietEnv emptyStore "constructor" (some "caller") false).result.current
      = JsVal.nan := by
  decide!

/-- C5 (as stated, it fails). The Live tier answers onion in Maharashtra with
the price 1800 and the update of the cache is rejected and swallowed: the
following offline request finds no entry and returns the estimate 2750 of the
static range with the source `Mock Data`. Likewise, with a database that
rejects nothing, after the Live tier has answered rice in Punjab with a record
dated `25/12/2024`, whose update fails the cast of the date, the offline request
returns the estimate 2765 with the source `Mock Data`. -/
theorem getMarketPrice_round_trip_lost :
    (getMarketPrice (liveEnvFailingWrite [maharashtraOnionRecord]) emptyStore "onion"
      (some "Maharashtra") true).result.source = JsVal.str "Agmarknet (Live)" ∧
    (getMarketPrice (liveEnvFailingWrite [maharashtraOnionRecord]) emptyStore "onion"
      (some "Maharashtra") true).result.current = JsVal.num 1800 ∧
    (getMarketPrice quietEnv
      (getMarketPrice (liveEnvFailingWrite [maharashtraOnionRecord]) emptyStore "onion"
        (some "Maharashtra") true).store
      "onion" (some "Maharashtra") false).result.current = JsVal.num 2750 ∧
    (getMarketPrice quietEnv
      (getMarketPrice (liveEnvFailingWrite [maharashtraOnionRecord]) emptyStore "onion"
        (some "Maharashtra") true).store
      "onion" (some "Maharashtra") false).result.source = JsVal.str "Mock Data" ∧
    (getMarketPrice (liveEnv [punjabRiceRecordDated]) emptyStore "rice" (some "Punjab")
      true).result.current = JsVal.num 2500 ∧
    (getMarketPrice quietEnv
      (getMarketPrice (liveEnv [punjabRiceRecordDated]) emptyStore "rice" (some "Punjab")
        true).store
      "rice" (some "Punjab") false).result.current = JsVal.num 2765 ∧
    (getMarketPrice quietEnv
      (getMarketPrice (liveEnv [punjabRiceRecordDated]) emptyStore "rice" (some "Punjab")
        true).store
      "rice" (some "Punjab") false).result.source = JsVal.str "Mock Data" := by
  decide!

/-- C5 (amended). When an online `getMarketPrice(c, r, true)` resolves through
the Live tier with the record `n`, the update of the cache with `n` is not
rejected (neither by the database nor by the cast of a field of `n`), the cache
held at most one entry per key (which every call preserves) and the first read
of the following call does not fail, the offline `getMarketPrice(c, r, false)`
that follows returns `current = n.currentPrice`, the price that the online call
returned, with the source `Cached (Offline)`. -/
theorem getMarketPrice_cache_round_trip (env1 env2 : Env) (st : Store) (c : String)
    (r : Option String) (n : PriceData)
    (hlive : liveTier env1 c r = Completion.normal (some n))
    (hw : UpdateAccepted env1 n) (hr : env2.cacheReadFails 1 = false)
    (hu : UniqueKeys st.marketPrices) :
    (getMarketPrice env1 st c r true).result.source = JsVal.str "Agmarknet (Live)" ∧
    (getMarketPrice env1 st c r true).result.current = n.currentPrice ∧
    (getMarketPrice env2 (getMarketPrice env1 st c r true).store c r false).result.current
      = n.currentPrice ∧
    (getMarketPrice env2 (getMarketPrice env1 st c r true).store c r false).result.source
      = JsVal.str "Cached (Offline)" := by
  obtain ⟨api, _, _, ⟨q, _, hq⟩, _, _, h5, h6, h7, _⟩ := liveTier_some env1 c r n hlive
  have hstore : (getMarketPrice env1 st c r true).store
      = saveToCacheDB env1 st c n (requestedLocation r) := by
    unfold getMarketPrice getMarketPriceTry; simp [hlive]
  have hres : (getMarketPrice env1 st c r true).result.source = JsVal.str "Agmarknet (Live)" ∧
      (getMarketPrice env1 st c r true).result.current = n.currentPrice := by
    unfold getMarketPrice getMarketPriceTry; simp [hlive]
  obtain ⟨res, h1, h2, h3⟩ := offlineTiers_after_save env1 env2 st c (locationValue r) n []
    (by rw [hq]; simp) hw hr (hu _ _)
  have hoff : (getMarketPrice env2 (saveToCacheDB env1 st c n (requestedLocation r)) c r
      false).result = res := by
    apply getMarketPrice_result_normal
    unfold getMarketPriceTry
    simp only [Bool.false_eq_true, if_false]
    exact h1
  rw [hstore, hoff]
  exact ⟨hres.1, hres.2, h2, h3⟩

/-- C5 (amended), at onion in Maharashtra: the Live tier answers 1800, the
offline request that follows returns 1800 from the cache. -/
theorem getMarketPrice_cache_round_trip_witness :
    (getMarketPrice (liveEnv [maharashtraOnionRecord]) emptyStore "onion"
      (some "Maharashtra") true).result.current = JsVal.num 1800 ∧
    (getMarketPrice quietEnv
      (getMarketPrice (liveEnv [maharashtraOnionRecord]) emptyStore "onion"
        (some "Maharashtra") true).store
      "onion" (some "Maharashtra") false).result.current = JsVal.num 1800 ∧
    (getMarketPrice quietEnv
      (getMarketPrice (liveEnv [maharashtraOnionRecord]) emptyStore "onion"
        (some "Maharashtra") true).store
      "onion" (some "Maharashtra") false).result.source = JsVal.str "Cached (Offline)" :=
  have h := getMarketPrice_cache_round_trip (liveEnv [maharashtraOnionRecord]) quietEnv
    emptyStore "onion" (some "Maharashtra")
    { currentPrice := JsVal.num 1800
      minPrice := JsVal.num 1700
      maxPrice := JsVal.num 1900
      modalPrice := JsVal.num 1800
      unit := JsVal.str "per quintal"
      currency := JsVal.str "INR"
      arrivalDate := JsVal.str "2025-01-01T00:00:00.000Z"
      mandiName := JsVal.str "Bombay"
      source := JsVal.str "Agmarknet (State Best Mandi)" }
    (by decide!) ⟨rfl, rfl, rfl, rfl, rfl, by decide⟩ rfl
    (fun _ _ => Nat.zero_le 1)
  ⟨h.2.1, h.2.2.1, h.2.2.2⟩

/-- C6 (the code breaks it). With an empty cache and the Live and AI adapters
declining on both calls, the first online request for rice in Maharashtra
returns 3021 and writes it to the cache, and the second one, which anchors on
that entry and applies the multiplier again, returns 3202. -/
theorem getMarketPrice_alternative_drifts :
    (getMarketPrice quietEnv emptyStore "rice" (some "Maharashtra") true).result.current
      = JsVal.num 3021 ∧
    (getMarketPrice quietEnv
      (getMarketPrice quietEnv emptyStore "rice" (some "Maharashtra") true).store
      "rice" (some "Maharashtra") true).result.current = JsVal.num 3202 := by
  decide!

/-- C7 (as stated, it fails). The AI response has current 100, min 200 and
max 50, the Live adapter declines and every read of the database is rejected:
`fetchFromOpenAIProvider` returns null, the Alternative adapter catches the
failure of its read and returns null too, and `getMarketPrice` returns the
estimate of the last tier with the source `Mock Data`, not a record of the
Alternative adapter. -/
theorem getMarketPrice_malformed_ai_without_alternative :
    fetchFromAlternativeProvider
      (aiEnvDatabaseDown (AiReply.parsed (JsVal.num 100) (JsVal.num 200) (JsVal.num 50)
        JsVal.undefined JsVal.undefined))
      emptyStore "rice" (commodityFor "rice") (requestedLocation none)
        = Completion.normal none ∧
    (getMarketPrice
      (aiEnvDatabaseDown (AiReply.parsed (JsVal.num 100) (JsVal.num 200) (JsVal.num 50)
        JsVal.undefined JsVal.undefined))
      emptyStore "rice" none true).result.source = JsVal.str "Mock Data" ∧
    (getMarketPrice
      (aiEnvDatabaseDown (AiReply.parsed (JsVal.num 100) (JsVal.num 200) (JsVal.num 50)
        JsVal.undefined JsVal.undefined))
      emptyStore "rice" none true).calls
        = [Effect.agmarknet, Effect.openai, Effect.alternative, Effect.cacheRead,
           Effect.cropProfile] := by
  decide!

/-- C7 (amended). When the parsed AI response has a current, min or max price
whose `Number(...)` is not finite, or prices that violate min <= current <= max,
`fetchFromOpenAIProvider` returns null and `getMarketPrice` answers as it does
without an AI client; and when moreover the Live tier has declined and the
Alternative adapter returns a record, `getMarketPrice` returns that record,
with the source `Alternate (Simulated)`, and saves it. -/
theorem getMarketPrice_malformed_ai_declined (env : Env) (st : Store) (cropName : String)
    (location : Option String) (cur mn mx unit currency : JsVal)
    (hreply : env.openai (jsString ((commodityFor cropName).or (JsVal.str cropName)))
      (jsString ((requestedLocation location).or (JsVal.str "All-India")))
        = AiReply.parsed cur mn mx unit currency)
    (hbad : (cur.toNumber.isFinite = false ∨ mn.toNumber.isFinite = false ∨
        mx.toNumber.isFinite = false) ∨ ¬ (mn.le cur = true ∧ cur.le mx = true)) :
    fetchFromOpenAIProvider env cropName (commodityFor cropName) (requestedLocation location)
      = Completion.normal none ∧
    getMarketPrice env st cropName location true
      = getMarketPrice { env with openaiClient := false } st cropName location true ∧
    (liveTier env cropName location = Completion.normal none →
      ∀ alt, fetchFromAlternativeProvider env st cropName (commodityFor cropName)
          (requestedLocation location) = Completion.normal (some alt) →
        (getMarketPrice env st cropName location true).result =
          { cropName := cropName
            current := alt.currentPrice
            min := alt.minPrice
            max := alt.maxPrice
            unit := alt.unit
            currency := alt.currency
            location := (requestedLocation location).or (JsVal.str "All-India Average")
            source := JsVal.str "Alternate (Simulated)" } ∧
        (getMarketPrice env st cropName location true).store =
          saveToCacheDB env st cropName alt (requestedLocation location)) := by
  have hai : fetchFromOpenAIProvider env cropName (commodityFor cropName)
      (requestedLocation location) = Completion.normal none := by
    unfold fetchFromOpenAIProvider fetchFromOpenAIProviderTry
    split_ifs
    · rfl
    · rw [hreply]
      simp only
      split
      · next a b d ha hb hd =>
        have hnot : ¬ (b ≤ a ∧ a ≤ d) := by
          rcases hbad with h | h
          · simp [ha, hb, hd, JsVal.isFinite] at h
          · simpa [JsVal.le, ha, hb, hd] using h
        split_ifs with hc
        · rfl
        · exfalso
          apply hnot
          simpa using hc
      · rfl
  have hoff : fetchFromOpenAIProvider { env with openaiClient := false } cropName
      (commodityFor cropName) (requestedLocation location) = Completion.normal none := by
    simp [fetchFromOpenAIProvider, fetchFromOpenAIProviderTry, tryCatch]
  refine ⟨hai, ?_, ?_⟩
  · unfold getMarketPrice getMarketPriceTry
    simp only [hai, hoff]
    rfl
  · intro hlive alt halt
    have hsrc := fetchFromAlternativeProvider_source _ _ _ _ _ _ halt
    unfold getMarketPrice getMarketPriceTry
    simp [hlive, hai, halt, hsrc, JsVal.or, JsVal.truthy]

/-- C7 (amended), at the response with current 100, min 200 and max 50 for rice
without a location: the adapter returns null and `getMarketPrice` returns the
record of the Alternative adapter, the midpoint 2850 of the static range of rice. -/
theorem getMarketPrice_malformed_ai_declined_witness :
    fetchFromOpenAIProvider
      (aiEnv (AiReply.parsed (JsVal.num 100) (JsVal.num 200) (JsVal.num 50)
        JsVal.undefined JsVal.undefined))
      "rice" (commodityFor "rice") (requestedLocation none) = Completion.normal none ∧
    (getMarketPrice
      (aiEnv (AiReply.parsed (JsVal.num 100) (JsVal.num 200) (JsVal.num 50)
        JsVal.undefined JsVal.undefined))
      emptyStore "rice" none true).result =
        { cropName := "rice"
          current := JsVal.num 2850
          min := JsVal.num 2200
          max := JsVal.num 3500
          unit := JsVal.str "per quintal"
          currency := JsVal.str "INR"
          location := JsVal.str "All-India Average"
          source := JsVal.str "Alternate (Simulated)" } :=
  have h := getMarketPrice_malformed_ai_declined
    (aiEnv (AiReply.parsed (JsVal.num 100) (JsVal.num 200) (JsVal.num 50)
      JsVal.undefined JsVal.undefined))
    emptyStore "rice" none (JsVal.num 100) (JsVal.num 200) (JsVal.num 50)
    JsVal.undefined JsVal.undefined rfl (Or.inr (by decide!))
  ⟨h.1, (h.2.2 (by decide!)
    { currentPrice := JsVal.num 2850
      minPrice := JsVal.num 2200
      maxPrice := JsVal.num 3500
      unit := JsVal.str "per quintal"
      currency := JsVal.str "INR"
      arrivalDate := JsVal.str "2025-01-01T00:00:00.000Z"
      source := JsVal.str "Alternate (Simulated)" } (by decide!)).1⟩

/-- C8 (as stated, it fails). A parsed response whose current price is the
boolean `true`, whose min price is `null` and whose max price is the string
`2` holds no JSON number, yet `fetchFromOpenAIProvider` coerces the three with
`Number(...)` to 1, 0 and 2 and returns a record; it does the same with the
array `[3000]`, the empty array and the string `4e3`, which become 3000, 0 and
4000. -/
theorem fetchFromOpenAIProvider_coerces :
    fetchFromOpenAIProvider
      (aiEnv (AiReply.parsed (JsVal.bool true) JsVal.null (JsVal.str "2")
        JsVal.undefined JsVal.undefined))
      "rice" (JsVal.str "Rice") JsVal.null =
        Completion.normal (some {
          currentPrice := JsVal.num 1
          minPrice := JsVal.num 0
          maxPrice := JsVal.num 2
          unit := JsVal.str "per quintal"
          currency := JsVal.str "INR"
          arrivalDate := JsVal.str "2025-01-01T00:00:00.000Z"
          source := JsVal.str "OpenAI (Estimated)" }) ∧
    fetchFromOpenAIProvider
      (aiEnv (AiReply.parsed (JsVal.obj "3000") (JsVal.obj "") (JsVal.str "4e3")
        JsVal.undefined JsVal.undefined))
      "rice" (JsVal.str "Rice") JsVal.null =
        Completion.normal (some {
          currentPrice := JsVal.num 3000
          minPrice := JsVal.num 0
          maxPrice := JsVal.num 4000
          unit := JsVal.str "per quintal"
          currency := JsVal.str "INR"
          arrivalDate := JsVal.str "2025-01-01T00:00:00.000Z"
          source := JsVal.str "OpenAI (Estimated)" }) := by
  decide!

/-- C8 (amended). When the current, min or max price of the parsed response is
missing, `NaN`, an infinity, or a string, an array or an object whose text is
not a finite numeric literal, `fetchFromOpenAIProvider` returns null; and
whenever `Number(...)` converts the three prices to finite numbers that are
ordered, whatever their types, the adapter (with its AI client) returns the
record of their rounded values. -/
theorem fetchFromOpenAIProvider_rejects_not_coercible (env : Env) (cropName : String)
    (commodity location cur mn mx unit currency : JsVal)
    (hreply : env.openai (jsString (commodity.or (JsVal.str cropName)))
      (jsString (location.or (JsVal.str "All-India")))
        = AiReply.parsed cur mn mx unit currency) :
    (NotCoercible cur ∨ NotCoercible mn ∨ NotCoercible mx →
      fetchFromOpenAIProvider env cropName commodity location = Completion.normal none) ∧
    (∀ a b d : ℚ, env.openaiClient = true → cur.toNumber = JsVal.num a →
      mn.toNumber = JsVal.num b → mx.toNumber = JsVal.num d → b ≤ a → a ≤ d →
      fetchFromOpenAIProvider env cropName commodity location = Completion.normal (some {
        currentPrice := JsVal.num (jsRound a)
        minPrice := JsVal.num (jsRound b)
        maxPrice := JsVal.num (jsRound d)
        unit := unit.or (JsVal.str "per quintal")
        currency := currency.or (JsVal.str "INR")
        arrivalDate := JsVal.str env.nowIso
        source := JsVal.str "OpenAI (Estimated)" })) := by
  have hnan : ∀ v, NotCoercible v → v.toNumber.isFinite = false := by
    intro v hv
    rcases hv with h | h | ⟨t, h⟩ | ⟨s, h | h, hs⟩
    · subst h; rfl
    · subst h; rfl
    · subst h; rfl
    · subst h; exact hs
    · subst h; exact hs
  constructor
  · intro h
    unfold fetchFromOpenAIProvider fetchFromOpenAIProviderTry
    split_ifs
    · rfl
    · rw [hreply]
      simp only
      split
      · next a b d ha hb hd =>
        rcases h with h | h | h
        · have := hnan _ h; rw [ha] at this; cases this
        · have := hnan _ h; rw [hb] at this; cases this
        · have := hnan _ h; rw [hd] at this; cases this
      · rfl
  · intro a b d hclient ha hb hd hba had
    unfold fetchFromOpenAIProvider fetchFromOpenAIProviderTry
    simp [hclient, hreply, ha, hb, hd, hba, had, tryCatch]

/-- C8 (amended), at a response whose current price is the string `abc`, which
is declined, and at the response with the array `[3000]`, the empty array and
the string `4e3`, which is accepted as 3000, 0 and 4000. -/
theorem fetchFromOpenAIProvider_rejects_not_coercible_witness :
    fetchFromOpenAIProvider
      (aiEnv (AiReply.parsed (JsVal.str "abc") (JsVal.num 1) (JsVal.num 2)
        JsVal.undefined JsVal.undefined))
      "rice" (JsVal.str "Rice") JsVal.null = Completion.normal none ∧
    fetchFromOpenAIProvider
      (aiEnv (AiReply.parsed (JsVal.obj "3000") (JsVal.obj "") (JsVal.str "4e3")
        JsVal.undefined JsVal.undefined))
      "rice" (JsVal.str "Rice") JsVal.null = Completion.normal (some {
        currentPrice := JsVal.num (jsRound 3000)
        minPrice := JsVal.num (jsRound 0)
        maxPrice := JsVal.num (jsRound 4000)
        unit := JsVal.undefined.or (JsVal.str "per quintal")
        currency := JsVal.undefined.or (JsVal.str "INR")
        arrivalDate := JsVal.str
          (aiEnv (AiReply.parsed (JsVal.obj "3000") (JsVal.obj "") (JsVal.str "4e3")
            JsVal.undefined JsVal.undefined)).nowIso
        source := JsVal.str "OpenAI (Estimated)" }) :=
  ⟨(fetchFromOpenAIProvider_rejects_not_coercible
      (aiEnv (AiReply.parsed (JsVal.str "abc") (JsVal.num 1) (JsVal.num 2)
        JsVal.undefined JsVal.undefined))
      "rice" (JsVal.str "Rice") JsVal.null (JsVal.str "abc") (JsVal.num 1) (JsVal.num 2)
      JsVal.undefined JsVal.undefined rfl).1
      (Or.inl (Or.inr (Or.inr (Or.inr ⟨"abc", Or.inl rfl, by decide!⟩)))),
   (fetchFromOpenAIProvider_rejects_not_coercible
      (aiEnv (AiReply.parsed (JsVal.obj "3000") (JsVal.obj "") (JsVal.str "4e3")
        JsVal.undefined JsVal.undefined))
      "rice" (JsVal.str "Rice") JsVal.null (JsVal.obj "3000") (JsVal.obj "") (JsVal.str "4e3")
      JsVal.undefined JsVal.undefined rfl).2 3000 0 4000 rfl (by decide!) (by decide!)
      (by decide!) (by norm_num) (by norm_num)⟩

/-- C9 (the code breaks it). For the commodity `unknownfruit`, which has no
static range, with an empty cache, no stored baseline and no network, the
location `toString` makes `defaultStateMultipliers[normalizedLocation]` read the
method inherited from `Object.prototype`: the multiplier is a function, and
`getMarketPrice` returns `Mock Data` whose `min`, `current` and `max` are `NaN`,
so that min <= current <= max does not hold. -/
theorem getMarketPrice_mock_nan_for_inherited_location :
    getLocationMultiplier (JsVal.str "unknownfruit") (JsVal.str "toString")
      = Completion.normal (JsVal.obj "function toString() \x7b [native code] \x7d") ∧
    (getMarketPrice quietEnv emptyStore "unknownfruit" (some "toString") false).result
      = { cropName := "unknownfruit"
          current := JsVal.nan
          min := JsVal.nan
          max := JsVal.nan
          unit := JsVal.str "per quintal"
          currency := JsVal.str "INR"
          location := JsVal.str "toString"
          source := JsVal.str "Mock Data" } ∧
    JsVal.le (getMarketPrice quietEnv emptyStore "unknownfruit" (some "toString")
        false).result.min
      (getMarketPrice quietEnv emptyStore "unknownfruit" (some "toString")
        false).result.current = false := by
  decide!

/-- C10 (as stated, it fails). With the reference price 2700 in the profile of
rice, an empty cache and no network, `getMarketPrice` returns `Stored Crop
Price`; the update of the cache is rejected and swallowed, so the following
offline request is answered by the stored crop price again and not by the cache. -/
theorem getMarketPrice_stored_baseline_not_persisted :
    (getMarketPrice quietEnvFailingWrite riceProfileStore "rice" (some "Punjab")
      false).result.source = JsVal.str "Stored Crop Price" ∧
    (getMarketPrice quietEnvFailingWrite riceProfileStore "rice" (some "Punjab")
      false).result.current = JsVal.num 2619 ∧
    (getMarketPrice quietEnv
      (getMarketPrice quietEnvFailingWrite riceProfileStore "rice" (some "Punjab")
        false).store
      "rice" (some "Punjab") false).result.source = JsVal.str "Stored Crop Price" := by
  decide!

/-- C10 (amended). When the cache holds no entry for the commodity, the first
active profile that matches the commodity holds the positive reference price
`b` and the regional multiplier is the number `m`, the offline
`getMarketPrice` returns the source `Stored Crop Price` with
`current = Math.round(Math.round(b) * m)`, the product being the binary64 one;
and when the database does not reject the update of the cache and the first
read of the following call does not fail, the offline call that follows for the
same commodity and location returns the same `current` with the source
`Cached (Offline)`. -/
theorem getMarketPrice_stored_baseline (env1 env2 : Env) (st : Store) (c : String)
    (r : Option String) (test : String → Bool) (d : CropDoc) (b m : ℚ)
    (hnone : ∀ e ∈ st.marketPrices, e.cropName ≠ toLowerCase c)
    (hre : env1.cropRegex c = some test) (hcr : env1.cropReadFails = false)
    (hdoc : st.crops.find? (fun x => test x.name && x.isActive) = some d)
    (hb : d.current = JsVal.num b) (hpos : 0 < b)
    (hm : getLocationMultiplier (JsVal.str (toLowerCase c)) (requestedLocation r)
      = Completion.normal (JsVal.num m))
    (hw : env1.cacheWriteFails = false) (hr : env2.cacheReadFails 1 = false) :
    (getMarketPrice env1 st c r false).result.source = JsVal.str "Stored Crop Price" ∧
    (getMarketPrice env1 st c r false).result.current
      = ((JsVal.num (jsRound b)).mul (JsVal.num m)).round ∧
    (getMarketPrice env2 (getMarketPrice env1 st c r false).store c r false).result.current
      = ((JsVal.num (jsRound b)).mul (JsVal.num m)).round ∧
    (getMarketPrice env2 (getMarketPrice env1 st c r false).store c r false).result.source
      = JsVal.str "Cached (Offline)" := by
  have hcache := fetchFromCacheDB_none env1 st c (requestedLocation r) hnone
  have hprof : fetchFromCropProfilePrice env1 st c = Completion.normal (some {
      currentPrice := JsVal.num (jsRound b)
      minPrice := JsVal.null
      maxPrice := JsVal.null
      unit := d.unit.or (JsVal.str "per quintal")
      currency := d.currency.or (JsVal.str "INR")
      source := JsVal.str "Crop Profile" }) := by
    unfold fetchFromCropProfilePrice fetchFromCropProfilePriceTry
    simp [hre, hcr, hdoc, hb, JsVal.toNumber, not_le.mpr hpos, tryCatch]
  have hshape : ∀ x y : ℚ, numberCastFails ((JsVal.num x).mul (JsVal.num y)).round = false ∧
      ((JsVal.num x).mul (JsVal.num y)).round ≠ JsVal.undefined := by
    intro x y
    simp only [JsVal.mul, JsVal.toNumber, JsVal.ofExact]
    cases roundToDouble (x * y) <;> simp [JsVal.round, JsVal.toNumber, numberCastFails]
  have hfirst : (getMarketPriceTry env1 st c r false)
      = { result := Completion.normal {
            cropName := c
            current := ((JsVal.num (jsRound b)).mul (JsVal.num m)).round
            min := JsVal.null
            max := JsVal.null
            unit := d.unit.or (JsVal.str "per quintal")
            currency := d.currency.or (JsVal.str "INR")
            location := (requestedLocation r).or (JsVal.str "All-India Average")
            source := JsVal.str "Stored Crop Price" }
          store := saveToCacheDB env1 st c {
            currentPrice := ((JsVal.num (jsRound b)).mul (JsVal.num m)).round
            minPrice := JsVal.null
            maxPrice := JsVal.null
            unit := d.unit.or (JsVal.str "per quintal")
            currency := d.currency.or (JsVal.str "INR")
            arrivalDate := JsVal.str env1.nowIso
            source := JsVal.str "Local" } (requestedLocation r)
          calls := [Effect.cacheRead, Effect.cropProfile,
            Effect.cacheSave c (requestedLocation r)] } := by
    unfold getMarketPriceTry offlineTiers
    simp only [Bool.false_eq_true, if_false, hcache, hprof, hm]
    rfl
  have hres1 := getMarketPrice_result_normal env1 st c r false _
    (congrArg Attempt.result hfirst)
  have hstore : (getMarketPrice env1 st c r false).store
      = saveToCacheDB env1 st c {
          currentPrice := ((JsVal.num (jsRound b)).mul (JsVal.num m)).round
          minPrice := JsVal.null
          maxPrice := JsVal.null
          unit := d.unit.or (JsVal.str "per quintal")
          currency := d.currency.or (JsVal.str "INR")
          arrivalDate := JsVal.str env1.nowIso
          source := JsVal.str "Local" } (requestedLocation r) :=
    congrArg Attempt.store hfirst
  have hu : (st.marketPrices.filter (fun e => decide (e.cropName = toLowerCase c ∧
      e.location = cacheLocation (requestedLocation r)))).length ≤ 1 := by
    have : st.marketPrices.filter (fun e => decide (e.cropName = toLowerCase c ∧
        e.location = cacheLocation (requestedLocation r))) = [] :=
      List.filter_eq_nil_iff.mpr (fun e he => by simp [hnone e he])
    rw [this]; simp
  obtain ⟨res, h1, h2, h3⟩ := offlineTiers_after_save env1 env2 st c (locationValue r)
    { currentPrice := ((JsVal.num (jsRound b)).mul (JsVal.num m)).round
      minPrice := JsVal.null
      maxPrice := JsVal.null
      unit := d.unit.or (JsVal.str "per quintal")
      currency := d.currency.or (JsVal.str "INR")
      arrivalDate := JsVal.str env1.nowIso
      source := JsVal.str "Local" } [] (hshape _ _).2
    ⟨hw, (hshape _ _).1, rfl, rfl, rfl, by simp [dateCastFails]⟩ hr hu
  have hres2 : (getMarketPrice env2 (getMarketPrice env1 st c r false).store c r false).result
      = res := by
    apply getMarketPrice_result_normal
    rw [hstore]
    unfold getMarketPriceTry
    simp only [Bool.false_eq_true, if_false]
    exact h1
  rw [hres1, hres2]
  exact ⟨rfl, rfl, h2, h3⟩

/-- C10 (amended), at the profile of tomato with the reference price 1650 and
the location Tamil Nadu, whose multiplier for tomato is 1.15: the binary64
product of 1650 by 1.15 lies below 1897.5 and both calls return 1897. -/
theorem getMarketPrice_stored_baseline_witness :
    ((JsVal.num (jsRound 1650)).mul (JsVal.num (double 1.15))).round = JsVal.num 1897 ∧
    (getMarketPrice quietEnv tomatoProfileStore "tomato" (some "Tamil Nadu") false).result.source
      = JsVal.str "Stored Crop Price" ∧
    (getMarketPrice quietEnv tomatoProfileStore "tomato" (some "Tamil Nadu")
      false).result.current = ((JsVal.num (jsRound 1650)).mul (JsVal.num (double 1.15))).round ∧
    (getMarketPrice quietEnv
      (getMarketPrice quietEnv tomatoProfileStore "tomato" (some "Tamil Nadu") false).store
      "tomato" (some "Tamil Nadu") false).result.current
      = ((JsVal.num (jsRound 1650)).mul (JsVal.num (double 1.15))).round ∧
    (getMarketPrice quietEnv
      (getMarketPrice quietEnv tomatoProfileStore "tomato" (some "Tamil Nadu") false).store
      "tomato" (some "Tamil Nadu") false).result.source = JsVal.str "Cached (Offline)" :=
  ⟨by decide!,
   getMarketPrice_stored_baseline quietEnv quietEnv tomatoProfileStore "tomato"
    (some "Tamil Nadu") (fun name => toLowerCase name == toLowerCase "tomato")
    { name := "Tomato", isActive := true, current := JsVal.num 1650 } 1650 (double 1.15)
    (by decide) rfl rfl (by decide!) rfl (by norm_num) (by decide!) rfl rfl⟩

/-- C11 (as stated, it fails). The profile of rice holds the reference price
2700 and the Live adapter answers rice in Punjab with 2500: `saveToCacheDB`
calls `syncPriceToCropProfile`, and after the call the profile holds 2500. -/
theorem getMarketPrice_overwrites_profile_price :
    riceProfileStore.crops
      = [{ name := "Rice", isActive := true, current := JsVal.num 2700 }] ∧
    (getMarketPrice (liveEnv [punjabRiceRecord]) riceProfileStore "rice" (some "Punjab")
      true).store.crops
      = [{ name := "Rice", isActive := true, current := JsVal.num 2500,
           unit := JsVal.str "per quintal", currency := JsVal.str "INR" }] := by
  decide!

/-- C11 (amended). A call of `getMarketPrice` that makes no call of
`saveToCacheDB` leaves the whole store, and so the reference price of every
profile, as it was; and every `saveToCacheDB` whose update is not rejected
(neither by the database nor by the cast of a price or of the arrival date) and
whose current price is a positive number writes, through
`syncPriceToCropProfile`, the rounded current price into the first active
profile that matches the commodity, unless the expression does not compile or
the update of the profile is rejected. -/
theorem getMarketPrice_profile_sync (env : Env) (st : Store) (cropName : String)
    (location : Option String) (hasInternet : Bool) :
    ((∀ c l, Effect.cacheSave c l ∉ (getMarketPrice env st cropName location hasInternet).calls) →
      (getMarketPrice env st cropName location hasInternet).store = st) ∧
    (∀ (pd : PriceData) (loc : JsVal) (q : ℚ) (test : String → Bool),
      UpdateAccepted env pd → pd.currentPrice = JsVal.num q → 0 < q →
      env.cropRegex cropName = some test → env.cropWriteFails = false →
      (saveToCacheDB env st cropName pd loc).crops
        = updateCrop test (JsVal.num (jsRound q)) (pd.unit.or (JsVal.str "per quintal"))
            (pd.currency.or (JsVal.str "INR")) st.crops) := by
  constructor
  · intro h
    rcases getMarketPrice_store_calls env st cropName location hasInternet with h1 | ⟨h1, _⟩
    · exact h1
    · exact absurd h1 (h _ _)
  · intro pd loc q test hacc hq hpos hre hcw
    obtain ⟨hw, h1, h2, h3, h4, h5⟩ := hacc
    rw [hq] at h1
    unfold saveToCacheDB syncPriceToCropProfile
    simp [hw, hq, h1, h2, h3, h4, h5, hre, hcw, JsVal.toNumber, not_le.mpr hpos]

/-- C11 (amended), at an offline request for a commodity without cache entry,
profile or static range, which leaves the store as it was, and at a write of
the price 2500 for rice, after which the profile of rice holds 2500. -/
theorem getMarketPrice_profile_sync_witness :
    (getMarketPrice quietEnv riceProfileStore "unknownfruit" none false).store
      = riceProfileStore ∧
    (saveToCacheDB quietEnv riceProfileStore "rice"
        { currentPrice := JsVal.num 2500, minPrice := JsVal.null, maxPrice := JsVal.null }
        (JsVal.str "Punjab")).crops
      = updateCrop (fun name => toLowerCase name == toLowerCase "rice") (JsVal.num (jsRound 2500))
          (JsVal.str "per quintal") (JsVal.str "INR") riceProfileStore.crops :=
  ⟨(getMarketPrice_profile_sync quietEnv riceProfileStore "unknownfruit" none false).1
      (by
        intro c l
        rw [show (getMarketPrice quietEnv riceProfileStore "unknownfruit" none false).calls
          = [Effect.cacheRead, Effect.cropProfile] from by decide!]
        simp),
   (getMarketPrice_profile_sync quietEnv riceProfileStore "rice" none false).2
      { currentPrice := JsVal.num 2500, minPrice := JsVal.null, maxPrice := JsVal.null }
      (JsVal.str "Punjab") 2500 (fun name => toLowerCase name == toLowerCase "rice")
      ⟨rfl, rfl, rfl, rfl, rfl, by decide⟩ rfl (by norm_num) rfl rfl⟩

/-- C12 (as stated, it fails). The cache holds the entry of rice for Punjab
and the read is rejected: `fetchFromCacheDB` catches the failure and returns
null although the entry exists. -/
theorem fetchFromCacheDB_null_on_failed_read :
    fetchFromCacheDB quietEnvFailingRead punjabRiceStore "rice" (JsVal.str "Punjab")
      = Completion.normal none ∧
    fetchFromCacheDB quietEnv punjabRiceStore "rice" (JsVal.str "Punjab")
      = Completion.normal (some {
          currentPrice := JsVal.num 2000
          minPrice := JsVal.num 1900
          maxPrice := JsVal.num 2100
          unit := JsVal.str "per quintal"
          currency := JsVal.str "INR"
          location := JsVal.str "Punjab"
          source := JsVal.str "Cached (Offline)" }) := by
  decide!

/-- C12 (amended). When no read of the cache is rejected, `fetchFromCacheDB`
returns the most recently updated entry keyed by the lowercase commodity and
the normalized location (`All-India` without one) when there is one; otherwise
the most recently updated entry of the commodity for `All-India` when there is
one; otherwise the most recently updated entry of the commodity in any region;
it returns null exactly when the cache holds no entry for the commodity, and
every record that it returns has the source `Cached (Offline)`. -/
theorem fetchFromCacheDB_three_tiers (env : Env) (st : Store) (c : String) (r : JsVal)
    (hread : ∀ n, env.cacheReadFails n = false) :
    (∀ e, findLatest (fun e => decide (e.cropName = toLowerCase c ∧
        e.location = cacheLocation r)) st.marketPrices = some e →
      fetchFromCacheDB env st c r = Completion.normal (some (cachedRecord e))) ∧
    (findLatest (fun e => decide (e.cropName = toLowerCase c ∧
        e.location = cacheLocation r)) st.marketPrices = none →
      ∀ e, findLatest (fun e => decide (e.cropName = toLowerCase c ∧
          e.location = "All-India")) st.marketPrices = some e →
        fetchFromCacheDB env st c r = Completion.normal (some (cachedRecord e))) ∧
    (findLatest (fun e => decide (e.cropName = toLowerCase c ∧
        e.location = cacheLocation r)) st.marketPrices = none →
      findLatest (fun e => decide (e.cropName = toLowerCase c ∧
        e.location = "All-India")) st.marketPrices = none →
      fetchFromCacheDB env st c r
        = Completion.normal ((findLatest (fun e => decide (e.cropName = toLowerCase c))
            st.marketPrices).map cachedRecord)) ∧
    (∀ (p : CacheEntry → Bool) (e : CacheEntry), findLatest p st.marketPrices = some e →
      e ∈ st.marketPrices ∧ p e = true ∧
      ∀ x ∈ st.marketPrices, p x = true → x.lastUpdated ≤ e.lastUpdated) ∧
    (fetchFromCacheDB env st c r = Completion.normal none ↔
      ∀ e ∈ st.marketPrices, e.cropName ≠ toLowerCase c) ∧
    (∀ p, fetchFromCacheDB env st c r = Completion.normal (some p) →
      p.source = JsVal.str "Cached (Offline)") := by
  have heq := fetchFromCacheDB_eq env st c r hread
  refine ⟨?_, ?_, ?_, ?_, ?_, ?_⟩
  · intro e he
    rw [heq, he]
  · intro h1 e he
    rw [heq, h1]
    simp only [he]
  · intro h1 h2
    rw [heq, h1]
    simp only [h2]
  · intro p e he
    exact findLatest_some p st.marketPrices e he
  · constructor
    · intro hnone
      rw [heq] at hnone
      replace hnone := Completion.normal.inj hnone
      have hany : findLatest (fun e => decide (e.cropName = toLowerCase c))
          st.marketPrices = none := by
        split at hnone
        · cases hnone
        · split at hnone
          · cases hnone
          · simpa using hnone
      intro e he
      have := (findLatest_eq_none_iff _ _).mp hany e he
      simpa using this
    · intro h
      exact fetchFromCacheDB_none env st c r h
  · intro p hp
    exact fetchFromCacheDB_source env st c r p hp

/-- C12 (amended), at the cache that holds rice for Punjab only and a request
for rice in Maharashtra: the third query answers with the entry of Punjab. -/
theorem fetchFromCacheDB_three_tiers_witness :
    fetchFromCacheDB quietEnv punjabRiceStore "rice" (JsVal.str "Maharashtra")
      = Completion.normal ((findLatest (fun e => decide (e.cropName = toLowerCase "rice"))
          punjabRiceStore.marketPrices).map cachedRecord) :=
  (fetchFromCacheDB_three_tiers quietEnv punjabRiceStore "rice" (JsVal.str "Maharashtra")
    (fun _ => rfl)).2.2.1 (by decide!) (by decide!)

/-- C13 (as stated, it fails). The cache holds rice for Punjab at 2000 and the
requested location is `toString`, whose multiplier is not a number: the regions
differ, yet the guard `!Number.isFinite(requestedMultiplier)` of
`adjustPriceByLocation` returns the cached price 2000 as it is, which is not
the rounded product of 2000 by the quotient of the two multipliers. -/
theorem getMarketPrice_cache_hit_unadjusted :
    (getMarketPrice quietEnv punjabRiceStore "rice" (some "toString") false).result.current
      = JsVal.num 2000 ∧
    (getMarketPrice quietEnv punjabRiceStore "rice" (some "toString") false).result.source
      = JsVal.str "Cached (Offline)" ∧
    normalizeLocation (JsVal.str "toString") ≠ normalizeLocation (JsVal.str "Punjab") ∧
    getLocationMultiplier (JsVal.str "rice") (JsVal.str "toString")
      = Completion.normal (JsVal.obj "function toString() \x7b [native code] \x7d") ∧
    getLocationMultiplier (JsVal.str "rice") (JsVal.str "Punjab")
      = Completion.normal (JsVal.num (double 0.97)) ∧
    ((JsVal.num 2000).mul
        ((JsVal.obj "function toString() \x7b [native code] \x7d").div
          (JsVal.num (double 0.97)))).round
      = JsVal.nan := by
  decide!

/-- C13 (amended). On a cache hit, that is when the network is unavailable or
the Live, AI and Alternative tiers have declined and `fetchFromCacheDB` returns
a record, `getMarketPrice` leaves the store as it was and calls nothing after
the read of the cache, so that it makes no call of `saveToCacheDB`. When no
region is requested, when the stored region is empty or when both regions
normalize to the same key, it returns the source `Cached (Offline)` and the
cached prices.
When the normalized regions differ and the reads of the two multipliers do not
throw, it returns the source `Cached (Offline)`, with the cached prices when one
of the multipliers is not a finite number (the guard of
`adjustPriceByLocation`), and, when both are the numbers `m1` (requested) and
`m2` (stored), with every cached price that is a number `v` replaced by
`Math.round(v * (m1 / m2))`, the quotient and the product being the binary64
ones. -/
theorem getMarketPrice_cache_hit (env : Env) (st : Store) (c : String) (r : Option String)
    (hasInternet : Bool) (cached : PriceData)
    (hreach : hasInternet = false ∨
      (liveTier env c r = Completion.normal none ∧
        fetchFromOpenAIProvider env c (commodityFor c) (requestedLocation r)
          = Completion.normal none ∧
        fetchFromAlternativeProvider env st c (commodityFor c) (requestedLocation r)
          = Completion.normal none))
    (hhit : fetchFromCacheDB env st c (requestedLocation r) = Completion.normal (some cached)) :
    (getMarketPrice env st c r hasInternet).store = st ∧
    (getMarketPrice env st c r hasInternet).calls
      = (if hasInternet then [Effect.agmarknet, Effect.openai, Effect.alternative] else [])
        ++ [Effect.cacheRead] ∧
    (((normalizeLocation (requestedLocation r)).truthy = false ∨
      (normalizeLocation cached.location).truthy = false ∨
      normalizeLocation (requestedLocation r) = normalizeLocation cached.location) →
      (getMarketPrice env st c r hasInternet).result.source = JsVal.str "Cached (Offline)" ∧
      (getMarketPrice env st c r hasInternet).result.current = cached.currentPrice ∧
      (getMarketPrice env st c r hasInternet).result.min = cached.minPrice ∧
      (getMarketPrice env st c r hasInternet).result.max = cached.maxPrice) ∧
    (∀ v1 v2 : JsVal,
      (normalizeLocation (requestedLocation r)).truthy = true →
      (normalizeLocation cached.location).truthy = true →
      normalizeLocation (requestedLocation r) ≠ normalizeLocation cached.location →
      getLocationMultiplier (JsVal.str (toLowerCase c))
        (normalizeLocation (requestedLocation r)) = Completion.normal v1 →
      getLocationMultiplier (JsVal.str (toLowerCase c))
        (normalizeLocation cached.location) = Completion.normal v2 →
      (getMarketPrice env st c r hasInternet).result.source = JsVal.str "Cached (Offline)" ∧
      ((v1.isFinite = false ∨ v2.isFinite = false) →
        (getMarketPrice env st c r hasInternet).result.current = cached.currentPrice ∧
        (getMarketPrice env st c r hasInternet).result.min = cached.minPrice ∧
        (getMarketPrice env st c r hasInternet).result.max = cached.maxPrice) ∧
      (∀ m1 m2 : ℚ, v1 = JsVal.num m1 → v2 = JsVal.num m2 →
        (∀ v, cached.currentPrice = JsVal.num v →
          (getMarketPrice env st c r hasInternet).result.current
            = ((JsVal.num v).mul ((JsVal.num m1).div (JsVal.num m2))).round) ∧
        (∀ v, cached.minPrice = JsVal.num v →
          (getMarketPrice env st c r hasInternet).result.min
            = ((JsVal.num v).mul ((JsVal.num m1).div (JsVal.num m2))).round) ∧
        (∀ v, cached.maxPrice = JsVal.num v →
          (getMarketPrice env st c r hasInternet).result.max
            = ((JsVal.num v).mul ((JsVal.num m1).div (JsVal.num m2))).round))) := by
  have hsrc := fetchFromCacheDB_source env st c _ cached hhit
  have hT : getMarketPriceTry env st c r hasInternet
      = offlineTiers env st c (toLowerCase c) (requestedLocation r)
          (if hasInternet then [Effect.agmarknet, Effect.openai, Effect.alternative]
            else []) := by
    rcases hreach with h | ⟨hl, ho, ha⟩
    · subst h
      unfold getMarketPriceTry
      simp
    · cases hasInternet
      · unfold getMarketPriceTry
        simp
      · unfold getMarketPriceTry
        simp [hl, ho, ha]
  have htry : ∀ adjusted, adjustPriceByLocation (JsVal.str (toLowerCase c))
      (requestedLocation r) cached.location cached = Completion.normal adjusted →
      (getMarketPrice env st c r hasInternet).result =
        { cropName := c
          current := adjusted.currentPrice
          min := adjusted.minPrice
          max := adjusted.maxPrice
          unit := adjusted.unit
          currency := adjusted.currency
          location := (adjusted.location.or (requestedLocation r)).or
            (JsVal.str "All-India Average")
          source := adjusted.source } := by
    intro adjusted hadj
    apply getMarketPrice_result_normal
    rw [hT]
    unfold offlineTiers
    simp only [hhit, hadj]
  refine ⟨?_, ?_, ?_, ?_⟩
  · unfold getMarketPrice
    simp only [hT]
    unfold offlineTiers
    simp only [hhit]
    split <;> rfl
  · unfold getMarketPrice
    simp only [hT]
    unfold offlineTiers
    simp only [hhit]
    split <;> rfl
  · intro h
    have hsame : adjustPriceByLocation (JsVal.str (toLowerCase c)) (requestedLocation r)
        cached.location cached = Completion.normal cached := by
      unfold adjustPriceByLocation
      rcases h with h | h | h <;> simp [h]
    rw [htry _ hsame]
    exact ⟨hsrc, rfl, rfl, rfl⟩
  · intro v1 v2 h1 h2 h3 hv1 hv2
    have hguard : (v1.isFinite = false ∨ v2.isFinite = false) →
        adjustPriceByLocation (JsVal.str (toLowerCase c)) (requestedLocation r)
          cached.location cached = Completion.normal cached := by
      intro hnf
      unfold adjustPriceByLocation
      simp only [h1, h2, h3, hv1, hv2, Bool.not_true, Bool.or_self, decide_False,
        Bool.false_eq_true, if_false]
      split
      · rcases hnf with hnf | hnf <;> simp [JsVal.isFinite] at hnf
      · rfl
    have hnum : ∀ m1 m2 : ℚ, v1 = JsVal.num m1 → v2 = JsVal.num m2 →
        adjustPriceByLocation (JsVal.str (toLowerCase c)) (requestedLocation r)
          cached.location cached
          = Completion.normal { cached with
              currentPrice :=
                (match cached.currentPrice.toNumber with
                 | JsVal.num numeric =>
                   ((JsVal.num numeric).mul ((JsVal.num m1).div (JsVal.num m2))).round
                 | _ => cached.currentPrice)
              minPrice :=
                (match cached.minPrice.toNumber with
                 | JsVal.num numeric =>
                   ((JsVal.num numeric).mul ((JsVal.num m1).div (JsVal.num m2))).round
                 | _ => cached.minPrice)
              maxPrice :=
                (match cached.maxPrice.toNumber with
                 | JsVal.num numeric =>
                   ((JsVal.num numeric).mul ((JsVal.num m1).div (JsVal.num m2))).round
                 | _ => cached.maxPrice)
              location := normalizeLocation (requestedLocation r) } := by
      intro m1 m2 e1 e2
      subst e1 e2
      have hm2pos : 0 < m2 := getLocationMultiplier_pos _ _ m2 hv2
      unfold adjustPriceByLocation
      simp [h1, h2, h3, hv1, hv2, ne_of_gt hm2pos]
    have hcases : (v1.isFinite = false ∨ v2.isFinite = false) ∨
        ∃ m1 m2, v1 = JsVal.num m1 ∧ v2 = JsVal.num m2 := by
      cases v1 <;> cases v2 <;> simp [JsVal.isFinite]
    refine ⟨?_, ?_, ?_⟩
    · rcases hcases with hnf | ⟨m1, m2, e1, e2⟩
      · rw [htry _ (hguard hnf)]
        exact hsrc
      · rw [htry _ (hnum m1 m2 e1 e2)]
        exact hsrc
    · intro hnf
      rw [htry _ (hguard hnf)]
      exact ⟨rfl, rfl, rfl⟩
    · intro m1 m2 e1 e2
      rw [htry _ (hnum m1 m2 e1 e2)]
      refine ⟨?_, ?_, ?_⟩ <;> intro v hv <;> simp [hv, JsVal.toNumber]

/-- C13 (amended), at the cache that holds rice for Tamil Nadu at 1950 and a
request for Maharashtra: the price returned is
`Math.round(1950 * (1.06 / 1.04))`, whose binary64 product lies below 1987.5,
that is 1987. -/
theorem getMarketPrice_cache_hit_witness :
    ((JsVal.num 1950).mul ((JsVal.num (double 1.06)).div (JsVal.num (double 1.04)))).round
      = JsVal.num 1987 ∧
    (getMarketPrice quietEnv tamilNaduRiceStore "rice" (some "Maharashtra") false).store
      = tamilNaduRiceStore ∧
    (getMarketPrice quietEnv tamilNaduRiceStore "rice" (some "Maharashtra") false).result.source
      = JsVal.str "Cached (Offline)" ∧
    (getMarketPrice quietEnv tamilNaduRiceStore "rice" (some "Maharashtra") false).result.current
      = ((JsVal.num 1950).mul ((JsVal.num (double 1.06)).div (JsVal.num (double 1.04)))).round :=
  have h := getMarketPrice_cache_hit quietEnv tamilNaduRiceStore "rice" (some "Maharashtra")
    false
    { currentPrice := JsVal.num 1950
      minPrice := JsVal.num 1900
      maxPrice := JsVal.num 2000
      unit := JsVal.str "per quintal"
      currency := JsVal.str "INR"
      location := JsVal.str "Tamil Nadu"
      source := JsVal.str "Cached (Offline)" } (Or.inl rfl) (by decide!)
  have h2 := h.2.2.2 (JsVal.num (double 1.06)) (JsVal.num (double 1.04)) (by decide!)
    (by decide!) (by decide!) (by decide!) (by decide!)
  ⟨by decide!, h.1, h2.1, (h2.2.2 (double 1.06) (double 1.04) rfl rfl).1 1950 rfl⟩

/-- C14. Each adapter completes normally with a record or null, whatever its
input, the environment and the store: what its block `try` throws is caught at
its boundary. And each upstream failure is such a throw that ends in null:
`fetchFromAgmarknet` when every request fails after its retries,
`fetchFromOpenAIProvider` when the completion or `JSON.parse` throws,
`fetchFromAlternativeProvider`, `fetchFromCropProfilePrice` and
`fetchFromCacheDB` when their read of the database is rejected (and
`fetchFromCropProfilePrice` also when the expression does not compile). -/
theorem adapters_return_null_on_failure (env : Env) (st : Store) (cropName : String)
    (commodity mandi location : JsVal) :
    (∃ r, fetchFromAgmarknet env commodity mandi location = Completion.normal r) ∧
    (∃ r, fetchFromOpenAIProvider env cropName commodity location = Completion.normal r) ∧
    (∃ r, fetchFromAlternativeProvider env st cropName commodity location
      = Completion.normal r) ∧
    (∃ r, fetchFromCropProfilePrice env st cropName = Completion.normal r) ∧
    (∃ r, fetchFromCacheDB env st cropName location = Completion.normal r) ∧
    ((∀ f v, env.http (jsString commodity) f v = HttpOutcome.failure) →
      (∃ e, fetchFromAgmarknetTry env commodity mandi location = Completion.throws e) ∧
      fetchFromAgmarknet env commodity mandi location = Completion.normal none) ∧
    (env.openaiClient = true →
      env.openai (jsString (commodity.or (JsVal.str cropName)))
        (jsString (location.or (JsVal.str "All-India"))) = AiReply.failure →
      (∃ e, fetchFromOpenAIProviderTry env cropName commodity location
        = Completion.throws e) ∧
      fetchFromOpenAIProvider env cropName commodity location = Completion.normal none) ∧
    (env.altReadFails = true →
      (∃ e, fetchFromAlternativeProviderTry env st cropName commodity location
        = Completion.throws e) ∧
      fetchFromAlternativeProvider env st cropName commodity location
        = Completion.normal none) ∧
    (env.cropReadFails = true ∨ env.cropRegex cropName = none →
      (∃ e, fetchFromCropProfilePriceTry env st cropName = Completion.throws e) ∧
      fetchFromCropProfilePrice env st cropName = Completion.normal none) ∧
    (env.cacheReadFails 1 = true →
      (∃ e, fetchFromCacheDBTry env st cropName location = Completion.throws e) ∧
      fetchFromCacheDB env st cropName location = Completion.normal none) := by
  have hthrow : ∀ (body : Completion (Option PriceData)),
      (∃ e, body = Completion.throws e) →
      (∃ e, body = Completion.throws e) ∧
        tryCatch body (fun _ => Completion.normal none) = Completion.normal none := by
    rintro body ⟨e, he⟩
    exact ⟨⟨e, he⟩, by rw [he]; rfl⟩
  refine ⟨tryCatch_completes _, tryCatch_completes _, tryCatch_completes _,
    tryCatch_completes _, tryCatch_completes _, ?_, ?_, ?_, ?_, ?_⟩
  · intro h
    apply hthrow
    unfold fetchFromAgmarknetTry agmarknetByMandi agmarknetCommodityWide requestWithRetry
    simp only [h]
    split_ifs <;> exact ⟨_, rfl⟩
  · intro hc h
    apply hthrow
    unfold fetchFromOpenAIProviderTry
    simp only [hc, h, Bool.not_true, Bool.false_eq_true, if_false]
    exact ⟨_, rfl⟩
  · intro h
    apply hthrow
    unfold fetchFromAlternativeProviderTry
    split
    · exact ⟨_, rfl⟩
    · simp only [h, if_true]
      exact ⟨_, rfl⟩
  · intro h
    apply hthrow
    unfold fetchFromCropProfilePriceTry
    rcases h with h | h
    · split
      · exact ⟨_, rfl⟩
      · simp only [h, if_true]
        exact ⟨_, rfl⟩
    · rw [h]
      exact ⟨_, rfl⟩
  · intro h
    apply hthrow
    unfold fetchFromCacheDBTry
    simp only [h, if_true]
    exact ⟨_, rfl⟩

/-- C14, at an environment in which every request, the completion and every
read of the database fail: each adapter returns null; and at the commodity
`constructor`, for which the block `try` of the Alternative adapter throws a
`TypeError` that the adapter turns into null. -/
theorem adapters_return_null_on_failure_witness :
    fetchFromAlternativeProviderTry quietEnv emptyStore "constructor"
      (commodityFor "constructor") JsVal.null
        = Completion.throws { message := "TypeError: toLowerCase is not a function" } ∧
    (∃ r, fetchFromAlternativeProvider quietEnv emptyStore "constructor"
      (commodityFor "constructor") JsVal.null = Completion.normal r) ∧
    fetchFromAgmarknet (aiEnvDatabaseDown AiReply.failure) (JsVal.str "Rice")
      (JsVal.str "Chandigarh") (JsVal.str "Punjab") = Completion.normal none ∧
    fetchFromOpenAIProvider (aiEnvDatabaseDown AiReply.failure) "rice" (JsVal.str "Rice")
      (JsVal.str "Punjab") = Completion.normal none ∧
    fetchFromAlternativeProvider (aiEnvDatabaseDown AiReply.failure) punjabRiceStore "rice"
      (JsVal.str "Rice") (JsVal.str "Punjab") = Completion.normal none ∧
    fetchFromCropProfilePrice (aiEnvDatabaseDown AiReply.failure) punjabRiceStore "rice"
      = Completion.normal none ∧
    fetchFromCacheDB (aiEnvDatabaseDown AiReply.failure) punjabRiceStore "rice"
      (JsVal.str "Punjab") = Completion.normal none :=
  have h := adapters_return_null_on_failure (aiEnvDatabaseDown AiReply.failure)
    punjabRiceStore "rice" (JsVal.str "Rice") (JsVal.str "Chandigarh") (JsVal.str "Punjab")
  ⟨by decide!,
    (adapters_return_null_on_failure quietEnv emptyStore "constructor"
      (commodityFor "constructor") JsVal.null JsVal.null).2.2.1,
    (h.2.2.2.2.2.1 (fun _ _ => rfl)).2, (h.2.2.2.2.2.2.1 rfl rfl).2,
    (h.2.2.2.2.2.2.2.1 rfl).2, (h.2.2.2.2.2.2.2.2.1 (Or.inl rfl)).2,
    (h.2.2.2.2.2.2.2.2.2 rfl).2⟩

/-- C15 (the code breaks it). The empty string and a string of white space are
not numeric, yet `Number('')` is 0, which is finite: `parseNumeric` returns 0
for both and not null. The text `2,500` gives 2500 and null gives null, as the
claim says. -/
theorem parseNumeric_blank_is_zero :
    parseNumeric (JsVal.str "") = JsVal.num 0 ∧
    parseNumeric (JsVal.str "   ") = JsVal.num 0 ∧
    parseNumeric (JsVal.str "2,500") = JsVal.num 2500 ∧
    parseNumeric JsVal.null = JsVal.null ∧
    parseNumeric (JsVal.str "NR") = JsVal.null := by
  decide!

/-- C16. The current price of `normalizeAgmarknetRecord` is the parsed modal
price when it is not null, otherwise the parsed max price when it is not null,
otherwise the parsed min price; the function returns null exactly when the
record is missing or the three parsed prices are null. -/
theorem normalizeAgmarknetRecord_priority (record : RawRecord) :
    (normalizeAgmarknetRecord record).map (fun n => n.currentPrice)
      = (if parseNumeric record.modal_price ≠ JsVal.null then
           some (parseNumeric record.modal_price)
         else if parseNumeric record.max_price ≠ JsVal.null then
           some (parseNumeric record.max_price)
         else if parseNumeric record.min_price ≠ JsVal.null then
           some (parseNumeric record.min_price)
         else none) ∧
    (∀ v : Option RawRecord, normalizeAgmarknetValue v = none ↔
      (v = none ∨ ∃ r, v = some r ∧ parseNumeric r.modal_price = JsVal.null ∧
        parseNumeric r.max_price = JsVal.null ∧ parseNumeric r.min_price = JsVal.null)) := by
  have hnone : ∀ r : RawRecord, normalizeAgmarknetRecord r = none ↔
      (parseNumeric r.modal_price = JsVal.null ∧ parseNumeric r.max_price = JsVal.null ∧
        parseNumeric r.min_price = JsVal.null) := by
    intro r
    unfold normalizeAgmarknetRecord
    rcases parseNumeric_shape r.modal_price with h1 | ⟨a, h1⟩ <;>
    rcases parseNumeric_shape r.max_price with h2 | ⟨b, h2⟩ <;>
    rcases parseNumeric_shape r.min_price with h3 | ⟨d, h3⟩ <;>
    simp [h1, h2, h3, JsVal.nullish]
  constructor
  · unfold normalizeAgmarknetRecord
    rcases parseNumeric_shape record.modal_price with h1 | ⟨a, h1⟩ <;>
    rcases parseNumeric_shape record.max_price with h2 | ⟨b, h2⟩ <;>
    rcases parseNumeric_shape record.min_price with h3 | ⟨d, h3⟩ <;>
    simp [h1, h2, h3, JsVal.nullish]
  · intro v
    cases v with
    | none => simp [normalizeAgmarknetValue]
    | some r =>
      simp only [normalizeAgmarknetValue, hnone r]
      constructor
      · intro h; exact Or.inr ⟨r, rfl, h⟩
      · rintro (h | ⟨r2, h, h2⟩)
        · cases h
        · cases h; exact h2

/-- C17 (as stated, it fails). The list holds a record of Punjab without any
price and a record of Haryana with the modal price 2300, and Punjab is
requested: the records of Punjab alone are kept, none of them has a price, and
`pickTopMandiRecord` returns null although the list holds a record with a
parsable price. -/
theorem pickTopMandiRecord_null_with_priced_record :
    pickTopMandiRecord [punjabRecordWithoutPrice, haryanaRecord] (JsVal.str "Punjab") = none ∧
    (normalizeAgmarknetRecord haryanaRecord).map (fun n => n.currentPrice)
      = some (JsVal.num 2300) := by
  decide!

/-- C17 (amended). Let the kept records be those whose state normalizes to the
requested one when a state is requested and some record matches, else all the
records. `pickTopMandiRecord` returns null exactly when no kept record has a
parsable price (so also for the empty list); otherwise it returns the
normalization of a kept record such that every kept record with a parsable
price has an earlier arrival time, or the same time and a smaller modal price,
or the same of both and a max price that is not greater (a missing modal or max
price counting as -1). -/
theorem pickTopMandiRecord_best (records : List RawRecord) (stateName : JsVal) :
    (pickTopMandiRecord records stateName = none ↔
      ∀ r ∈ stateFiltered records stateName, normalizeAgmarknetRecord r = none) ∧
    (∀ n, pickTopMandiRecord records stateName = some n →
      ∃ r ∈ stateFiltered records stateName, normalizeAgmarknetRecord r = some n ∧
        ∀ r2 ∈ stateFiltered records stateName, ∀ n2,
          normalizeAgmarknetRecord r2 = some n2 →
          (parseArrivalDate r2 < parseArrivalDate r ∨
            (parseArrivalDate r2 = parseArrivalDate r ∧
              (priceOrMinusOne n2.modalPrice < priceOrMinusOne n.modalPrice ∨
                (priceOrMinusOne n2.modalPrice = priceOrMinusOne n.modalPrice ∧
                  priceOrMinusOne n2.maxPrice ≤ priceOrMinusOne n.maxPrice))))) := by
  have hpick := pickTopMandiRecord_eq records stateName
  constructor
  · by_cases hemp : records.isEmpty = true
    · have hnil : records = [] := List.isEmpty_iff.mp hemp
      subst hnil
      rw [hpick]
      simp [stateFiltered_nil]
    · rw [hpick, if_neg hemp]
      cases hs : ((stateFiltered records stateName).filterMap scoreRecord).insertionSort
          scoredBefore with
      | nil =>
        simp only [true_iff]
        intro r hr
        by_contra hne
        have hsc : scoreRecord r ≠ none := fun h => hne ((scoreRecord_eq_none_iff r).mp h)
        obtain ⟨x, hx⟩ := Option.ne_none_iff_exists'.mp hsc
        have hmem : x ∈ (stateFiltered records stateName).filterMap scoreRecord :=
          List.mem_filterMap.mpr ⟨r, hr, hx⟩
        have hmem2 := (List.perm_insertionSort scoredBefore _).symm.subset hmem
        rw [hs] at hmem2
        exact absurd hmem2 (List.not_mem_nil _)
      | cons top rest =>
        have hmem : top ∈ top :: rest := List.mem_cons_self _ _
        rw [← hs] at hmem
        replace hmem := (List.perm_insertionSort scoredBefore _).subset hmem
        obtain ⟨r, hr, hx⟩ := List.mem_filterMap.mp hmem
        constructor
        · intro h; cases h
        · intro h
          have := h r hr
          rw [(scoreRecord_some r top hx).1] at this
          cases this
  · intro n hn
    rw [hpick] at hn
    split_ifs at hn with hemp
    split at hn
    · cases hn
    · next top rest hs =>
      cases hn
      have hmem : top ∈ top :: rest := List.mem_cons_self _ _
      rw [← hs] at hmem
      replace hmem := (List.perm_insertionSort scoredBefore _).subset hmem
      obtain ⟨r, hr, hx⟩ := List.mem_filterMap.mp hmem
      obtain ⟨h1, h2, h3, h4⟩ := scoreRecord_some r top hx
      refine ⟨r, hr, h1, ?_⟩
      intro r2 hr2 n2 hn2
      have hsc2 := scoreRecord_of_normalized r2 n2 hn2
      have hmem2 := List.mem_filterMap.mpr ⟨r2, hr2, hsc2⟩
      have hbefore := insertionSort_head_first _ rest top hs _ hmem2
      rw [scoredBefore_iff] at hbefore
      simpa [h2, h3, h4] using hbefore

/-- C17 (amended), at the records of Punjab without price and of Haryana with
the modal price 2300, without a requested state: the record of Haryana is the
only one with a price and its normalization is returned. -/
theorem pickTopMandiRecord_best_witness :
    ∃ r ∈ stateFiltered [punjabRecordWithoutPrice, haryanaRecord] JsVal.null,
      normalizeAgmarknetRecord r
        = some { currentPrice := JsVal.num 2300
                 minPrice := JsVal.num 2200
                 maxPrice := JsVal.num 2400
                 modalPrice := JsVal.num 2300
                 unit := JsVal.str "per quintal"
                 currency := JsVal.str "INR"
                 arrivalDate := JsVal.null
                 mandiName := JsVal.str "Karnal"
                 stateName := JsVal.str "Haryana" } :=
  have h := (pickTopMandiRecord_best [punjabRecordWithoutPrice, haryanaRecord]
    JsVal.null).2 _ (show pickTopMandiRecord [punjabRecordWithoutPrice, haryanaRecord]
      JsVal.null = some { currentPrice := JsVal.num 2300
                          minPrice := JsVal.num 2200
                          maxPrice := JsVal.num 2400
                          modalPrice := JsVal.num 2300
                          unit := JsVal.str "per quintal"
                          currency := JsVal.str "INR"
                          arrivalDate := JsVal.null
                          mandiName := JsVal.str "Karnal"
                          stateName := JsVal.str "Haryana" } from by decide!)
  h.elim (fun r hr => ⟨r, hr.1, hr.2.1⟩)

/-- C18 (as stated, it fails). Punjab is requested and the only record is one
of Haryana: no record matches the state, the whole list is kept, and
`pickTopMandiRecord` returns the record of Haryana. -/
theorem pickTopMandiRecord_other_state :
    (pickTopMandiRecord [haryanaRecord] (JsVal.str "Punjab")).map (fun n => n.stateName)
      = some (JsVal.str "Haryana") ∧
    normalizeLocation (JsVal.str "Haryana") ≠ normalizeLocation (JsVal.str "Punjab") := by
  decide!

/-- C18 (amended). For a requested region that normalizes to a key: when some
record of the list has a state that normalizes to that key, the state of every
record that `pickTopMandiRecord` returns normalizes to it; when no record
does, the whole list is kept and the record returned may be of any state. -/
theorem pickTopMandiRecord_state (records : List RawRecord) (s : JsVal)
    (hreq : (normalizeLocation s).truthy = true) :
    ((∃ r ∈ records,
        normalizeLocation ((r.state.or r.state_name).or (JsVal.str "")) = normalizeLocation s) →
      ∀ n, pickTopMandiRecord records s = some n →
        normalizeLocation n.stateName = normalizeLocation s) ∧
    ((¬ ∃ r ∈ records,
        normalizeLocation ((r.state.or r.state_name).or (JsVal.str "")) = normalizeLocation s) →
      stateFiltered records s = records) := by
  constructor
  · rintro ⟨r0, hr0, hmatch⟩ n hn
    obtain ⟨r, hr, hnorm⟩ := pickTopMandiRecord_mem records s n hn
    have hfilt : stateFiltered records s = records.filter (fun r =>
        (normalizeLocation ((r.state.or r.state_name).or (JsVal.str ""))).truthy &&
        decide (normalizeLocation ((r.state.or r.state_name).or (JsVal.str ""))
          = normalizeLocation s)) := by
      have hmem0 : r0 ∈ records.filter (fun r =>
          (normalizeLocation ((r.state.or r.state_name).or (JsVal.str ""))).truthy &&
          decide (normalizeLocation ((r.state.or r.state_name).or (JsVal.str ""))
            = normalizeLocation s)) := by
        apply List.mem_filter.mpr
        refine ⟨hr0, ?_⟩
        simp only [hmatch, hreq, Bool.true_and, decide_eq_true_eq]
      have hlen : 0 < (records.filter (fun r =>
          (normalizeLocation ((r.state.or r.state_name).or (JsVal.str ""))).truthy &&
          decide (normalizeLocation ((r.state.or r.state_name).or (JsVal.str ""))
            = normalizeLocation s))).length := List.length_pos_of_mem hmem0
      unfold stateFiltered
      simp only [hreq, Bool.true_and]
      rw [if_pos (by simpa using hlen)]
    rw [hfilt] at hr
    have hcond := (List.mem_filter.mp hr).2
    simp only [Bool.and_eq_true, decide_eq_true_eq] at hcond
    rw [normalizeAgmarknetRecord_stateName r n hnorm, normalizeLocation_or_null]
    exact hcond.2
  · intro hno
    unfold stateFiltered
    have hempty : records.filter (fun r =>
        (normalizeLocation ((r.state.or r.state_name).or (JsVal.str ""))).truthy &&
        decide (normalizeLocation ((r.state.or r.state_name).or (JsVal.str ""))
          = normalizeLocation s)) = [] := by
      apply List.filter_eq_nil_iff.mpr
      intro r hr hc
      simp only [Bool.and_eq_true, decide_eq_true_eq] at hc
      exact hno ⟨r, hr, hc.2⟩
    simp only [hempty]
    simp

/-- C18 (amended), at the records of Punjab without price and of Haryana and the
requested state `hr`: the record returned is of Haryana, the key of `hr`. -/
theorem pickTopMandiRecord_state_witness :
    (pickTopMandiRecord [punjabRecordWithoutPrice, haryanaRecord] (JsVal.str "hr")).map
      (fun n => n.stateName) = some (JsVal.str "Haryana") ∧
    normalizeLocation (JsVal.str "Haryana") = normalizeLocation (JsVal.str "hr") :=
  ⟨by decide!,
   (pickTopMandiRecord_state [punjabRecordWithoutPrice, haryanaRecord] (JsVal.str "hr")
      (by decide!)).1
    ⟨haryanaRecord, by decide!, by decide!⟩
    { currentPrice := JsVal.num 2300
      minPrice := JsVal.num 2200
      maxPrice := JsVal.num 2400
      modalPrice := JsVal.num 2300
      unit := JsVal.str "per quintal"
      currency := JsVal.str "INR"
      arrivalDate := JsVal.null
      mandiName := JsVal.str "Karnal"
      stateName := JsVal.str "Haryana" }
    (by decide!)⟩

/-- C19 (the code breaks it). The location `toString` is an entry of neither
multiplier table, yet the read `defaultStateMultipliers['toString']` finds the
method inherited from `Object.prototype`, which is truthy:
`getLocationMultiplier` returns that function and not the number
`0.95 + (S mod 11) / 100`, which is 0.95 for this key (S = 858). -/
theorem getLocationMultiplier_inherited_member :
    normalizeLocation (JsVal.str "toString") = JsVal.str "toString" ∧
    defaultStateMultipliers.lookup "toString" = none ∧
    (locationPriceVariation.lookup "rice").isNone = true ∧
    getLocationMultiplier (JsVal.str "rice") (JsVal.str "toString")
      = Completion.normal (JsVal.obj "function toString() \x7b [native code] \x7d") ∧
    locationHash "toString" = 858 ∧
    (JsVal.num (double 0.95)).add
      ((JsVal.num ((locationHash "toString" % 11 : Nat) : ℚ)).div (JsVal.num 100))
        = JsVal.num (double 0.95) := by
  decide!

/-- C20 (the code breaks it). The sentinel `All-India` is an entry of no
multiplier table and is treated as an unknown state: its character codes sum to
811, and `getLocationMultiplier` returns 0.95 + 8/100 = 1.03 for it, not 1. So
`adjustPriceByLocation` from `All-India` to Punjab turns the price 1030 into
`round(1030 * (0.97 / 1.03))`, that is 970, and not into
`round(1030 * 0.97)`, that is 999. -/
theorem getLocationMultiplier_all_india :
    locationHash "All-India" = 811 ∧
    getLocationMultiplier (JsVal.str "rice") (JsVal.str "All-India")
      = Completion.normal (JsVal.num (double 1.03)) ∧
    getLocationMultiplier (JsVal.str "rice") (JsVal.str "Punjab")
      = Completion.normal (JsVal.num (double 0.97)) ∧
    adjustPriceByLocation (JsVal.str "rice") (JsVal.str "Punjab") (JsVal.str "All-India")
      { currentPrice := JsVal.num 1030, minPrice := JsVal.num 1030,
        maxPrice := JsVal.num 1030 }
      = Completion.normal {
          currentPrice := JsVal.num 970
          minPrice := JsVal.num 970
          maxPrice := JsVal.num 970
          location := JsVal.str "Punjab" } ∧
    ((JsVal.num 1030).mul (JsVal.num (double 0.97))).round = JsVal.num 999 := by
  decide!

/-- C21 (as stated, it fails). The string `Atlantis` matches no alias and no
canonical region, and `normalizeLocation` returns it as it is, not null. -/
theorem normalizeLocation_keeps_unknown :
    stateAliases.lookup (toLowerCase (cleanLocation "Atlantis")) = none ∧
    normalizeLocation (JsVal.str "Atlantis") = JsVal.str "Atlantis" := by
  decide!

/-- C21 (amended). For a string whose cleaned form (trimmed, with every run of
white space collapsed to one space) is not empty and, in lower case, is neither
a key of the alias table nor the name of a member of `Object.prototype`,
`normalizeLocation` returns the cleaned string itself; it returns null for the
empty string, for a string of white space only and for every value that is not
a string. -/
theorem normalizeLocation_unresolved (s : String) :
    (cleanLocation s ≠ "" →
      stateAliases.lookup (toLowerCase (cleanLocation s)) = none →
      protoMembers.contains (toLowerCase (cleanLocation s)) = false →
      normalizeLocation (JsVal.str s) = JsVal.str (cleanLocation s)) ∧
    ((∀ c ∈ s.data, isWs c = true) → normalizeLocation (JsVal.str s) = JsVal.null) ∧
    normalizeLocation (JsVal.str "") = JsVal.null ∧
    (∀ v : JsVal, (∀ t, v ≠ JsVal.str t) → normalizeLocation v = JsVal.null) := by
  refine ⟨?_, ?_, rfl, ?_⟩
  · intro hc hl hp
    have hs : s ≠ "" := by
      intro h
      subst h
      exact hc (by decide)
    unfold normalizeLocation
    simp only [hs, hc, if_false]
    unfold jsGet inheritedMember
    simp only [hl, hp, Bool.false_eq_true, if_false, JsVal.or, JsVal.truthy]
  · intro hws
    have hdrop : s.data.dropWhile isWs = [] := by
      rw [List.dropWhile_eq_nil_iff]
      exact hws
    have hclean : cleanLocation s = "" := by
      unfold cleanLocation trimChars
      rw [hdrop]
      rfl
    unfold normalizeLocation
    simp only [hclean]
    split_ifs <;> rfl
  · intro v hv
    cases v with
    | str t => exact absurd rfl (hv t)
    | undefined => rfl
    | null => rfl
    | bool b => rfl
    | num q => rfl
    | inf b => rfl
    | nan => rfl
    | obj x => rfl

/-- C21 (amended), at the strings `  Atlantis  city ` and of three blanks. -/
theorem normalizeLocation_unresolved_witness :
    normalizeLocation (JsVal.str "  Atlantis  city ") = JsVal.str "Atlantis city" ∧
    normalizeLocation (JsVal.str "   ") = JsVal.null :=
  ⟨(normalizeLocation_unresolved "  Atlantis  city ").1 (by decide) (by decide!) (by decide!),
   (normalizeLocation_unresolved "   ").2.1 (by decide)⟩

/-- C22. For every key `k` of the alias table with the value `v` and every
string whose cleaned form (trimmed, with every run of white space collapsed to
one space) is `k` in lower case, `normalizeLocation` returns `v`. -/
theorem normalizeLocation_alias (s k v : String)
    (hk : stateAliases.lookup k = some v)
    (hs : toLowerCase (cleanLocation s) = k) :
    normalizeLocation (JsVal.str s) = JsVal.str v := by
  have hv := (stateAliases_canonical _ (lookup_eq_some_mem _ _ _ hk)).2
  simp only at hv
  have hnone : stateAliases.lookup "" = none := by decide
  have hkne : k ≠ "" := by
    intro h
    subst h
    rw [hnone] at hk
    exact Option.noConfusion hk
  have hc : cleanLocation s ≠ "" := by
    intro h
    rw [h] at hs
    exact hkne (hs ▸ rfl)
  have hsne : s ≠ "" := by
    intro h
    subst h
    exact hc (by decide)
  unfold normalizeLocation
  simp only [hsne, hc, if_false, hs]
  unfold jsGet
  simp [hk, JsVal.or, JsVal.truthy, hv]

/-- C22, at the strings `  TAMIL   nadu ` and `tn`. -/
theorem normalizeLocation_alias_witness :
    normalizeLocation (JsVal.str "  TAMIL   nadu ") = JsVal.str "Tamil Nadu" ∧
    normalizeLocation (JsVal.str "tn") = JsVal.str "Tamil Nadu" :=
  ⟨normalizeLocation_alias "  TAMIL   nadu " "tamil nadu" "Tamil Nadu" (by decide)
     (by decide!),
   normalizeLocation_alias "tn" "tn" "Tamil Nadu" (by decide) (by decide!)⟩

/-- C23 (as stated, it fails). No step of `normalizeLocation` removes a country
suffix: `Punjab, India` is returned as it is, while `Punjab` gives `Punjab`. -/
theorem normalizeLocation_keeps_country_suffix :
    normalizeLocation (JsVal.str "Punjab, India") = JsVal.str "Punjab, India" ∧
    normalizeLocation (JsVal.str "Punjab") = JsVal.str "Punjab" := by
  decide!

/-- C23 (amended). For every canonical region `R` of the alias table,
`normalizeLocation` returns `R` for `R` and for `R` in lower case, and returns
`R` followed by `, India` unchanged: the country suffix is not stripped and the
result is not the key of `R`. -/
theorem normalizeLocation_country_suffix_kept :
    ∀ p ∈ stateAliases,
      normalizeLocation (JsVal.str p.2) = JsVal.str p.2 ∧
      normalizeLocation (JsVal.str (toLowerCase p.2)) = JsVal.str p.2 ∧
      normalizeLocation (JsVal.str (p.2 ++ ", India")) = JsVal.str (p.2 ++ ", India") ∧
      p.2 ++ ", India" ≠ p.2 := by
  decide!

/-- C23 (amended), at the region Punjab. -/
theorem normalizeLocation_country_suffix_kept_witness :
    normalizeLocation (JsVal.str "Punjab") = JsVal.str "Punjab" ∧
    normalizeLocation (JsVal.str "punjab") = JsVal.str "Punjab" ∧
    normalizeLocation (JsVal.str "Punjab, India") = JsVal.str "Punjab, India" ∧
    "Punjab" ++ ", India" ≠ "Punjab" :=
  normalizeLocation_country_suffix_kept ("punjab", "Punjab") (by decide)

/-- C24 (as stated, it fails). With an upstream service that answers every
request and a database that rejects every update of the cache,
`refreshAllPrices` calls the adapter for the 195 pairs and returns 195, while
no entry of the cache has been written. -/
theorem refreshAllPrices_counts_rejected_updates :
    (refreshAllPrices none (fun _ _ => liveEnvFailingWrite [punjabRiceRecord])
      emptyStore).calls.length = 195 ∧
    (refreshAllPrices none (fun _ _ => liveEnvFailingWrite [punjabRiceRecord])
      emptyStore).updated = 195 ∧
    (refreshAllPrices none (fun _ _ => liveEnvFailingWrite [punjabRiceRecord])
      emptyStore).store = emptyStore := by
  decide!

/-- C25 (as stated, it fails). The constant `AGMARKNET_API_KEY` is not empty
when the setting is unset and when it is the empty string, and with either
setting `refreshAllPrices` calls the adapter for the 195 pairs, writes 195
entries to the cache and returns 195. -/
theorem refreshAllPrices_runs_without_credential :
    AGMARKNET_API_KEY none ≠ "" ∧ AGMARKNET_API_KEY (some "") ≠ "" ∧
    (refreshAllPrices none (fun _ _ => liveEnv [punjabRiceRecord]) emptyStore).calls.length
      = 195 ∧
    (refreshAllPrices none (fun _ _ => liveEnv [punjabRiceRecord]) emptyStore).updated = 195 ∧
    (refreshAllPrices none (fun _ _ => liveEnv [punjabRiceRecord])
      emptyStore).store.marketPrices.length = 195 ∧
    (refreshAllPrices (some "") (fun _ _ => liveEnv [punjabRiceRecord]) emptyStore).updated
      = 195 := by
  decide!

/-- C26 (as stated, it fails). For the commodity name `constructor` the read
`cropToCommodity[cropLower]` gives an inherited function, on which the
Alternative adapter throws and returns null: with the network, a store that
rejects nothing and no answer from the Live and the AI tiers, `getMarketPrice`
goes on to the cache, the stored crop price and the static ranges. -/
theorem getMarketPrice_online_reaches_static_ranges :
    commodityFor "constructor" = JsVal.obj "function Object() \x7b [native code] \x7d" ∧
    fetchFromAlternativeProvider quietEnv emptyStore "constructor" (commodityFor "constructor")
      JsVal.null = Completion.normal none ∧
    (getMarketPrice quietEnv emptyStore "constructor" none true).calls =
      [Effect.agmarknet, Effect.openai, Effect.alternative, Effect.cacheRead,
        Effect.cropProfile] ∧
    (getMarketPrice quietEnv emptyStore "constructor" none true).result.source
      = JsVal.str "Mock Data" ∧
    (getMarketPrice quietEnv emptyStore "constructor" none true).result.current = JsVal.nan := by
  decide!

/-- C27. When `fetchFromAgmarknet` returns a record to `getMarketPrice`, the
record is not tagged `Agmarknet (Commodity Fallback)` if a location is
requested (the commodity-wide stage then tags it `Agmarknet (State Best
Mandi)`), the object `normalized` of the Live tier is built from the record
without a regional adjustment, and, when the record has a numeric price,
`getMarketPrice` answers from the Live tier with the prices of the record. -/
theorem getMarketPrice_live_unadjusted (env : Env) (st : Store) (cropName : String)
    (location : Option String) (api : PriceData)
    (hapi : fetchFromAgmarknet env (commodityFor cropName)
      (mandiFor (requestedLocation location)) (requestedLocation location)
        = Completion.normal (some api)) :
    ((requestedLocation location).truthy = true →
      api.source ≠ JsVal.str "Agmarknet (Commodity Fallback)") ∧
    (∀ rec, (requestedLocation location).truthy = true →
      agmarknetCommodityWide env (commodityFor cropName) (requestedLocation location)
        = Completion.normal (some rec) →
      rec.source = JsVal.str "Agmarknet (State Best Mandi)") ∧
    liveNormalized env (toLowerCase cropName) (requestedLocation location)
        (mandiFor (requestedLocation location)) api (liveNumericCurrent api) =
      Completion.normal {
        currentPrice := liveNumericCurrent api
        minPrice := if api.minPrice.truthy then api.minPrice.toNumber else JsVal.null
        maxPrice := if api.maxPrice.truthy then api.maxPrice.toNumber else JsVal.null
        modalPrice := if api.modalPrice.truthy then api.modalPrice.toNumber else JsVal.null
        unit := api.unit.or (JsVal.str "per quintal")
        currency := api.currency.or (JsVal.str "INR")
        arrivalDate := api.arrivalDate.or (JsVal.str env.nowIso)
        mandiName := (api.mandiName.or (mandiFor (requestedLocation location))).or JsVal.null
        source := api.source.or (JsVal.str "Agmarknet") } ∧
    (liveNumericCurrent api ≠ JsVal.null →
      (getMarketPrice env st cropName location true).result.source
        = JsVal.str "Agmarknet (Live)" ∧
      (getMarketPrice env st cropName location true).result.current = liveNumericCurrent api ∧
      (getMarketPrice env st cropName location true).result.min
        = (if api.minPrice.truthy then api.minPrice.toNumber else JsVal.null) ∧
      (getMarketPrice env st cropName location true).result.max
        = (if api.maxPrice.truthy then api.maxPrice.toNumber else JsVal.null)) := by
  obtain ⟨_, hsrc, hfall⟩ := fetchFromAgmarknet_some _ _ _ _ _ hapi
  have hnorm := liveNormalized_unadjusted env (toLowerCase cropName)
    (requestedLocation location) (mandiFor (requestedLocation location)) api
    (liveNumericCurrent api) hsrc hfall
  refine ⟨hfall, ?_, hnorm, ?_⟩
  · intro rec hl hw
    exact (agmarknetCommodityWide_some _ _ _ _ hw).2.2 hl
  · intro hcur
    have hlive : liveTier env cropName location = Completion.normal (some {
        currentPrice := liveNumericCurrent api
        minPrice := if api.minPrice.truthy then api.minPrice.toNumber else JsVal.null
        maxPrice := if api.maxPrice.truthy then api.maxPrice.toNumber else JsVal.null
        modalPrice := if api.modalPrice.truthy then api.modalPrice.toNumber else JsVal.null
        unit := api.unit.or (JsVal.str "per quintal")
        currency := api.currency.or (JsVal.str "INR")
        arrivalDate := api.arrivalDate.or (JsVal.str env.nowIso)
        mandiName := (api.mandiName.or (mandiFor (requestedLocation location))).or JsVal.null
        source := api.source.or (JsVal.str "Agmarknet") }) := by
      unfold liveTier
      rw [hapi]
      simp only [hcur, if_false, hnorm]
    unfold getMarketPrice getMarketPriceTry
    simp only [if_true, hlive]
    exact ⟨trivial, trivial, trivial, trivial⟩

/-- C27, at a request for rice in Maharashtra that the upstream service answers
with a record of Punjab: the record is tagged `Agmarknet (State Best Mandi)`
and its prices 2400, 2500 and 2600 are returned as they are. -/
theorem getMarketPrice_live_unadjusted_witness :
    fetchFromAgmarknet (liveEnv [punjabRiceRecord]) (commodityFor "rice")
      (mandiFor (requestedLocation (some "Maharashtra")))
      (requestedLocation (some "Maharashtra")) = Completion.normal (some punjabRiceBest) ∧
    (getMarketPrice (liveEnv [punjabRiceRecord]) emptyStore "rice" (some "Maharashtra")
      true).result.source = JsVal.str "Agmarknet (Live)" ∧
    (getMarketPrice (liveEnv [punjabRiceRecord]) emptyStore "rice" (some "Maharashtra")
      true).result.current = JsVal.num 2500 ∧
    (getMarketPrice (liveEnv [punjabRiceRecord]) emptyStore "rice" (some "Maharashtra")
      true).result.min = JsVal.num 2400 ∧
    (getMarketPrice (liveEnv [punjabRiceRecord]) emptyStore "rice" (some "Maharashtra")
      true).result.max = JsVal.num 2600 := by
  have hapi : fetchFromAgmarknet (liveEnv [punjabRiceRecord]) (commodityFor "rice")
      (mandiFor (requestedLocation (some "Maharashtra")))
      (requestedLocation (some "Maharashtra")) = Completion.normal (some punjabRiceBest) := by
    decide!
  have hcur : liveNumericCurrent punjabRiceBest = JsVal.num 2500 := by decide!
  have h := (getMarketPrice_live_unadjusted (liveEnv [punjabRiceRecord]) emptyStore "rice"
    (some "Maharashtra") punjabRiceBest hapi).2.2.2 (by decide!)
  rw [hcur] at h
  exact ⟨hapi, h.1, h.2.1, h.2.2.1, h.2.2.2⟩

/-- C28 (as stated, it fails). A null bound becomes the number 0: for rice,
from Punjab to Maharashtra, the record with the current price 2000 and null
bounds comes back with both bounds 0; and after the tier of the stored crop
price has cached such a record for Punjab, the request for Maharashtra without
the network returns the bounds 0 around the current price 2862. -/
theorem adjustPriceByLocation_null_bound_becomes_zero :
    adjustPriceByLocation (JsVal.str "rice") (JsVal.str "Maharashtra") (JsVal.str "Punjab")
      { currentPrice := JsVal.num 2000, minPrice := JsVal.null, maxPrice := JsVal.null } =
      Completion.normal {
        currentPrice := JsVal.num 2186
        minPrice := JsVal.num 0
        maxPrice := JsVal.num 0
        location := JsVal.str "Maharashtra" } ∧
    (getMarketPrice quietEnv
      (getMarketPrice quietEnv riceProfileStore "rice" (some "Punjab") false).store
      "rice" (some "Maharashtra") false).result =
      { cropName := "rice"
        current := JsVal.num 2862
        min := JsVal.num 0
        max := JsVal.num 0
        unit := JsVal.str "per quintal"
        currency := JsVal.str "INR"
        location := JsVal.str "Maharashtra"
        source := JsVal.str "Cached (Offline)" } := by
  decide!

/-- C29 (as stated, it fails). For the location `valueOf` the multiplier that
`getLocationMultiplier` returns is an inherited function, not a finite number,
and `adjustPriceByLocation` takes its guard and returns the record as it
is. -/
theorem adjustPriceByLocation_guard_taken :
    getLocationMultiplier (JsVal.str "onion") (JsVal.str "valueOf")
      = Completion.normal (JsVal.obj "function valueOf() \x7b [native code] \x7d") ∧
    (JsVal.obj "function valueOf() \x7b [native code] \x7d").isFinite = false ∧
    adjustPriceByLocation (JsVal.str "onion") (JsVal.str "Punjab") (JsVal.str "valueOf")
      { currentPrice := JsVal.num 2000, minPrice := JsVal.num 1900, maxPrice := JsVal.num 2100 } =
      Completion.normal {
        currentPrice := JsVal.num 2000
        minPrice := JsVal.num 1900
        maxPrice := JsVal.num 2100 } := by
  decide!

/-- C30 (as stated, it fails). The key `chilli` of `cropToCommodity` has no
entry in `mockMarketPrices`: without the network, a cache entry or a stored
price, `getMarketPrice` answers for it from the generic range 3000 to 5000,
while the key `chili` is answered from its own range 6000 to 14000. -/
theorem mockMarketPrices_misses_chilli :
    cropToCommodity.lookup "chilli" = some "Chilli" ∧
    mockMarketPrices "chilli" = none ∧
    (getMarketPrice quietEnv emptyStore "chilli" none false).result.source
      = JsVal.str "Mock Data" ∧
    (getMarketPrice quietEnv emptyStore "chilli" none false).result.min = JsVal.num 3000 ∧
    (getMarketPrice quietEnv emptyStore "chilli" none false).result.current = JsVal.num 4000 ∧
    (getMarketPrice quietEnv emptyStore "chilli" none false).result.max = JsVal.num 5000 ∧
    (getMarketPrice quietEnv emptyStore "chili" none false).result.min = JsVal.num 6000 ∧
    (getMarketPrice quietEnv emptyStore "chili" none false).result.current = JsVal.num 10000 ∧
    (getMarketPrice quietEnv emptyStore "chili" none false).result.max = JsVal.num 14000 := by
  decide!

end AgroMitra
